import Mathlib

/-!
The control server, the state flags, the retry scheduler and the resolv.conf hooks
of dnssec-trigger.

A shallow embedding of `riggerd/svr.c` and of `riggerd/reshook.c` (resolv.conf
backend).  C strings are lists of characters
(the end of the list and a NUL character both terminate the string), C `int`
fields are `Int`, connections are held in the busy list and referred to by
their address, and every call that leaves `svr.c` (probe collaborator,
resolver hooks, update collaborator, TLS engine, event loop) is appended to a
call trace.
-/

namespace DnssecTrigger

/-! ## C strings -/

/-- A C string: the characters at a `char*`; reading stops at a NUL or at the end of the list. -/
abbrev CStr := List Char

/-- The terminating character of a C string. -/
def NUL : Char := Char.ofNat 0

/-- The character under a `char*` (a NUL at the end of the list). -/
def deref (s : CStr) : Char := s.headD NUL

/-- The contents of a C string, up to but excluding the terminator. -/
def cstr (s : CStr) : CStr := s.takeWhile (fun c => c ≠ NUL)

/-- Length of the C string, as `strlen`. -/
def strlen (s : CStr) : Nat := (cstr s).length

/-- Comparison of at most `n` characters, as `strncmp`: zero iff the compared parts agree. -/
def strncmp : CStr → CStr → Nat → Int
  | _, _, 0 => 0
  | s1, s2, n + 1 =>
    if deref s1 ≠ deref s2 then (deref s1).toNat - (deref s2).toNat
    else if deref s1 = NUL then 0
    else strncmp s1.tail s2.tail n

/-- Comparison of two C strings, as `strcmp`: zero iff their contents agree. -/
def strcmp : CStr → CStr → Int
  | [], s2 => (NUL.toNat : Int) - (deref s2).toNat
  | a :: s1, s2 =>
    if a ≠ deref s2 then (a.toNat : Int) - (deref s2).toNat
    else if a = NUL then 0
    else strcmp s1 s2.tail

/-- The string that `snprintf(buf, size, ...)` leaves in `buf` when the formatted text is
`text`: at most `size - 1` characters are kept. -/
def snprintf (size : Nat) (text : CStr) : CStr := text.take (size - 1)

/-- Decimal rendering of a C `int`, as the `%d` conversion. -/
def fmt_d (i : Int) : CStr :=
  if i < 0 then '-' :: Nat.toDigits 10 i.natAbs else Nat.toDigits 10 i.toNat

/-- The loop `while(*str == ' ') str++;`. -/
def skip_spaces (str : CStr) : CStr := str.dropWhile (fun c => c = ' ')

/-! ## Data model (`svr.h`, `probe.h`, `update.h`) -/

/-- Resolution state, `enum res_state`. -/
inductive res_state where
  | res_cache | res_tcp | res_ssl | res_auth | res_disconn | res_dark
  deriving DecidableEq, Repr

/-- Handshake state of a connection, `shake_state`. -/
inductive shake_state where
  | rc_hs_none | rc_hs_read | rc_hs_write | rc_hs_want_write | rc_hs_want_read
  | rc_hs_shutdown
  deriving DecidableEq, Repr

/-- Line state of a connection, `line_state`. -/
inductive line_state where
  | command_read | persist_read | persist_write | persist_write_checkclose
  deriving DecidableEq, Repr

/-- Result codes of `SSL_get_error` that the server distinguishes. -/
inductive ssl_error where
  | SSL_ERROR_NONE | SSL_ERROR_SSL | SSL_ERROR_WANT_READ | SSL_ERROR_WANT_WRITE
  | SSL_ERROR_SYSCALL | SSL_ERROR_ZERO_RETURN
  deriving DecidableEq, Repr

/-- An `ldns_buffer`: the stored bytes, the position and the limit. -/
structure ldns_buffer where
  data : CStr
  position : Nat
  limit : Nat
  capacity : Nat
  deriving DecidableEq, Repr

/-- The call `ldns_buffer_clear`. -/
def ldns_buffer_clear (b : ldns_buffer) : ldns_buffer :=
  { b with position := 0, limit := b.capacity }

/-- The call `ldns_buffer_flip`. -/
def ldns_buffer_flip (b : ldns_buffer) : ldns_buffer :=
  { b with limit := b.position, position := 0 }

/-- The call `ldns_buffer_printf` with formatted text `text`: written at the position, which
advances past it (the buffer grows when needed). -/
def ldns_buffer_printf (b : ldns_buffer) (text : CStr) : ldns_buffer :=
  { b with data := b.data.take b.position ++ text ++ b.data.drop (b.position + text.length),
           position := b.position + text.length,
           limit := max b.limit (b.position + text.length),
           capacity := max b.capacity (b.position + text.length) }

/-- The bytes between position and limit: what `ldns_buffer_current` and
`ldns_buffer_remaining` hand to the writer. -/
def ldns_buffer_pending (b : ldns_buffer) : CStr :=
  (b.data.drop b.position).take (b.limit - b.position)

/-- A probe entry, `struct probe_ip`. -/
structure probe_ip where
  name : CStr
  to_auth : Int
  to_http : Int
  dnstcp : Int
  ssldns : Int
  port : Int
  host_c : Option CStr
  http_desc : CStr
  http_ip6 : Int
  finished : Int
  works : Int
  reason : Option CStr
  deriving DecidableEq, Repr

/-- Modelled from the spec: `probe_is_cache` of `probe.c` is not among the source files. The
plain upstream probes are tagged `authority` or `cache`; a cache probe is one that is neither
to an authority, nor over TCP/TLS, nor an HTTP probe. -/
def probe_is_cache (p : probe_ip) : Bool :=
  p.to_auth = 0 && p.dnstcp = 0 && p.to_http = 0

/-- The update collaborator's record, `struct selfupdate`. -/
structure selfupdate where
  test_flag : Int
  update_available : Int
  user_replied : Int
  version_available : CStr
  deriving DecidableEq, Repr

/-- A control connection, `struct sslconn`; `ptr` is its address, which also names its
comm point and its TLS engine. -/
structure sslconn where
  ptr : Nat
  shake_state : shake_state
  line_state : line_state
  close_me : Int
  buffer : ldns_buffer
  fetch_another_update : Int
  deriving DecidableEq, Repr

/-- The server, `struct svr`. -/
structure svr where
  max_active : Int
  active : Int
  busy_list : List sslconn
  probes : List probe_ip
  probetime : Int
  res_state : res_state
  insecure_state : Int
  forced_insecure : Int
  http_insecure : Int
  skip_http : Int
  update_desired : Int
  update : Option selfupdate
  retry_timer_enabled : Int
  retry_timer_timeout : Int
  retry_timer_count : Int
  tcp_timer_used : Int
  deriving DecidableEq, Repr

/-- The two timers of the server. -/
inductive timer_id where
  | retry_timer | tcp_timer
  deriving DecidableEq, Repr

/-- Calls that leave `svr.c`, in the order made; `svr_send_results` marks each broadcast. -/
inductive Event where
  | probe_start (ips : CStr)
  | probe_unsafe_test
  | probe_tcp_test
  | probe_ssl_test
  | probe_http_test
  | hook_resolv_iplist (list : List probe_ip)
  | hook_resolv_localhost
  | selfupdate_userokay (okay : Int)
  | selfupdate_start
  | comm_base_exit
  | comm_point_listen_for_rw (c : Nat) (rd wr : Int)
  | comm_timer_set (t : timer_id) (tv_sec : Int)
  | comm_timer_disable (t : timer_id)
  | fd_set_block (ssl : Nat)
  | fd_set_nonblock (ssl : Nat)
  | SSL_write (ssl : Nat) (bytes : CStr)
  | SSL_shutdown (ssl : Nat)
  | svr_send_results
  | close (fd : Int)
  deriving DecidableEq, Repr

/-- What one `SSL_read` of a single byte gives: the byte, or a failure with the code that
`SSL_get_error` reports for it. -/
inductive read_result where
  | byte (c : Char)
  | fail (want : ssl_error)
  deriving DecidableEq, Repr

/-- What the TLS engine and the C library answer during one call into the server; the
server only reacts to these. `strftime t` is the text that `strftime` formats for the local
time of `t`, empty when it returns 0. A TLS call that can fail answers with its return value
and the code of `SSL_get_error`. `SSL_read` lists what the one-byte reads on a connection
give, in order; when the list is used up nothing more is buffered (`SSL_pending` is 0) and a
read would block. The last six fields are the answers to the calls of `handle_ssl_accept`:
the accepted socket (-1 for none), the address of the new `sslconn` (`none` when out of
memory) and whether each further allocation succeeds. -/
structure Env where
  SSL_shutdown : Nat → Int
  SSL_get_error : Nat → Int → ssl_error
  SSL_get_fd : Nat → Int
  SSL_get_shutdown : Nat → Int
  strftime : Int → CStr
  SSL_do_handshake : Nat → Int × ssl_error
  SSL_get_verify_result : Nat → Bool
  SSL_get_peer_certificate : Nat → Bool
  SSL_read : Nat → List read_result
  SSL_read0 : Nat → Int × ssl_error
  SSL_write : Nat → CStr → Int × ssl_error
  comm_point_perform_accept : Int
  calloc_sslconn : Option Nat
  comm_point_create_raw : Bool
  SSL_new : Bool
  SSL_set_fd : Bool
  ldns_buffer_new : Bool

/-- Constants of `svr.h` and `config.h`, which are not among the source files. -/
structure Consts where
  CONTROL_VERSION : Int
  RETRY_TIMER_START : Int
  RETRY_TIMER_MAX : Int
  RETRY_TIMER_COUNT_MAX : Int
  SVR_TCP_RETRY : Int
  PACKAGE_VERSION : CStr
  PACKAGE_STRING : CStr

/-- The process state seen by `svr.c`: the server behind `global_svr` and the call trace. -/
structure Daemon where
  global_svr : svr
  trace : List Event
  deriving DecidableEq, Repr

/-! ## Operations of `svr.c` -/

/-- Append a call to the trace. -/
def Daemon.call (d : Daemon) (e : Event) : Daemon :=
  { d with trace := d.trace ++ [e] }

/-- The connection at address `sc`, if it is (still) allocated. -/
def Daemon.conn (d : Daemon) (sc : Nat) : Option sslconn :=
  d.global_svr.busy_list.find? (fun c => c.ptr = sc)

/-- Assignment through the pointer `sc`. -/
def Daemon.set_conn (d : Daemon) (sc : Nat) (f : sslconn → sslconn) : Daemon :=
  { d with global_svr := { d.global_svr with
      busy_list := d.global_svr.busy_list.map (fun c => if c.ptr = sc then f c else c) } }

/-- Unlink the first node at address `sc` from the busy list. -/
def busy_list_unlink : List sslconn → Nat → List sslconn
  | [], _ => []
  | c :: rest, sc => if c.ptr = sc then rest else c :: busy_list_unlink rest sc

/-- The function `sslconn_delete`: unlink from the busy list, count down `active`, free. -/
def sslconn_delete (d : Daemon) (sc : Nat) : Daemon :=
  { d with global_svr := { d.global_svr with
      busy_list := busy_list_unlink d.global_svr.busy_list sc,
      active := d.global_svr.active - 1 } }

/-- The function `sslconn_shutdown`. -/
def sslconn_shutdown (env : Env) (d : Daemon) (sc : Nat) : Daemon :=
  let r := env.SSL_shutdown sc
  let d := d.call (.SSL_shutdown sc)
  if r > 0 then sslconn_delete d sc
  else if r = 0 then sslconn_delete d sc
  else
    let want := env.SSL_get_error sc r
    let d := d.set_conn sc (fun c => { c with shake_state := .rc_hs_shutdown })
    if want = .SSL_ERROR_ZERO_RETURN then sslconn_delete d sc
    else if want = .SSL_ERROR_WANT_READ then d.call (.comm_point_listen_for_rw sc 1 0)
    else if want = .SSL_ERROR_WANT_WRITE then d.call (.comm_point_listen_for_rw sc 0 1)
    else sslconn_delete d sc

/-- The format argument `p->reason?p->reason:""`. -/
def reason_text (p : probe_ip) : CStr :=
  match p.reason with
  | some r => cstr r
  | none => []

/-- The line that `send_results_to_con` prints for one finished probe. -/
def probe_line (p : probe_ip) : CStr :=
  let status : CStr := if p.works ≠ 0 then "OK".toList else "error".toList
  if p.to_http ≠ 0 then
    match p.host_c with
    | some qname =>
      "addr".toList ++ " ".toList ++ cstr qname ++ " ".toList ++
        (if p.http_ip6 ≠ 0 then "AAAA".toList else "A".toList) ++ " from ".toList ++
        cstr p.name ++ ": ".toList ++ status ++ " ".toList ++ reason_text p ++ "\n".toList
    | none =>
      "http".toList ++ " ".toList ++ cstr p.http_desc ++ " (".toList ++ cstr p.name ++
        "): ".toList ++ status ++ " ".toList ++ reason_text p ++ "\n".toList
  else if p.dnstcp ≠ 0 then
    (if p.ssldns ≠ 0 then "ssl".toList else "tcp".toList) ++ fmt_d p.port ++ " ".toList ++
      cstr p.name ++ ": ".toList ++ status ++ " ".toList ++ reason_text p ++ "\n".toList
  else
    (if p.to_auth ≠ 0 then "authority".toList else "cache".toList) ++ " ".toList ++
      cstr p.name ++ ": ".toList ++ status ++ " ".toList ++ reason_text p ++ "\n".toList

/-- The probe loop of `send_results_to_con`: the printed lines, `numcache` and `unfinished`. -/
def probe_lines : List probe_ip → CStr × Nat × Nat
  | [] => ([], 0, 0)
  | p :: rest =>
    let (text, numcache, unfinished) := probe_lines rest
    let numcache := if probe_is_cache p then numcache + 1 else numcache
    if p.finished = 0 then (text, numcache, unfinished + 1)
    else (probe_line p ++ text, numcache, unfinished)

/-- The `state:` line of `send_results_to_con`. -/
def state_line (svr : svr) : CStr :=
  "state: ".toList ++
  (if svr.res_state = .res_cache then "cache".toList else
   if svr.res_state = .res_tcp then "tcp".toList else
   if svr.res_state = .res_ssl then "ssl".toList else
   if svr.res_state = .res_auth then "auth".toList else
   if svr.res_state = .res_disconn then "disconnected".toList else "nodnssec".toList) ++
  " ".toList ++
  (if svr.insecure_state ≠ 0 then "insecure_mode".toList else "secure".toList) ++
  (if svr.forced_insecure ≠ 0 then " forced_insecure".toList else []) ++
  (if svr.http_insecure ≠ 0 then " http_insecure".toList else []) ++ "\n".toList

/-- The text of `append_update_to_con`. -/
def update_text (K : Consts) (version_available : CStr) : CStr :=
  "update ".toList ++ cstr K.PACKAGE_VERSION ++ "\n".toList ++ cstr version_available ++
    "\n\n".toList

/-- The function `append_update_to_con`. -/
def append_update_to_con (K : Consts) (s : sslconn) (version_available : CStr) : sslconn :=
  { s with buffer := ldns_buffer_printf s.buffer (update_text K version_available) }

/-- The whole text that `send_results_to_con` prints into the cleared buffer. -/
def results_text (K : Consts) (env : Env) (svr : svr) : CStr :=
  let at_line : CStr :=
    if svr.probetime = 0 then "at (no probe performed)\n".toList
    else if cstr (env.strftime svr.probetime) ≠ [] then
      "at ".toList ++ cstr (env.strftime svr.probetime) ++ "\n".toList
    else []
  let (lines, numcache, unfinished) := probe_lines svr.probes
  let progress : CStr :=
    if unfinished ≠ 0 then "probe is in progress\n".toList
    else if numcache = 0 then
      "no cache: no DNS servers have been supplied via DHCP\n".toList
    else []
  let upd : CStr :=
    match svr.update with
    | some u =>
      if u.update_available ≠ 0 ∧ u.user_replied = 0 then update_text K u.version_available
      else []
    | none => []
  at_line ++ lines ++ progress ++ state_line svr ++ "\n".toList ++ upd

/-- The function `send_results_to_con`, on the connection itself. -/
def send_results_to_con (K : Consts) (env : Env) (svr : svr) (s : sslconn) : sslconn :=
  { s with
    buffer := ldns_buffer_flip (ldns_buffer_printf (ldns_buffer_clear s.buffer)
      (results_text K env svr)),
    line_state := .persist_write }

/-- The function `send_results_to_con` through the pointer `sc`, with its
`comm_point_listen_for_rw(s->c, 1, 1)`. -/
def send_results_to_con_ptr (K : Consts) (env : Env) (d : Daemon) (sc : Nat) : Daemon :=
  (d.set_conn sc (send_results_to_con K env d.global_svr)).call
    (.comm_point_listen_for_rw sc 1 1)

/-- One round of the loop of `svr_send_results` on the connection `s`. -/
def svr_send_results_con (K : Consts) (env : Env) (svr : svr) (s : sslconn) : sslconn :=
  let s := if s.line_state = .persist_write then { s with fetch_another_update := 1 } else s
  if s.line_state = .persist_write_checkclose then send_results_to_con K env svr s else s

/-- The loop of `svr_send_results`: the busy list afterwards and the calls made. -/
def svr_send_results_loop (K : Consts) (env : Env) (svr : svr) :
    List sslconn → List sslconn × List Event
  | [] => ([], [])
  | s :: rest =>
    let (rest', calls) := svr_send_results_loop K env svr rest
    if s.line_state = .persist_write_checkclose then
      (svr_send_results_con K env svr s :: rest',
        Event.comm_point_listen_for_rw s.ptr 1 1 :: calls)
    else (svr_send_results_con K env svr s :: rest', calls)

/-- The function `svr_send_results`. -/
def svr_send_results (K : Consts) (env : Env) (d : Daemon) : Daemon :=
  let (busy, calls) := svr_send_results_loop K env d.global_svr d.global_svr.busy_list
  { global_svr := { d.global_svr with busy_list := busy },
    trace := d.trace ++ [Event.svr_send_results] ++ calls }

/-- The function `persist_cmd_insecure`. -/
def persist_cmd_insecure (K : Consts) (env : Env) (d : Daemon) (val : Int) : Daemon :=
  let was_insecure := d.global_svr.insecure_state
  let d := { d with global_svr := { d.global_svr with insecure_state := val } }
  let d :=
    if d.global_svr.res_state = .res_dark then
      if was_insecure = 0 ∧ val ≠ 0 then d.call (.hook_resolv_iplist d.global_svr.probes)
      else if was_insecure ≠ 0 ∧ val = 0 then d.call .hook_resolv_localhost
      else d
    else
      if d.global_svr.forced_insecure = 0 then
        { d with global_svr := { d.global_svr with insecure_state := 0 } }
      else d
  svr_send_results K env d

/-- The loop of `cmd_reprobe`: `buf` is the string built so far, `left` the space left. -/
def cmd_reprobe_loop : List probe_ip → CStr → Nat → CStr
  | [], buf, _ => buf
  | p :: rest, buf, left =>
    if probe_is_cache p then
      if left < strlen p.name + 3 then buf
      else
        let now := snprintf left ((if buf = [] then [] else [' ']) ++ cstr p.name)
        cmd_reprobe_loop rest (buf ++ now) (left - now.length)
    else cmd_reprobe_loop rest buf left

/-- The function `cmd_reprobe`: build the list of cache names, hand it to `probe_start`. -/
def cmd_reprobe (d : Daemon) : Daemon :=
  d.call (.probe_start (cmd_reprobe_loop d.global_svr.probes [] 10240))

/-- Modelled from the spec: `probe_setup_hotspot_signon` of `probe.c` is not among the source
files. Hotspot signon enters the dark, forced-insecure posture: `forced_insecure = 1`, the
iplist hook is called with the current probe list, and the state line reads
`dark insecure_mode forced_insecure`. -/
def probe_setup_hotspot_signon (d : Daemon) : Daemon :=
  ({ d with global_svr := { d.global_svr with
      res_state := .res_dark, insecure_state := 1, forced_insecure := 1 } }).call
    (.hook_resolv_iplist d.global_svr.probes)

/-- The function `handle_hotspot_signon_cmd`. -/
def handle_hotspot_signon_cmd (K : Consts) (env : Env) (d : Daemon) : Daemon :=
  svr_send_results K env (probe_setup_hotspot_signon d)

/-- The function `handle_skip_http_cmd`. -/
def handle_skip_http_cmd (d : Daemon) : Daemon :=
  cmd_reprobe { d with global_svr := { d.global_svr with skip_http := 1 } }

/-- The `reprobe` branch shared by both command channels: clear the two flags, reprobe. -/
def reprobe_branch (d : Daemon) : Daemon :=
  cmd_reprobe { d with global_svr := { d.global_svr with
    forced_insecure := 0, http_insecure := 0 } }

/-- The function `sslconn_persist_command`; `none` when `sc` is not a live connection. -/
def sslconn_persist_command (K : Consts) (env : Env) (d : Daemon) (sc : Nat) :
    Option Daemon :=
  match d.conn sc with
  | none => none
  | some c =>
    let str := skip_spaces c.buffer.data
    let d :=
      if deref str = NUL then d
      else if strcmp str "insecure yes".toList = 0 then persist_cmd_insecure K env d 1
      else if strcmp str "insecure no".toList = 0 then persist_cmd_insecure K env d 0
      else if strcmp str "reprobe".toList = 0 then reprobe_branch d
      else if strcmp str "skip_http".toList = 0 then handle_skip_http_cmd d
      else if strcmp str "hotspot_signon".toList = 0 then handle_hotspot_signon_cmd K env d
      else if strcmp str "update_cancel".toList = 0 then d.call (.selfupdate_userokay 0)
      else if strcmp str "update_ok".toList = 0 then d.call (.selfupdate_userokay 1)
      else d
    some (d.set_conn sc (fun c => { c with buffer := ldns_buffer_clear c.buffer }))

/-- The function `handle_submit`. -/
def handle_submit (d : Daemon) (ips : CStr) : Daemon :=
  d.call (.probe_start (cstr ips))

/-- The function `handle_results_cmd`. -/
def handle_results_cmd (K : Consts) (env : Env) (d : Daemon) (sc : Nat) : Daemon :=
  let d := d.set_conn sc (fun c =>
    { c with buffer := ldns_buffer_flip (ldns_buffer_clear c.buffer) })
  let d := d.call (.comm_point_listen_for_rw sc 1 0)
  let d := d.set_conn sc (fun c => { c with line_state := .persist_write_checkclose })
  send_results_to_con_ptr K env d sc

/-- The function `handle_status_cmd`. -/
def handle_status_cmd (K : Consts) (env : Env) (d : Daemon) (sc : Nat) : Daemon :=
  handle_results_cmd K env (d.set_conn sc (fun c => { c with close_me := 1 })) sc

/-- The function `handle_printclose`. -/
def handle_printclose (d : Daemon) (sc : Nat) (str : CStr) : Daemon :=
  let d := d.set_conn sc (fun c => { c with close_me := 1 })
  let d := d.call (.comm_point_listen_for_rw sc 1 1)
  let d := d.set_conn sc (fun c => { c with line_state := .persist_write })
  let d := d.set_conn sc (fun c => { c with buffer := ldns_buffer_clear c.buffer })
  let d := d.set_conn sc (fun c =>
    { c with buffer := ldns_buffer_printf c.buffer (cstr str ++ "\n".toList) })
  d.set_conn sc (fun c => { c with buffer := ldns_buffer_flip c.buffer })

/-- The function `handle_cmdtray_cmd` (without `HOOKS_OSX`). -/
def handle_cmdtray_cmd (d : Daemon) (sc : Nat) : Daemon :=
  let d := d.set_conn sc (fun c => { c with buffer := ldns_buffer_clear c.buffer })
  let d := d.call (.comm_point_listen_for_rw sc 1 0)
  d.set_conn sc (fun c => { c with line_state := .persist_read })

/-- The function `handle_unsafe_cmd`. -/
def handle_unsafe_cmd (env : Env) (d : Daemon) (sc : Nat) : Daemon :=
  sslconn_shutdown env (d.call .probe_unsafe_test) sc

/-- The function `handle_test_tcp_cmd`. -/
def handle_test_tcp_cmd (env : Env) (d : Daemon) (sc : Nat) : Daemon :=
  sslconn_shutdown env (d.call .probe_tcp_test) sc

/-- The function `handle_test_ssl_cmd`. -/
def handle_test_ssl_cmd (env : Env) (d : Daemon) (sc : Nat) : Daemon :=
  sslconn_shutdown env (d.call .probe_ssl_test) sc

/-- The function `handle_test_http_cmd`. -/
def handle_test_http_cmd (env : Env) (d : Daemon) (sc : Nat) : Daemon :=
  sslconn_shutdown env (d.call .probe_http_test) sc

/-- The function `handle_test_update_cmd`: `global_svr->update` is dereferenced, so there is
no result (`none`) when that pointer is NULL. -/
def handle_test_update_cmd (env : Env) (d : Daemon) (sc : Nat) : Option Daemon :=
  match d.global_svr.update with
  | none => none
  | some u =>
    let d := { d with global_svr := { d.global_svr with
      update := some { u with test_flag := 1 } } }
    let d := { d with global_svr := { d.global_svr with update_desired := 1 } }
    some (sslconn_shutdown env d sc)

/-- One round of the loop of `handle_stoppanels_cmd`: the connection afterwards and the calls
made on it. -/
def handle_stoppanels_con (env : Env) (s : sslconn) : sslconn × List Event :=
  if s.line_state ≠ .persist_write_checkclose ∧ s.line_state ≠ .persist_write then (s, [])
  else
    let calls : List Event :=
      (if env.SSL_get_fd s.ptr ≠ -1 then [Event.fd_set_block s.ptr] else []) ++
      (if s.line_state = .persist_write then
        [Event.SSL_write s.ptr (ldns_buffer_pending s.buffer)] else []) ++
      [Event.SSL_write s.ptr "stop\n".toList] ++
      (if env.SSL_get_shutdown s.ptr = 0 then
        (if env.SSL_shutdown s.ptr = 0 then
          [Event.SSL_shutdown s.ptr, Event.SSL_shutdown s.ptr]
         else [Event.SSL_shutdown s.ptr])
       else []) ++
      (if env.SSL_get_fd s.ptr ≠ -1 then [Event.fd_set_nonblock s.ptr] else []) ++
      [Event.comm_point_listen_for_rw s.ptr 1 0]
    ({ s with line_state := .persist_write_checkclose }, calls)

/-- The loop of `handle_stoppanels_cmd` over the busy list. -/
def handle_stoppanels_loop (env : Env) : List sslconn → List sslconn × List Event
  | [] => ([], [])
  | s :: rest =>
    let (s', calls) := handle_stoppanels_con env s
    let (rest', calls') := handle_stoppanels_loop env rest
    (s' :: rest', calls ++ calls')

/-- The function `handle_stoppanels_cmd`. -/
def handle_stoppanels_cmd (env : Env) (d : Daemon) (sc : Nat) : Daemon :=
  let (busy, calls) := handle_stoppanels_loop env d.global_svr.busy_list
  let d : Daemon := { global_svr := { d.global_svr with busy_list := busy },
                      trace := d.trace ++ calls }
  sslconn_shutdown env d sc

/-- The branches of the command cascade of `sslconn_command`. -/
inductive Command where
  | submit | reprobe | skip_http | hotspot_signon | results | status | cmdtray
  | unsafe_test | test_tcp | test_ssl | test_http | test_update | stoppanels | stop
  | unknown
  deriving DecidableEq, Repr

/-- The cascade of prefix comparisons of `sslconn_command`, on the text after the version
header and the spaces that follow it. -/
def sslconn_command_select (str : CStr) : Command :=
  if strncmp str "submit".toList 6 = 0 then .submit
  else if strncmp str "reprobe".toList 7 = 0 then .reprobe
  else if strncmp str "skip_http".toList 9 = 0 then .skip_http
  else if strncmp str "hotspot_signon".toList 14 = 0 then .hotspot_signon
  else if strncmp str "results".toList 7 = 0 then .results
  else if strncmp str "status".toList 7 = 0 then .status
  else if strncmp str "cmdtray".toList 7 = 0 then .cmdtray
  else if strncmp str "unsafe".toList 6 = 0 then .unsafe_test
  else if strncmp str "test_tcp".toList 8 = 0 then .test_tcp
  else if strncmp str "test_ssl".toList 8 = 0 then .test_ssl
  else if strncmp str "test_http".toList 8 = 0 then .test_http
  else if strncmp str "test_update".toList 11 = 0 then .test_update
  else if strncmp str "stoppanels".toList 10 = 0 then .stoppanels
  else if strncmp str "stop".toList 4 = 0 then .stop
  else .unknown

/-- The body of the selected branch of `sslconn_command`. -/
def sslconn_command_run (K : Consts) (env : Env) (d : Daemon) (sc : Nat) (str : CStr) :
    Command → Option Daemon
  | .submit => some (sslconn_shutdown env (handle_submit d (str.drop 6)) sc)
  | .reprobe => some (sslconn_shutdown env (reprobe_branch d) sc)
  | .skip_http => some (sslconn_shutdown env (handle_skip_http_cmd d) sc)
  | .hotspot_signon => some (sslconn_shutdown env (handle_hotspot_signon_cmd K env d) sc)
  | .results => some (handle_results_cmd K env d sc)
  | .status => some (handle_status_cmd K env d sc)
  | .cmdtray => some (handle_cmdtray_cmd d sc)
  | .unsafe_test => some (handle_unsafe_cmd env d sc)
  | .test_tcp => some (handle_test_tcp_cmd env d sc)
  | .test_ssl => some (handle_test_ssl_cmd env d sc)
  | .test_http => some (handle_test_http_cmd env d sc)
  | .test_update => handle_test_update_cmd env d sc
  | .stoppanels => some (handle_stoppanels_cmd env d sc)
  | .stop => some (sslconn_shutdown env (d.call .comm_base_exit) sc)
  | .unknown => some (handle_printclose d sc "error unknown command".toList)

/-- The version header that `sslconn_command` formats into `char header[10]`. -/
def control_header (K : Consts) : CStr :=
  snprintf 10 ("DNSTRIG".toList ++ fmt_d K.CONTROL_VERSION ++ " ".toList)

/-- The function `sslconn_command` on the line held in the buffer of connection `sc`; `none`
when `sc` is not a live connection or a NULL pointer is dereferenced. -/
def sslconn_command (K : Consts) (env : Env) (d : Daemon) (sc : Nat) : Option Daemon :=
  match d.conn sc with
  | none => none
  | some c =>
    let header := control_header K
    let str := c.buffer.data
    if strncmp str header (strlen header) ≠ 0 then some (sslconn_delete d sc)
    else
      let str := str.drop (strlen header)
      let str := skip_spaces str
      sslconn_command_run K env d sc str (sslconn_command_select str)

/-! ### The connection callback -/

/-- The call `ldns_buffer_available`: whether `count` bytes fit before the limit. -/
def ldns_buffer_available (b : ldns_buffer) (count : Nat) : Bool :=
  decide (count ≤ b.limit - b.position)

/-- Storing one byte at `ldns_buffer_current`, as `SSL_read` does; the position stays. -/
def ldns_buffer_poke (b : ldns_buffer) (c : Char) : ldns_buffer :=
  { b with data := b.data.take b.position ++ [c] ++ b.data.drop (b.position + 1) }

/-- The call `ldns_buffer_write_u8`. -/
def ldns_buffer_write_u8 (b : ldns_buffer) (c : Char) : ldns_buffer :=
  { ldns_buffer_poke b c with position := b.position + 1 }

/-- The call `ldns_buffer_skip`. -/
def ldns_buffer_skip (b : ldns_buffer) (count : Nat) : ldns_buffer :=
  { b with position := b.position + count }

/-- The function `sslconn_readline` on the bytes that the reads of this dispatch give: the
state afterwards, the return value (true when a whole line is in the buffer) and the reads
not yet used. `none` when `sc` is not a live connection. -/
def sslconn_readline (env : Env) (sc : Nat) :
    List read_result → Daemon → Option (Daemon × Bool × List read_result)
  | [], d =>
    match d.conn sc with
    | none => none
    | some c =>
      if ldns_buffer_available c.buffer 1 = false then some (sslconn_delete d sc, false, [])
      else some (d, false, [])
  | r :: rest, d =>
    match d.conn sc with
    | none => none
    | some c =>
      if ldns_buffer_available c.buffer 1 = false then
        some (sslconn_delete d sc, false, r :: rest)
      else
        match r with
        | .fail want =>
          if want = .SSL_ERROR_ZERO_RETURN then some (sslconn_shutdown env d sc, false, rest)
          else if want = .SSL_ERROR_WANT_READ then some (d, false, rest)
          else if want = .SSL_ERROR_WANT_WRITE then
            some ((d.set_conn sc (fun c => { c with shake_state := .rc_hs_want_write })).call
              (.comm_point_listen_for_rw sc 0 1), false, rest)
          else some (sslconn_delete d sc, false, rest)
        | .byte ch =>
          let d := d.set_conn sc (fun c => { c with buffer := ldns_buffer_poke c.buffer ch })
          if ch = '\n' then
            some (d.set_conn sc (fun c =>
              { c with buffer := ldns_buffer_flip (ldns_buffer_write_u8 c.buffer NUL) }),
              true, rest)
          else
            sslconn_readline env sc rest
              (d.set_conn sc (fun c => { c with buffer := ldns_buffer_skip c.buffer 1 }))

/-- The connection after `ldns_buffer_skip(sc->buffer, count)`. -/
def conn_skip (count : Nat) (c : sslconn) : sslconn :=
  { c with buffer := ldns_buffer_skip c.buffer count }

/-- The loop of `sslconn_write`; `SSL_write` takes at most the bytes it is offered, and the
bytes it takes are recorded in the trace. -/
def sslconn_write_loop (env : Env) (sc : Nat) : Nat → Daemon → Option (Daemon × Bool)
  | 0, d => some (d, true)
  | fuel + 1, d =>
    match d.conn sc with
    | none => none
    | some c =>
      if c.buffer.limit - c.buffer.position = 0 then some (d, true)
      else
        let r := (env.SSL_write sc (ldns_buffer_pending c.buffer)).1
        let want := (env.SSL_write sc (ldns_buffer_pending c.buffer)).2
        if r ≤ 0 then
          if want = .SSL_ERROR_ZERO_RETURN then some (sslconn_delete d sc, false)
          else if want = .SSL_ERROR_WANT_READ then
            some ((d.set_conn sc (fun c => { c with shake_state := .rc_hs_want_read })).call
              (.comm_point_listen_for_rw sc 1 0), false)
          else if want = .SSL_ERROR_WANT_WRITE then some (d, false)
          else some (sslconn_delete d sc, false)
        else
          let n := min r.toNat (c.buffer.limit - c.buffer.position)
          sslconn_write_loop env sc fuel
            ((d.call (.SSL_write sc ((ldns_buffer_pending c.buffer).take n))).set_conn sc
              (conn_skip n))

/-- The function `sslconn_write`: the state afterwards and the return value (true when the
buffer has been written out). `none` when `sc` is not a live connection. -/
def sslconn_write (env : Env) (d : Daemon) (sc : Nat) : Option (Daemon × Bool) :=
  match d.conn sc with
  | none => none
  | some c => sslconn_write_loop env sc (c.buffer.limit - c.buffer.position + 1) d

/-- The function `sslconn_checkclose`: the state afterwards and the return value. `none`
when `sc` is not a live connection. -/
def sslconn_checkclose (env : Env) (d : Daemon) (sc : Nat) : Option (Daemon × Bool) :=
  match d.conn sc with
  | none => none
  | some _ =>
    let r := (env.SSL_read0 sc).1
    let want := (env.SSL_read0 sc).2
    if r ≤ 0 then
      if want = .SSL_ERROR_ZERO_RETURN then some (sslconn_shutdown env d sc, true)
      else if want = .SSL_ERROR_WANT_READ then some (d, false)
      else if want = .SSL_ERROR_WANT_WRITE then
        some ((d.set_conn sc (fun c => { c with shake_state := .rc_hs_want_write })).call
          (.comm_point_listen_for_rw sc 0 1), false)
      else if want = .SSL_ERROR_SYSCALL then some (sslconn_delete d sc, false)
      else some (sslconn_delete d sc, true)
    else if env.SSL_get_shutdown sc ≠ 0 then some (sslconn_delete d sc, true)
    else some (d, false)

/-- The handshake part of `control_callback` for a live connection `c`: the state
afterwards and whether the callback goes on to the line state (false: it has returned). -/
def control_callback_shake (env : Env) (d : Daemon) (sc : Nat) (c : sslconn) :
    Daemon × Bool :=
  if c.shake_state = .rc_hs_read ∨ c.shake_state = .rc_hs_write then
    let r := (env.SSL_do_handshake sc).1
    let r2 := (env.SSL_do_handshake sc).2
    if r ≠ 1 then
      if r2 = .SSL_ERROR_WANT_READ then
        if c.shake_state = .rc_hs_read then (d, false)
        else ((d.set_conn sc (fun c => { c with shake_state := .rc_hs_read })).call
          (.comm_point_listen_for_rw sc 1 0), false)
      else if r2 = .SSL_ERROR_WANT_WRITE then
        if c.shake_state = .rc_hs_write then (d, false)
        else ((d.set_conn sc (fun c => { c with shake_state := .rc_hs_write })).call
          (.comm_point_listen_for_rw sc 0 1), false)
      else (sslconn_delete d sc, false)
    else if env.SSL_get_verify_result sc = false then (sslconn_delete d sc, false)
    else if env.SSL_get_peer_certificate sc = false then (sslconn_delete d sc, false)
    else
      let d := d.set_conn sc (fun c => { c with line_state := .command_read })
      let d := if c.shake_state = .rc_hs_write then
        d.call (.comm_point_listen_for_rw sc 1 0) else d
      let d := d.set_conn sc (fun c => { c with shake_state := .rc_hs_none })
      (d.set_conn sc (fun c => { c with buffer := ldns_buffer_clear c.buffer }), true)
  else if c.shake_state = .rc_hs_want_write then
    ((d.call (.comm_point_listen_for_rw sc 1 0)).set_conn sc
      (fun c => { c with shake_state := .rc_hs_none }), true)
  else if c.shake_state = .rc_hs_want_read then
    ((d.call (.comm_point_listen_for_rw sc 1 1)).set_conn sc
      (fun c => { c with shake_state := .rc_hs_none }), true)
  else if c.shake_state = .rc_hs_shutdown then (sslconn_shutdown env d sc, true)
  else (d, true)

/-- The `do ... while(SSL_pending(s->ssl) != 0)` loop of the `persist_read` branch. -/
def persist_read_loop (K : Consts) (env : Env) (sc : Nat) :
    Nat → List read_result → Daemon → Option Daemon
  | 0, _, d => some d
  | fuel + 1, input, d =>
    match sslconn_readline env sc input d with
    | none => none
    | some (d, false, _) => some d
    | some (d, true, rest) =>
      match sslconn_persist_command K env d sc with
      | none => none
      | some d => if rest ≠ [] then persist_read_loop K env sc fuel rest d else some d

/-- The `persist_write` branch of `control_callback`. -/
def control_callback_persist_write (K : Consts) (env : Env) (d : Daemon) (sc : Nat) :
    Option Daemon :=
  match sslconn_checkclose env d sc with
  | none => none
  | some (d, true) => some d
  | some (d, false) =>
    match sslconn_write env d sc with
    | none => none
    | some (d, false) => some d
    | some (d, true) =>
      match d.conn sc with
      | none => none
      | some c =>
        if c.fetch_another_update ≠ 0 then
          some (send_results_to_con_ptr K env
            (d.set_conn sc (fun c => { c with fetch_another_update := 0 })) sc)
        else if c.close_me ≠ 0 then some (sslconn_shutdown env d sc)
        else
          some ((d.call (.comm_point_listen_for_rw sc 1 0)).set_conn sc
            (fun c => { c with line_state := .persist_write_checkclose }))

/-- The line-state part of `control_callback`; `none` when `sc` is no longer a live
connection, as its `line_state` is read. -/
def control_callback_line (K : Consts) (env : Env) (d : Daemon) (sc : Nat) : Option Daemon :=
  match d.conn sc with
  | none => none
  | some c =>
    match c.line_state with
    | .command_read =>
      match sslconn_readline env sc (env.SSL_read sc) d with
      | none => none
      | some (d, false, _) => some d
      | some (d, true, _) => sslconn_command K env d sc
    | .persist_read =>
      persist_read_loop K env sc ((env.SSL_read sc).length + 1) (env.SSL_read sc) d
    | .persist_write => control_callback_persist_write K env d sc
    | .persist_write_checkclose => (sslconn_checkclose env d sc).map (fun r => r.1)

/-- The function `control_callback` with `err` its error argument (0 is
`NETEVENT_NOERROR`); `none` when a dead connection or a NULL pointer is dereferenced. -/
def control_callback (K : Consts) (env : Env) (d : Daemon) (sc : Nat) (err : Int) :
    Option Daemon :=
  match d.conn sc with
  | none => none
  | some c =>
    if err ≠ 0 then some (sslconn_delete d sc)
    else
      match control_callback_shake env d sc c with
      | (d, false) => some d
      | (d, true) => control_callback_line K env d sc

/-- The connection that `handle_ssl_accept` sets up at the address `ptr`: zeroed by
`calloc`, then `shake_state = rc_hs_read` and an empty buffer of 65536 bytes. The zeroed
`line_state` is read as `command_read`: the enumeration is declared in `svr.h`, which is
not among the source files, and `control_callback` treats a new connection as reading its
command. -/
def sslconn_calloc (ptr : Nat) : sslconn :=
  { ptr := ptr, shake_state := .rc_hs_read, line_state := .command_read, close_me := 0,
    buffer := { data := [], position := 0, limit := 65536, capacity := 65536 },
    fetch_another_update := 0 }

/-- The statements `sc->next = svr->busy_list; svr->busy_list = sc; svr->active ++;`. -/
def busy_list_push (d : Daemon) (sc : sslconn) : Daemon :=
  { d with global_svr := { d.global_svr with
      busy_list := sc :: d.global_svr.busy_list,
      active := d.global_svr.active + 1 } }

/-- The function `handle_ssl_accept` with `err` its error argument. -/
def handle_ssl_accept (K : Consts) (env : Env) (d : Daemon) (err : Int) : Option Daemon :=
  if err ≠ 0 then some d
  else if env.comm_point_perform_accept = -1 then some d
  else if d.global_svr.active ≥ d.global_svr.max_active then
    some (d.call (.close env.comm_point_perform_accept))
  else
    match env.calloc_sslconn with
    | none => some (d.call (.close env.comm_point_perform_accept))
    | some ptr =>
      if env.comm_point_create_raw = false then
        some (d.call (.close env.comm_point_perform_accept))
      else if env.SSL_new = false then some d
      else if env.SSL_set_fd = false then some d
      else if env.ldns_buffer_new = false then some d
      else
        control_callback K env (busy_list_push d (sslconn_calloc ptr)) ptr 0

/-- The function `svr_signal_update`, one round of its loop on the connection `s`. -/
def svr_signal_update_con (K : Consts) (version_available : CStr) (s : sslconn) : sslconn :=
  let s := if s.line_state = .persist_write then { s with fetch_another_update := 1 } else s
  if s.line_state = .persist_write_checkclose then
    { s with
      buffer := ldns_buffer_flip (ldns_buffer_printf (ldns_buffer_clear s.buffer)
        (update_text K version_available)),
      line_state := .persist_write }
  else s

/-- The function `svr_signal_update`. -/
def svr_signal_update (K : Consts) (d : Daemon) (version_available : CStr) : Daemon :=
  { global_svr := { d.global_svr with
      busy_list := d.global_svr.busy_list.map (svr_signal_update_con K version_available) },
    trace := d.trace ++
      (d.global_svr.busy_list.filter
        (fun s => s.line_state = .persist_write_checkclose)).map
        (fun s => Event.comm_point_listen_for_rw s.ptr 1 1) }

/-! ### Retry scheduler -/

/-- The value an `int` holds after an arithmetic result `x` (two's complement, 32 bits). -/
def int_wrap (x : Int) : Int := (x + 2 ^ 31) % 2 ^ 32 - 2 ^ 31

/-- The function `svr_retry_setit`: arm the retry timer with the current period. -/
def svr_retry_setit (d : Daemon) : Daemon :=
  d.call (.comm_timer_set .retry_timer d.global_svr.retry_timer_timeout)

/-- The function `svr_retry_start`. -/
def svr_retry_start (K : Consts) (d : Daemon) (http_mode : Int) : Daemon :=
  let d := { d with global_svr := { d.global_svr with
    retry_timer_timeout := K.RETRY_TIMER_START } }
  let d :=
    if http_mode ≠ 0 then { d with global_svr := { d.global_svr with retry_timer_count := 1 } }
    else { d with global_svr := { d.global_svr with
      retry_timer_count := K.RETRY_TIMER_COUNT_MAX } }
  let d := { d with global_svr := { d.global_svr with retry_timer_enabled := 1 } }
  svr_retry_setit d

/-- The function `svr_retry_timer_next`. -/
def svr_retry_timer_next (K : Consts) (d : Daemon) (http_mode : Int) : Daemon :=
  if d.global_svr.retry_timer_enabled = 0 then svr_retry_start K d http_mode
  else
    let d :=
      if d.global_svr.retry_timer_count < K.RETRY_TIMER_COUNT_MAX then
        { d with global_svr := { d.global_svr with
          retry_timer_count := d.global_svr.retry_timer_count + 1 } }
      else
        let d := { d with global_svr := { d.global_svr with
          retry_timer_timeout := int_wrap (d.global_svr.retry_timer_timeout * 2) } }
        if d.global_svr.retry_timer_timeout > K.RETRY_TIMER_MAX then
          { d with global_svr := { d.global_svr with
            retry_timer_timeout := K.RETRY_TIMER_MAX } }
        else d
    svr_retry_setit d

/-- The function `svr_retry_timer_stop`. -/
def svr_retry_timer_stop (d : Daemon) : Daemon :=
  if d.global_svr.retry_timer_enabled = 0 then d
  else
    ({ d with global_svr := { d.global_svr with retry_timer_enabled := 0 } }).call
      (.comm_timer_disable .retry_timer)

/-- The function `svr_retry_callback`. -/
def svr_retry_callback (d : Daemon) : Daemon :=
  if d.global_svr.retry_timer_enabled = 0 then d.call (.comm_timer_disable .retry_timer)
  else cmd_reprobe d

/-- The function `svr_tcp_timer_stop`. -/
def svr_tcp_timer_stop (d : Daemon) : Daemon :=
  d.call (.comm_timer_disable .retry_timer)

/-- The function `svr_tcp_timer_enable`. -/
def svr_tcp_timer_enable (K : Consts) (d : Daemon) : Daemon :=
  if d.global_svr.tcp_timer_used ≠ 0 then d
  else d.call (.comm_timer_set .tcp_timer K.SVR_TCP_RETRY)

/-- The function `svr_tcp_callback`. -/
def svr_tcp_callback (d : Daemon) : Daemon :=
  let d := d.call (.comm_timer_disable .tcp_timer)
  if d.global_svr.res_state = .res_tcp ∨ d.global_svr.res_state = .res_ssl then
    cmd_reprobe { d with global_svr := { d.global_svr with tcp_timer_used := 1 } }
  else d

/-- The function `svr_check_update`. -/
def svr_check_update (d : Daemon) : Daemon :=
  if d.global_svr.update_desired ≠ 0 ∧ d.global_svr.insecure_state = 0 ∧
      d.global_svr.forced_insecure = 0 ∧ d.global_svr.res_state ≠ .res_dark ∧
      d.global_svr.res_state ≠ .res_disconn then
    d.call .selfupdate_start
  else d

/-- The server that `svr_create` returns: zeroed by `calloc`, `max_active = 32`, and an update
collaborator exactly when `check_updates` is on. -/
def svr_create (check_updates : Int) : Daemon :=
  { global_svr :=
      { max_active := 32, active := 0, busy_list := [], probes := [], probetime := 0,
        res_state := .res_cache, insecure_state := 0, forced_insecure := 0,
        http_insecure := 0, skip_http := 0, update_desired := 0,
        update := if check_updates ≠ 0 then
          some { test_flag := 0, update_available := 0, user_replied := 0,
                 version_available := [] } else none,
        retry_timer_enabled := 0, retry_timer_timeout := 0, retry_timer_count := 0,
        tcp_timer_used := 0 },
    trace := [] }

/-! ## Resolver hooks (`reshook.c`, resolv.conf backend) -/

/-- The fields of `struct cfg` that the hooks read; `cfg->resolvconf` names the one file
that `Host.resolvconf` holds. An option that is not configured is a NULL pointer. -/
structure cfg where
  rescf_domain : Option CStr
  rescf_search : Option CStr
  noaction : Int
  deriving DecidableEq, Repr

/-- Calls on the file `cfg->resolvconf` that change it or its protection, in the order
made; `chmod` with its mode in octal digits. -/
inductive file_call where
  | r_mutable
  | chmod (mode : Nat)
  | fopen_w
  | fclose
  | r_immutable
  deriving DecidableEq, Repr

/-- What the C library answers to the hooks: whether `fopen(cfg->resolvconf, "w")` gives a
stream, and the return value of `fprintf(out, "%s", line)` for a text, which is also the
number of characters that reach the file. -/
structure libc where
  fopen_w : Bool
  fprintf : CStr → Int

/-- The state the hooks work on: the static `set_to_localhost`, the content of the file
`cfg->resolvconf` (`none` when it cannot be opened for reading) and the calls made. -/
structure Host where
  set_to_localhost : Int
  resolvconf : Option CStr
  calls : List file_call
  deriving DecidableEq, Repr

/-- Append a call to the calls made. -/
def Host.call (h : Host) (e : file_call) : Host :=
  { h with calls := h.calls ++ [e] }

/-- The string literal `"# Generated by " PACKAGE_STRING "\n"`. -/
def signature_line (K : Consts) : CStr :=
  "# Generated by ".toList ++ K.PACKAGE_STRING ++ "\n".toList

/-- The function `prline` on the text written to the stream so far. -/
def prline (env : libc) (out : CStr) (line : CStr) : CStr :=
  out ++ (cstr line).take (env.fprintf (cstr line)).toNat

/-- The function `open_rescf` (not OSX): the state afterwards and, when the file opens, the
text written to the stream so far. -/
def open_rescf (K : Consts) (env : libc) (cfg : cfg) (h : Host) : Host × Option CStr :=
  let h := h.call .r_mutable
  let h := h.call (.chmod 644)
  if env.fopen_w = false then (h, none)
  else
    let h := { h.call .fopen_w with resolvconf := some [] }
    let out := prline env [] (signature_line K)
    let out :=
      match cfg.rescf_domain with
      | some d => prline env out (snprintf 1024 ("domain ".toList ++ cstr d ++ "\n".toList))
      | none => out
    let out :=
      match cfg.rescf_search with
      | some s => prline env out (snprintf 1024 ("search ".toList ++ cstr s ++ "\n".toList))
      | none => out
    (h, some out)

/-- The function `close_rescf` (not OSX), `out` being the text written to the stream. -/
def close_rescf (h : Host) (out : CStr) : Host :=
  (({ h with resolvconf := some out }.call .fclose).call (.chmod 444)).call .r_immutable

/-- The function `check_line_arg`. -/
def check_line_arg (line : CStr) (opt : Option CStr) : Int :=
  match opt with
  | none => 0
  | some opt =>
    if strncmp line opt (strlen opt) ≠ 0 then 0
    else if strcmp (line.drop (strlen opt)) "\n".toList ≠ 0 then 0
    else 1

/-- The characters one `fgets` call stores when `room` characters fit: up to and including
the first newline; and the rest of the stream. -/
def fgets_take : Nat → CStr → CStr × CStr
  | 0, stream => ([], stream)
  | _ + 1, [] => ([], [])
  | room + 1, ch :: stream =>
    if ch = '\n' then ([ch], stream)
    else ((fgets_take room stream).1.cons ch, (fgets_take room stream).2)

/-- The call `fgets(line, size, in)` on the unread part of the stream: `none` is the NULL
it returns at the end of the file, else the line stored and the part still unread. -/
def fgets (size : Nat) (stream : CStr) : Option (CStr × CStr) :=
  if stream = [] then none else some (fgets_take (size - 1) stream)

/-- The `while(fgets(...))` loop of `really_set_to_localhost` and the tests after it, on
the unread part of the file; `fuel` bounds the number of rounds, and `none` is the result
when it runs out. -/
def really_set_to_localhost_loop (cfg : cfg) :
    Nat → CStr → Int → Int → Int → Option Int
  | 0, _, _, _, _ => none
  | fuel + 1, stream, saw_127, saw_search, saw_domain =>
    match fgets 1024 stream with
    | none =>
      if cfg.rescf_search.isSome ∧ saw_search = 0 then some 0
      else if cfg.rescf_domain.isSome ∧ saw_domain = 0 then some 0
      else some saw_127
    | some (line, rest) =>
      let line := line.take 1023
      if strcmp line "nameserver 127.0.0.1\n".toList = 0 then
        really_set_to_localhost_loop cfg fuel rest 1 saw_search saw_domain
      else if strncmp line "nameserver".toList 10 = 0 then some 0
      else if strncmp line "search ".toList 7 = 0 then
        if check_line_arg (line.drop 7) cfg.rescf_search = 0 then some 0
        else really_set_to_localhost_loop cfg fuel rest saw_127 1 saw_domain
      else if strncmp line "domain ".toList 7 = 0 then
        if check_line_arg (line.drop 7) cfg.rescf_domain = 0 then some 0
        else really_set_to_localhost_loop cfg fuel rest saw_127 saw_search 1
      else really_set_to_localhost_loop cfg fuel rest saw_127 saw_search saw_domain

/-- The function `really_set_to_localhost`. Every round of its loop reads at least one
character, so the length of the file bounds the number of rounds. -/
def really_set_to_localhost (K : Consts) (cfg : cfg) (h : Host) : Option Int :=
  match h.resolvconf with
  | none => some 0
  | some content =>
    match fgets 1024 content with
    | none => some 0
    | some (line, rest) =>
      if strcmp line (signature_line K) ≠ 0 then some 0
      else really_set_to_localhost_loop cfg (rest.length + 1) rest 0 0 0

/-- The function `hook_resolv_localhost` on the resolv.conf backend (neither `USE_WINSOCK`
nor `HOOKS_OSX`). -/
def hook_resolv_localhost (K : Consts) (env : libc) (cfg : cfg) (h : Host) : Option Host :=
  let h := { h with set_to_localhost := 1 }
  if cfg.noaction ≠ 0 then some h
  else
    match really_set_to_localhost K cfg h with
    | none => none
    | some r =>
      if r ≠ 0 then some h
      else
        match open_rescf K env cfg h with
        | (h, none) => some h
        | (h, some out) =>
          some (close_rescf h (prline env out "nameserver 127.0.0.1\n".toList))

/-- The `while(list)` loop of `hook_resolv_iplist` (resolv.conf backend) on the text
written to the stream so far. -/
def hook_resolv_iplist_loop (env : libc) : List probe_ip → CStr → CStr
  | [], out => out
  | p :: rest, out =>
    if probe_is_cache p then
      hook_resolv_iplist_loop env rest
        (prline env out (snprintf 1024 ("nameserver ".toList ++ cstr p.name ++ "\n".toList)))
    else hook_resolv_iplist_loop env rest out

/-- The function `hook_resolv_iplist` on the resolv.conf backend (neither `USE_WINSOCK`
nor `HOOKS_OSX`). -/
def hook_resolv_iplist (K : Consts) (env : libc) (cfg : cfg) (h : Host)
    (list : List probe_ip) : Host :=
  let h := { h with set_to_localhost := 0 }
  if cfg.noaction ≠ 0 then h
  else
    match open_rescf K env cfg h with
    | (h, none) => h
    | (h, some out) => close_rescf h (hook_resolv_iplist_loop env list out)

/-! ## Statements of the specification, in its own words -/

/-- The version prefix `DNSTRIG<CONTROL_VERSION> ` that the first line has to begin with. -/
def version_header (K : Consts) : CStr :=
  "DNSTRIG".toList ++ fmt_d K.CONTROL_VERSION ++ " ".toList

/-- The first token of a command text: up to the next space or the end of the line. -/
def first_token (str : CStr) : CStr := (cstr str).takeWhile (fun c => c ≠ ' ')

/-- The command table of the specification: the handler named by a token. -/
def token_command (tok : CStr) : Command :=
  if tok = "submit".toList then .submit
  else if tok = "reprobe".toList then .reprobe
  else if tok = "skip_http".toList then .skip_http
  else if tok = "hotspot_signon".toList then .hotspot_signon
  else if tok = "results".toList then .results
  else if tok = "status".toList then .status
  else if tok = "cmdtray".toList then .cmdtray
  else if tok = "unsafe".toList then .unsafe_test
  else if tok = "test_tcp".toList then .test_tcp
  else if tok = "test_ssl".toList then .test_ssl
  else if tok = "test_http".toList then .test_http
  else if tok = "test_update".toList then .test_update
  else if tok = "stoppanels".toList then .stoppanels
  else if tok = "stop".toList then .stop
  else .unknown

/-- The fourteen command names of the one-shot channel. -/
def command_names : List CStr :=
  ["submit".toList, "reprobe".toList, "skip_http".toList, "hotspot_signon".toList,
   "results".toList, "status".toList, "cmdtray".toList, "unsafe".toList, "test_tcp".toList,
   "test_ssl".toList, "test_http".toList, "test_update".toList, "stoppanels".toList,
   "stop".toList]

/-- The commands that the cascade of `sslconn_command` takes by their full name as a prefix
of the text, whatever follows. -/
def cascade_table : List (CStr × Command) :=
  [("submit".toList, .submit), ("reprobe".toList, .reprobe), ("skip_http".toList, .skip_http),
   ("hotspot_signon".toList, .hotspot_signon), ("results".toList, .results),
   ("cmdtray".toList, .cmdtray), ("unsafe".toList, .unsafe_test),
   ("test_tcp".toList, .test_tcp), ("test_ssl".toList, .test_ssl),
   ("test_http".toList, .test_http), ("test_update".toList, .test_update),
   ("stoppanels".toList, .stoppanels)]

/-- Whether a call starts a probe sweep. -/
def is_probe_start : Event → Bool
  | .probe_start _ => true
  | _ => false

/-- Whether a call is one of the resolver hooks. -/
def is_resolver_hook : Event → Bool
  | .hook_resolv_iplist _ => true
  | .hook_resolv_localhost => true
  | _ => false

/-- The invariant of the specification on the insecure flags: `insecure_state` set implies
that the resolution state is dark or disconnected, or that `forced_insecure` is set (the
flags are C truth values: set means nonzero). -/
def insecure_invariant (s : svr) : Prop :=
  s.insecure_state ≠ 0 →
    s.res_state = .res_dark ∨ s.res_state = .res_disconn ∨ s.forced_insecure ≠ 0

/-- The seven command lines of the persistent channel. -/
def persist_command_names : List CStr :=
  ["insecure yes".toList, "insecure no".toList, "reprobe".toList, "skip_http".toList,
   "hotspot_signon".toList, "update_cancel".toList, "update_ok".toList]

/-- The calls that drive the retry scheduler. -/
inductive retry_op where
  | next (http_mode : Int)
  | stop
  deriving DecidableEq, Repr

/-- One call on the retry scheduler. -/
def retry_step (K : Consts) (d : Daemon) : retry_op → Daemon
  | .next http_mode => svr_retry_timer_next K d http_mode
  | .stop => svr_retry_timer_stop d

/-- A sequence of calls on the retry scheduler, first call first. -/
def retry_run (K : Consts) (d : Daemon) (ops : List retry_op) : Daemon :=
  ops.foldl (retry_step K) d

/-- The texts that the cascade of `sslconn_command` compares as prefixes: each name cut to
the length given to `strncmp`. -/
def cascade_patterns : List CStr :=
  ["submit".toList, "reprobe".toList, "skip_http".toList, "hotspot_signon".toList,
   "results".toList, "cmdtray".toList, "unsafe".toList, "test_tcp".toList,
   "test_ssl".toList, "test_htt".toList, "test_update".toList, "stoppanels".toList,
   "stop".toList]

/-- Whether the tcp timer is armed after the calls of a trace: it is armed by
`comm_timer_set` and disarmed by `comm_timer_disable`, so the last call on it decides. -/
def tcp_timer_armed (trace : List Event) : Bool :=
  trace.foldl (fun armed e =>
    match e with
    | .comm_timer_set .tcp_timer _ => true
    | .comm_timer_disable .tcp_timer => false
    | _ => armed) false

/-- What happens around the tcp-recheck timer: the engine asks to arm it, the event loop
fires it, or a completed sweep installs a resolution state. -/
inductive tcp_op where
  | enable
  | fire
  | probe_done (rs : res_state)
  deriving DecidableEq, Repr

/-- One step around the tcp-recheck timer; the event loop calls `svr_tcp_callback` only
while the timer is armed. -/
def tcp_step (K : Consts) (d : Daemon) : tcp_op → Daemon
  | .enable => svr_tcp_timer_enable K d
  | .fire => if tcp_timer_armed d.trace then svr_tcp_callback d else d
  | .probe_done rs => { d with global_svr := { d.global_svr with res_state := rs } }

/-- A sequence of steps around the tcp-recheck timer, first step first. -/
def tcp_run (K : Consts) (d : Daemon) (ops : List tcp_op) : Daemon :=
  ops.foldl (tcp_step K) d

/-- The number of probe sweeps started in a trace. -/
def probe_starts (trace : List Event) : Nat := (trace.filter is_probe_start).length

/-- The lines of the finished probes, in probe-list order; an unfinished probe has none. -/
def finished_probe_lines : List probe_ip → CStr
  | [] => []
  | p :: rest =>
    if p.finished ≠ 0 then probe_line p ++ finished_probe_lines rest
    else finished_probe_lines rest

/-- An update is pending: the collaborator has one available and the user has not replied. -/
def update_pending (s : svr) : Prop :=
  ∃ u, s.update = some u ∧ u.update_available ≠ 0 ∧ u.user_replied = 0

/-- The `at` line of a results block, in the words of the specification. -/
def at_line (env : Env) (s : svr) : CStr :=
  if s.probetime = 0 then "at (no probe performed)\n".toList
  else "at ".toList ++ cstr (env.strftime s.probetime) ++ "\n".toList

/-- The optional line after the probe lines, in the words of the specification. -/
def progress_line (ps : List probe_ip) : CStr :=
  if ∃ p ∈ ps, p.finished = 0 then "probe is in progress\n".toList
  else if ∀ p ∈ ps, probe_is_cache p = false then
    "no cache: no DNS servers have been supplied via DHCP\n".toList
  else []

/-- The head of a probe line, by the first matching kind, in the words of the
specification. -/
def probe_line_head (p : probe_ip) : CStr :=
  if p.to_http ≠ 0 then
    match p.host_c with
    | some qname =>
      "addr ".toList ++ cstr qname ++ (if p.http_ip6 ≠ 0 then " AAAA".toList else " A".toList) ++
        " from ".toList ++ cstr p.name ++ ": ".toList
    | none => "http ".toList ++ cstr p.http_desc ++ " (".toList ++ cstr p.name ++ "): ".toList
  else if p.dnstcp ≠ 0 then
    (if p.ssldns ≠ 0 then "ssl".toList else "tcp".toList) ++ fmt_d p.port ++ " ".toList ++
      cstr p.name ++ ": ".toList
  else
    (if p.to_auth ≠ 0 then "authority ".toList else "cache ".toList) ++ cstr p.name ++
      ": ".toList

/-- The line of a finished probe, in the words of the specification: the head, `OK` or
`error`, one space, the reason text and a newline. -/
def probe_line_spec (p : probe_ip) : CStr :=
  probe_line_head p ++ (if p.works ≠ 0 then "OK".toList else "error".toList) ++ " ".toList ++
    (match p.reason with
     | some r => cstr r
     | none => []) ++ "\n".toList

/-- The token that names a resolution state in the `state:` line. -/
def res_state_token : res_state → CStr
  | .res_cache => "cache".toList
  | .res_tcp => "tcp".toList
  | .res_ssl => "ssl".toList
  | .res_auth => "auth".toList
  | .res_disconn => "disconnected".toList
  | .res_dark => "nodnssec".toList

/-- The `state:` line for a resolution state and the truth of the three flags. -/
def state_line_of (rs : res_state) (insecure forced http : Bool) : CStr :=
  "state: ".toList ++ res_state_token rs ++ " ".toList ++
    (if insecure then "insecure_mode".toList else "secure".toList) ++
    (if forced then " forced_insecure".toList else []) ++
    (if http then " http_insecure".toList else []) ++ "\n".toList

/-- All combinations of a resolution state and the truth of the three flags. -/
def state_line_keys : List (res_state × Bool × Bool × Bool) :=
  [res_state.res_cache, .res_tcp, .res_ssl, .res_auth, .res_disconn, .res_dark].flatMap
    (fun rs => [false, true].flatMap (fun a => [false, true].flatMap (fun b =>
      [false, true].map (fun c => (rs, a, b, c)))))

/-- The bytes handed to the TLS engine of connection `sc` by the calls of a trace, in
order: what the peer of that connection receives. -/
def written_to (sc : Nat) : List Event → CStr
  | [] => []
  | .SSL_write ssl bytes :: rest =>
    if ssl = sc then bytes ++ written_to sc rest else written_to sc rest
  | _ :: rest => written_to sc rest

/-- The peer of connection `sc` has not closed: the zero-byte read of `sslconn_checkclose`
would block, or succeeds with no shutdown seen. -/
def peer_open (env : Env) (sc : Nat) : Prop :=
  ((env.SSL_read0 sc).1 ≤ 0 ∧ (env.SSL_read0 sc).2 = .SSL_ERROR_WANT_READ) ∨
    (0 < (env.SSL_read0 sc).1 ∧ env.SSL_get_shutdown sc = 0)

/-- A series of broadcasts, each with the answers of its own moment. -/
def broadcasts (K : Consts) (envs : List Env) (d : Daemon) : Daemon :=
  envs.foldl (fun d env => svr_send_results K env d) d

/-- One broadcast to the panels: `svr_send_results` with the answers of its moment, or
`svr_signal_update` with the version on offer. -/
inductive broadcast where
  | send_results (env : Env)
  | signal_update (version_available : CStr)

/-- The server after one broadcast. -/
def broadcast_step (K : Consts) (d : Daemon) : broadcast → Daemon
  | .send_results env => svr_send_results K env d
  | .signal_update version_available => svr_signal_update K d version_available

/-- A series of broadcasts of either kind, between two runs of the connection callback. -/
def interleaving (K : Consts) (bs : List broadcast) (d : Daemon) : Daemon :=
  bs.foldl (broadcast_step K) d

/-- The addresses of the connections in the busy list, in list order. -/
def busy_ptrs (d : Daemon) : List Nat := d.global_svr.busy_list.map (fun c => c.ptr)

/-- The busy list holds the same connections (by address), the two counters are the same
and the update collaborator is there or not in `d2` as in `d1`. -/
def same_conns (d1 d2 : Daemon) : Prop :=
  busy_ptrs d2 = busy_ptrs d1 ∧ d2.global_svr.active = d1.global_svr.active ∧
    d2.global_svr.max_active = d1.global_svr.max_active ∧
    d2.global_svr.update.isSome = d1.global_svr.update.isSome

/-- The connection count is right and within its bound, the bound is `M`, and the update
collaborator is there (`svr->update` is not NULL) exactly when `u` says so. -/
def count_invariant (M : Int) (u : Bool) (d : Daemon) : Prop :=
  d.global_svr.active = d.global_svr.busy_list.length ∧
    d.global_svr.active ≤ d.global_svr.max_active ∧ d.global_svr.max_active = M ∧
    d.global_svr.update.isSome = u

/-- An event that changes the set of connections: a dispatch of `handle_ssl_accept` with
the answers of its moment, or `sslconn_delete` of the connection at an address. -/
inductive conn_op where
  | accept (env : Env) (err : Int)
  | delete (sc : Nat)

/-- The server after one such event. A deletion is an event of a connection in the busy
list: for an address that is not in the list there is none, and the server stays as it
is. -/
def conn_step (K : Consts) (d : Daemon) : conn_op → Option Daemon
  | .accept env err => handle_ssl_accept K env d err
  | .delete sc => if (d.conn sc).isSome then some (sslconn_delete d sc) else some d

/-- A sequence of such events; `none` when one of the accepts dereferences a dead
connection or a NULL pointer. -/
def conn_run (K : Consts) : List conn_op → Daemon → Option Daemon
  | [], d => some d
  | op :: ops, d => (conn_step K d op).bind (conn_run K ops)

/-- What one round of the loop of `really_set_to_localhost` does with the line read: `none`
when it returns 0 at once, else the three flags afterwards. -/
def really_set_to_localhost_line (cfg : cfg) (line : CStr) (saw_127 saw_search
    saw_domain : Int) : Option (Int × Int × Int) :=
  if strcmp (line.take 1023) "nameserver 127.0.0.1\n".toList = 0 then
    some (1, saw_search, saw_domain)
  else if strncmp (line.take 1023) "nameserver".toList 10 = 0 then none
  else if strncmp (line.take 1023) "search ".toList 7 = 0 then
    if check_line_arg ((line.take 1023).drop 7) cfg.rescf_search = 0 then none
    else some (saw_127, 1, saw_domain)
  else if strncmp (line.take 1023) "domain ".toList 7 = 0 then
    if check_line_arg ((line.take 1023).drop 7) cfg.rescf_domain = 0 then none
    else some (saw_127, saw_search, 1)
  else some (saw_127, saw_search, saw_domain)

/-- The tests of `really_set_to_localhost` after its loop. -/
def really_set_to_localhost_end (cfg : cfg) (saw_127 saw_search saw_domain : Int) : Int :=
  if cfg.rescf_search.isSome ∧ saw_search = 0 then 0
  else if cfg.rescf_domain.isSome ∧ saw_domain = 0 then 0
  else saw_127

/-- The text that `hook_resolv_localhost` writes when every write succeeds: the signature
line, the configured `domain` and `search` lines, and the loopback name server. -/
def localhost_text (K : Consts) (cfg : cfg) : CStr :=
  cstr (signature_line K) ++
    (match cfg.rescf_domain with
      | some d => "domain ".toList ++ cstr d ++ "\n".toList
      | none => []) ++
    (match cfg.rescf_search with
      | some s => "search ".toList ++ cstr s ++ "\n".toList
      | none => []) ++
    "nameserver 127.0.0.1\n".toList

/-- A configured value that is newline-free and fits, with its seven-character keyword and
the newline, the 1023 characters of one line buffer. -/
def fits_line (opt : Option CStr) : Prop :=
  ∀ v, opt = some v → '\n' ∉ cstr v ∧ (cstr v).length + 8 ≤ 1023

/-- The names joined by single spaces. -/
def join_names : List CStr → CStr
  | [] => []
  | [n] => n
  | n :: m :: rest => n ++ ' ' :: join_names (m :: rest)

/-- The names of the cache probes of a probe list, in probe-list order. -/
def cache_names (ps : List probe_ip) : List CStr :=
  (ps.filter probe_is_cache).map (fun p => cstr p.name)

/-- The `SSL_write` calls of a trace, in the order made: the connection and the bytes. -/
def ssl_writes : List Event → List (Nat × CStr)
  | [] => []
  | .SSL_write ssl bytes :: rest => (ssl, bytes) :: ssl_writes rest
  | _ :: rest => ssl_writes rest

/-- What `stoppanels` writes to a connection, by its line state: the unsent rest of the
block and `stop` when it is flushing, `stop` when it waits for the next block, nothing when
it reads commands. -/
def stop_writes (s : sslconn) : List (Nat × CStr) :=
  if s.line_state = .persist_write then
    [(s.ptr, ldns_buffer_pending s.buffer), (s.ptr, "stop\n".toList)]
  else if s.line_state = .persist_write_checkclose then [(s.ptr, "stop\n".toList)]
  else []

/-- A configured value that fits, after a keyword of `keyword` characters and before the
newline, the 1023 characters of one line buffer. -/
def fits_buffer (keyword : Nat) (opt : Option CStr) : Prop :=
  ∀ v, opt = some v → keyword + (cstr v).length + 1 ≤ 1023

/-- The text of the iplist posture: the signature line, the configured `domain` and
`search` lines, and one `nameserver` line for each cache probe of the list, in order. -/
def iplist_text (K : Consts) (cfg : cfg) (list : List probe_ip) : CStr :=
  cstr (signature_line K) ++
    (match cfg.rescf_domain with
      | some d => "domain ".toList ++ cstr d ++ "\n".toList
      | none => []) ++
    (match cfg.rescf_search with
      | some s => "search ".toList ++ cstr s ++ "\n".toList
      | none => []) ++
    (list.filter probe_is_cache).flatMap
      (fun p => "nameserver ".toList ++ cstr p.name ++ "\n".toList)

/-- The lines of a text as successive `fgets(line, 1024, in)` calls read them, at most
`fuel` of them: a line ends with its newline, except the last line of a text without a
final newline and the pieces in which a line longer than 1023 characters is read. -/
def fgets_lines : Nat → CStr → List CStr
  | 0, _ => []
  | fuel + 1, stream =>
    match fgets 1024 stream with
    | none => []
    | some (line, rest) => line :: fgets_lines fuel rest

/-- All lines of a file as `fgets` reads them; every line has at least one character, so
there are no more lines than characters. -/
def file_lines (content : CStr) : List CStr := fgets_lines content.length content

/-- What the specification asks of a line after the signature line: if it begins with
`nameserver` it is the loopback line, and if it begins with `search ` or `domain ` it is
that keyword, the configured value and a newline. -/
def line_allowed (cfg : cfg) (l : CStr) : Prop :=
  ("nameserver".toList <+: l → l = "nameserver 127.0.0.1\n".toList) ∧
  ("search ".toList <+: l →
    ∃ v, cfg.rescf_search = some v ∧ l = "search ".toList ++ cstr v ++ "\n".toList) ∧
  ("domain ".toList <+: l →
    ∃ v, cfg.rescf_domain = some v ∧ l = "domain ".toList ++ cstr v ++ "\n".toList)

/-! ## Example configurations -/

/-- Constants as in the upstream headers: protocol version 1, retry every 10 seconds for 30
tries, at most a day between retries. -/
def example_consts : Consts :=
  { CONTROL_VERSION := 1, RETRY_TIMER_START := 10, RETRY_TIMER_MAX := 86400,
    RETRY_TIMER_COUNT_MAX := 30, SVR_TCP_RETRY := 20, PACKAGE_VERSION := "0.13".toList,
    PACKAGE_STRING := "dnssec-trigger 0.13".toList }

/-- A TLS engine whose shutdown completes at once, whose peer stays connected and sends
nothing, and that takes every write whole. -/
def example_env : Env :=
  { SSL_shutdown := fun _ => 1, SSL_get_error := fun _ _ => .SSL_ERROR_NONE,
    SSL_get_fd := fun _ => 3, SSL_get_shutdown := fun _ => 0,
    strftime := fun _ => "2011-11-11 11:11:11".toList,
    SSL_do_handshake := fun _ => (1, .SSL_ERROR_NONE),
    SSL_get_verify_result := fun _ => true,
    SSL_get_peer_certificate := fun _ => true,
    SSL_read := fun _ => [],
    SSL_read0 := fun _ => (-1, .SSL_ERROR_WANT_READ),
    SSL_write := fun _ bytes => (bytes.length, .SSL_ERROR_NONE),
    comm_point_perform_accept := 5,
    calloc_sslconn := some 9,
    comm_point_create_raw := true,
    SSL_new := true,
    SSL_set_fd := true,
    ldns_buffer_new := true }

/-- A TLS engine as `example_env`, but whose zero-byte read fails with the given code: the
connection was reset (`SSL_ERROR_SYSCALL`) or the engine reports an error of its own. -/
def example_env_read0 (want : ssl_error) : Env :=
  { example_env with SSL_read0 := fun _ => (-1, want) }

/-- The buffer as `sslconn_readline` leaves it: the line, its terminator, flipped. -/
def line_buffer (line : CStr) : ldns_buffer :=
  { data := line ++ [NUL], position := 0, limit := line.length + 1, capacity := 65536 }

/-- A connection at address `ptr` that has just read `line`. -/
def example_conn (ptr : Nat) (ls : line_state) (line : CStr) : sslconn :=
  { ptr := ptr, shake_state := .rc_hs_none, line_state := ls, close_me := 0,
    buffer := line_buffer line, fetch_another_update := 0 }

/-- A server with the given flags and one connection, everything else as created. -/
def example_daemon (check_updates : Int) (rs : res_state)
    (insecure_state forced_insecure : Int) (c : sslconn) : Daemon :=
  { global_svr := { (svr_create check_updates).global_svr with
      busy_list := [c], active := 1, res_state := rs, insecure_state := insecure_state,
      forced_insecure := forced_insecure },
    trace := [] }

/-- A cache probe for the resolver at 192.0.2.1 that has finished and works. -/
def example_probe : probe_ip :=
  { name := "192.0.2.1".toList, to_auth := 0, to_http := 0, dnstcp := 0, ssldns := 0,
    port := 53, host_c := none, http_desc := [], http_ip6 := 0, finished := 1, works := 1,
    reason := none }

/-- A probe list: the cache probe 192.0.2.1, a probe to an authority and the cache probe
192.0.2.2. -/
def example_probes : List probe_ip :=
  [example_probe, { example_probe with name := "192.0.2.9".toList, to_auth := 1 },
    { example_probe with name := "192.0.2.2".toList }]

/-- The server `d` with the probe list `ps`. -/
def with_probes (d : Daemon) (ps : List probe_ip) : Daemon :=
  { d with global_svr := { d.global_svr with probes := ps } }

/-- The connection at address 7 as `handle_results_cmd` (`close_me` 0) or
`handle_status_cmd` (`close_me` 1) leaves it on a fresh server: in `persist_write`, its
buffer holding the results block. -/
def example_flushing (close_me : Int) : sslconn :=
  send_results_to_con example_consts example_env (svr_create 0).global_svr
    { example_conn 7 .persist_write_checkclose [] with close_me := close_me }

/-- A C library with which the file opens and every write is complete. -/
def example_libc : libc :=
  { fopen_w := true, fprintf := fun s => s.length }

/-- A configuration with a `domain` value and no `search` value. -/
def example_cfg : cfg :=
  { rescf_domain := some "example.com".toList, rescf_search := none, noaction := 0 }

/-- A host whose resolv.conf names a resolver of the network. -/
def example_host : Host :=
  { set_to_localhost := 0, resolvconf := some "nameserver 192.0.2.1\n".toList, calls := [] }

/-- A server with three control connections that have each read their first line: the
connection at 7 reads `stoppanels`, the one at 8 the given first line of a panel, and the
one at 9 is flushing a results block. -/
def example_panels (line : CStr) : Daemon :=
  { global_svr := { (svr_create 0).global_svr with
      busy_list := [example_conn 7 .command_read "DNSTRIG1 stoppanels".toList,
        example_conn 8 .command_read line, { example_flushing 0 with ptr := 9 }],
      active := 3 },
    trace := [] }

/-- A resolv.conf with the signature line and the loopback line twice. -/
def example_two_loopback : CStr :=
  "# Generated by dnssec-trigger 0.13\n".toList ++ "nameserver 127.0.0.1\n".toList ++
    "nameserver 127.0.0.1\n".toList

/-! ## C string lemmas -/

theorem char_sub_eq_zero_iff (a b : Char) : ((a.toNat : Int) - (b.toNat : Int) = 0) ↔ a = b := by
  constructor
  · intro h
    have h1 : a.toNat = b.toNat := by omega
    exact Char.ext (UInt32.ext (by simpa [Char.toNat] using h1))
  · rintro rfl; simp

theorem deref_cons (a : Char) (s : CStr) : deref (a :: s) = a := rfl
theorem deref_nil : deref [] = NUL := rfl

theorem cstr_nil : cstr [] = [] := rfl

theorem strncmp_succ (s1 s2 : CStr) (n : Nat) :
    strncmp s1 s2 (n + 1) =
      if deref s1 ≠ deref s2 then ((deref s1).toNat : Int) - (deref s2).toNat
      else if deref s1 = NUL then 0
      else strncmp s1.tail s2.tail n := by
  rw [strncmp]

theorem cstr_cons (a : Char) (s : CStr) :
    cstr (a :: s) = if a = NUL then [] else a :: cstr s := by
  by_cases h : a = NUL <;> simp [cstr, List.takeWhile_cons, h]

theorem cstr_prefix (s : CStr) : cstr s <+: s := List.takeWhile_prefix _

/-- With a NUL-free pattern, comparing the first `n` characters of the pattern is a prefix
test. -/
theorem strncmp_eq_zero_iff (n : Nat) (p : CStr) (hp : NUL ∉ p) (hn : n ≤ p.length)
    (s : CStr) : strncmp s p n = 0 ↔ p.take n <+: s := by
  induction n generalizing s p with
  | zero => simp [strncmp]
  | succ n ih =>
    cases p with
    | nil => simp at hn
    | cons a p =>
      have ha : a ≠ NUL := fun h => hp (by simp [h])
      have hp' : NUL ∉ p := fun h => hp (by simp [h])
      have hn' : n ≤ p.length := by simpa using hn
      cases s with
      | nil =>
        simp only [strncmp, deref_nil, deref_cons]
        simp [Ne.symm ha, char_sub_eq_zero_iff]
      | cons b s =>
        simp only [strncmp, deref_cons, List.tail_cons, List.take_succ_cons]
        by_cases hab : b = a
        · subst hab
          simp [ha, ih p hp' hn' s, List.cons_prefix_cons]
        · simp [hab, char_sub_eq_zero_iff, List.cons_prefix_cons, Ne.symm hab]

/-- Comparing one character more than a NUL-free pattern has is a test for equality of
contents. -/
theorem strncmp_succ_length_eq_zero_iff (p : CStr) (hp : NUL ∉ p) (s : CStr) :
    strncmp s p (p.length + 1) = 0 ↔ cstr s = p := by
  induction p generalizing s with
  | nil =>
    cases s with
    | nil => simp [strncmp, deref_nil, cstr_nil]
    | cons b s =>
      by_cases hb : b = NUL
      · simp [strncmp, deref_nil, deref_cons, cstr_cons, hb]
      · simp [strncmp, deref_nil, deref_cons, cstr_cons, hb, char_sub_eq_zero_iff]
  | cons a p ih =>
    have ha : a ≠ NUL := fun h => hp (by simp [h])
    have hp' : NUL ∉ p := fun h => hp (by simp [h])
    cases s with
    | nil =>
      simp only [List.length_cons, strncmp, deref_nil, deref_cons]
      simp [Ne.symm ha, char_sub_eq_zero_iff, cstr_nil]
    | cons b s =>
      rw [List.length_cons, strncmp_succ]
      simp only [deref_cons, List.tail_cons]
      by_cases hab : b = a
      · subst hab
        simp [ha, ih hp' s, cstr_cons]
      · by_cases hb : b = NUL
        · simp [hab, char_sub_eq_zero_iff, cstr_cons, hb, Ne.symm ha]
        · simp [hab, char_sub_eq_zero_iff, cstr_cons, hb]

/-- With a NUL-free pattern, `strcmp` is a test for equality of contents. -/
theorem strcmp_eq_zero_iff (p : CStr) (hp : NUL ∉ p) (s : CStr) :
    strcmp s p = 0 ↔ cstr s = p := by
  induction s generalizing p with
  | nil =>
    cases p with
    | nil => simp [strcmp, deref_nil, cstr_nil]
    | cons a p =>
      have ha : a ≠ NUL := fun h => hp (by simp [h])
      simp [strcmp, deref_cons, cstr_nil, char_sub_eq_zero_iff, Ne.symm ha]
  | cons b s ih =>
    cases p with
    | nil =>
      by_cases hb : b = NUL
      · simp [strcmp, deref_nil, cstr_cons, hb]
      · simp [strcmp, deref_nil, cstr_cons, hb, char_sub_eq_zero_iff]
    | cons a p =>
      have ha : a ≠ NUL := fun h => hp (by simp [h])
      have hp' : NUL ∉ p := fun h => hp (by simp [h])
      by_cases hab : b = a
      · subst hab
        simp [strcmp, deref_cons, ha, ih p hp', cstr_cons]
      · by_cases hb : b = NUL
        · simp [strcmp, deref_cons, hab, char_sub_eq_zero_iff, cstr_cons, hb, Ne.symm ha]
        · simp [strcmp, deref_cons, hab, char_sub_eq_zero_iff, cstr_cons, hb]

/-- For a one-digit `CONTROL_VERSION` the header fits `char header[10]` untruncated. -/
theorem control_header_digit (K : Consts)
    (hv : 0 ≤ K.CONTROL_VERSION ∧ K.CONTROL_VERSION ≤ 9) :
    control_header K = version_header K ∧ NUL ∉ version_header K ∧
      (version_header K).length = 9 ∧ strlen (control_header K) = 9 := by
  obtain ⟨n, hn, hn9⟩ : ∃ n : Nat, K.CONTROL_VERSION = n ∧ n ≤ 9 :=
    ⟨K.CONTROL_VERSION.toNat, by omega, by omega⟩
  unfold control_header version_header
  rw [hn]
  interval_cases n <;> decide

/-- A two-digit `CONTROL_VERSION` does not fit: the header loses its trailing space. -/
theorem control_header_two_digits :
    control_header { example_consts with CONTROL_VERSION := 10 } = "DNSTRIG10".toList := by
  decide

/-! ## Connection lemmas -/

@[simp] theorem call_global_svr (d : Daemon) (e : Event) :
    (d.call e).global_svr = d.global_svr := rfl

@[simp] theorem call_trace (d : Daemon) (e : Event) : (d.call e).trace = d.trace ++ [e] := rfl

@[simp] theorem set_conn_trace (d : Daemon) (sc : Nat) (f : sslconn → sslconn) :
    (d.set_conn sc f).trace = d.trace := rfl

@[simp] theorem call_conn (d : Daemon) (e : Event) (sc : Nat) :
    (d.call e).conn sc = d.conn sc := rfl

theorem find_map_update (l : List sslconn) (sc : Nat) (f : sslconn → sslconn)
    (hf : ∀ c, (f c).ptr = c.ptr) :
    (l.map (fun c => if c.ptr = sc then f c else c)).find? (fun c => c.ptr = sc) =
      (l.find? (fun c => c.ptr = sc)).map f := by
  induction l with
  | nil => rfl
  | cons a l ih =>
    by_cases h : a.ptr = sc
    · simp [List.find?_cons, h, hf]
    · simp [List.find?_cons, h, ih]

/-- Reading back a connection after an assignment through its pointer. -/
theorem conn_set_conn (d : Daemon) (sc : Nat) (f : sslconn → sslconn)
    (hf : ∀ c, (f c).ptr = c.ptr) : (d.set_conn sc f).conn sc = (d.conn sc).map f :=
  find_map_update d.global_svr.busy_list sc f hf

theorem busy_list_unlink_sublist (l : List sslconn) (sc : Nat) :
    (busy_list_unlink l sc).Sublist l := by
  induction l with
  | nil => exact List.Sublist.slnil
  | cons a l ih =>
    by_cases h : a.ptr = sc
    · simp [busy_list_unlink, h]
    · simp [busy_list_unlink, h, ih]

theorem busy_list_unlink_find (l : List sslconn) (sc : Nat)
    (hnd : (l.map sslconn.ptr).Nodup) :
    (busy_list_unlink l sc).find? (fun c => c.ptr = sc) = none := by
  induction l with
  | nil => rfl
  | cons a l ih =>
    rw [List.map_cons, List.nodup_cons] at hnd
    by_cases h : a.ptr = sc
    · simp only [busy_list_unlink, h, if_true]
      rw [List.find?_eq_none]
      intro c hc
      have : c.ptr ≠ sc := by
        intro hcs
        apply hnd.1
        rw [h, ← hcs]
        exact List.mem_map_of_mem _ hc
      simpa using this
    · simp [busy_list_unlink, h, List.find?_cons, ih hnd.2]

/-- C1: for every first line on a new control connection that does not begin with the exact
prefix `DNSTRIG<CONTROL_VERSION> ` (the version being one digit, so that the prefix fits the
ten-byte header buffer), `sslconn_command` deletes the connection: it is unlinked from the
busy list and `active` counts down, the other connections are untouched (no reply bytes are
queued anywhere), no call is made to any collaborator (no handler runs), and `res_state`,
`insecure_state`, `forced_insecure`, `http_insecure`, `skip_http` and `update_desired` keep
their values. -/
theorem sslconn_command_bad_version (K : Consts) (env : Env) (d : Daemon) (sc : Nat)
    (c : sslconn) (hv : 0 ≤ K.CONTROL_VERSION ∧ K.CONTROL_VERSION ≤ 9)
    (hc : d.conn sc = some c) (hline : ¬ version_header K <+: c.buffer.data) :
    ∃ d', sslconn_command K env d sc = some d' ∧
      d' = { global_svr := { d.global_svr with
               busy_list := busy_list_unlink d.global_svr.busy_list sc,
               active := d.global_svr.active - 1 },
             trace := d.trace } ∧
      d'.global_svr.busy_list.Sublist d.global_svr.busy_list ∧
      ((d.global_svr.busy_list.map sslconn.ptr).Nodup → d'.conn sc = none) ∧
      d'.trace = d.trace ∧
      d'.global_svr.res_state = d.global_svr.res_state ∧
      d'.global_svr.insecure_state = d.global_svr.insecure_state ∧
      d'.global_svr.forced_insecure = d.global_svr.forced_insecure ∧
      d'.global_svr.http_insecure = d.global_svr.http_insecure ∧
      d'.global_svr.skip_http = d.global_svr.skip_http ∧
      d'.global_svr.update_desired = d.global_svr.update_desired := by
  obtain ⟨hh, hnul, hlen, hstr⟩ := control_header_digit K hv
  have hcmp : strncmp c.buffer.data (control_header K) (strlen (control_header K)) ≠ 0 := by
    rw [hstr, hh]
    intro h0
    apply hline
    have := (strncmp_eq_zero_iff 9 (version_header K) hnul (by omega) c.buffer.data).1 h0
    rwa [List.take_of_length_le (by omega)] at this
  refine ⟨sslconn_delete d sc, ?_, rfl, busy_list_unlink_sublist _ _, ?_, rfl, rfl, rfl, rfl,
    rfl, rfl, rfl⟩
  · simp only [sslconn_command, hc]
    rw [if_pos hcmp]
  · intro hnd
    exact busy_list_unlink_find _ _ hnd

/-- Witness of C1: the line `DNSTRIG9999 results` under protocol version 1. -/
theorem sslconn_command_bad_version_witness :
    (0 ≤ example_consts.CONTROL_VERSION ∧ example_consts.CONTROL_VERSION ≤ 9) ∧
    ¬ version_header example_consts <+: "DNSTRIG9999 results".toList ++ [NUL] ∧
    ∃ d', sslconn_command example_consts example_env
        (example_daemon 0 .res_dark 1 0
          (example_conn 7 .command_read "DNSTRIG9999 results".toList)) 7 = some d' ∧
      d'.global_svr.busy_list = [] ∧ d'.trace = [] ∧ d'.global_svr.insecure_state = 1 := by
  refine ⟨by decide, by decide, ?_⟩
  obtain ⟨d', h1, h2, -⟩ := sslconn_command_bad_version example_consts example_env
    (example_daemon 0 .res_dark 1 0 (example_conn 7 .command_read "DNSTRIG9999 results".toList))
    7 (example_conn 7 .command_read "DNSTRIG9999 results".toList) (by decide) rfl
    (by decide)
  exact ⟨d', h1, by rw [h2]; rfl, by rw [h2]; rfl, by rw [h2]; rfl⟩

/-- Two prefixes of one string are comparable, so whether `q` is a prefix of `s` can be read
off a known prefix `name` of `s` unless `name` is a proper prefix of `q`. -/
theorem prefix_iff_of_known (q name s : CStr) (h : name <+: s)
    (hd : q <+: name ∨ ¬ name <+: q) : q <+: s ↔ q <+: name := by
  constructor
  · intro hq
    rcases List.prefix_or_prefix_of_prefix hq h with h1 | h1
    · exact h1
    · rcases hd with h2 | h2
      · exact h2
      · exact absurd h1 h2
  · intro hq
    exact hq.trans h

/-- The cascade of `sslconn_command`, with each comparison read as a test on prefixes. -/
theorem sslconn_command_select_eq (str : CStr) :
    sslconn_command_select str =
      if "submit".toList <+: str then .submit
      else if "reprobe".toList <+: str then .reprobe
      else if "skip_http".toList <+: str then .skip_http
      else if "hotspot_signon".toList <+: str then .hotspot_signon
      else if "results".toList <+: str then .results
      else if cstr str = "status".toList then .status
      else if "cmdtray".toList <+: str then .cmdtray
      else if "unsafe".toList <+: str then .unsafe_test
      else if "test_tcp".toList <+: str then .test_tcp
      else if "test_ssl".toList <+: str then .test_ssl
      else if "test_htt".toList <+: str then .test_http
      else if "test_update".toList <+: str then .test_update
      else if "stoppanels".toList <+: str then .stoppanels
      else if "stop".toList <+: str then .stop
      else .unknown := by
  have h0 : strncmp str "submit".toList 6 = 0 ↔ "submit".toList <+: str :=
    strncmp_eq_zero_iff 6 "submit".toList (by decide) (by decide) str
  have h1 : strncmp str "reprobe".toList 7 = 0 ↔ "reprobe".toList <+: str :=
    strncmp_eq_zero_iff 7 "reprobe".toList (by decide) (by decide) str
  have h2 : strncmp str "skip_http".toList 9 = 0 ↔ "skip_http".toList <+: str :=
    strncmp_eq_zero_iff 9 "skip_http".toList (by decide) (by decide) str
  have h3 : strncmp str "hotspot_signon".toList 14 = 0 ↔ "hotspot_signon".toList <+: str :=
    strncmp_eq_zero_iff 14 "hotspot_signon".toList (by decide) (by decide) str
  have h4 : strncmp str "results".toList 7 = 0 ↔ "results".toList <+: str :=
    strncmp_eq_zero_iff 7 "results".toList (by decide) (by decide) str
  have h5 : strncmp str "cmdtray".toList 7 = 0 ↔ "cmdtray".toList <+: str :=
    strncmp_eq_zero_iff 7 "cmdtray".toList (by decide) (by decide) str
  have h6 : strncmp str "unsafe".toList 6 = 0 ↔ "unsafe".toList <+: str :=
    strncmp_eq_zero_iff 6 "unsafe".toList (by decide) (by decide) str
  have h7 : strncmp str "test_tcp".toList 8 = 0 ↔ "test_tcp".toList <+: str :=
    strncmp_eq_zero_iff 8 "test_tcp".toList (by decide) (by decide) str
  have h8 : strncmp str "test_ssl".toList 8 = 0 ↔ "test_ssl".toList <+: str :=
    strncmp_eq_zero_iff 8 "test_ssl".toList (by decide) (by decide) str
  have h9 : strncmp str "test_http".toList 8 = 0 ↔ "test_htt".toList <+: str :=
    strncmp_eq_zero_iff 8 "test_http".toList (by decide) (by decide) str
  have h10 : strncmp str "test_update".toList 11 = 0 ↔ "test_update".toList <+: str :=
    strncmp_eq_zero_iff 11 "test_update".toList (by decide) (by decide) str
  have h11 : strncmp str "stoppanels".toList 10 = 0 ↔ "stoppanels".toList <+: str :=
    strncmp_eq_zero_iff 10 "stoppanels".toList (by decide) (by decide) str
  have h12 : strncmp str "stop".toList 4 = 0 ↔ "stop".toList <+: str :=
    strncmp_eq_zero_iff 4 "stop".toList (by decide) (by decide) str
  have hs : strncmp str "status".toList 7 = 0 ↔ cstr str = "status".toList :=
    strncmp_succ_length_eq_zero_iff "status".toList (by decide) str
  simp only [sslconn_command_select, hs, h0, h1, h2, h3, h4, h5, h6, h7, h8, h9, h10, h11, h12]

/-- A cleared buffer that is printed to and flipped holds exactly the printed text. -/
theorem pending_flip_printf_clear (b : ldns_buffer) (text : CStr) :
    ldns_buffer_pending (ldns_buffer_flip (ldns_buffer_printf (ldns_buffer_clear b) text)) =
      text := by
  simp [ldns_buffer_pending, ldns_buffer_flip, ldns_buffer_printf, ldns_buffer_clear]

/-- The connection that `handle_printclose` leaves behind. -/
theorem handle_printclose_conn (d : Daemon) (sc : Nat) (str : CStr) (c : sslconn)
    (hc : d.conn sc = some c) :
    (handle_printclose d sc str).conn sc =
      some { c with close_me := 1, line_state := .persist_write,
                    buffer := ldns_buffer_flip (ldns_buffer_printf
                      (ldns_buffer_clear c.buffer) (cstr str ++ "\n".toList)) } := by
  simp [handle_printclose, conn_set_conn, hc]

/-- After a correct version header, `sslconn_command` runs the branch that the cascade selects
for the text after the header and the spaces that follow it. -/
theorem sslconn_command_good_version (K : Consts) (env : Env) (d : Daemon) (sc : Nat)
    (c : sslconn) (rest : CStr) (hv : 0 ≤ K.CONTROL_VERSION ∧ K.CONTROL_VERSION ≤ 9)
    (hc : d.conn sc = some c) (hline : c.buffer.data = version_header K ++ rest) :
    sslconn_command K env d sc =
      sslconn_command_run K env d sc (skip_spaces rest)
        (sslconn_command_select (skip_spaces rest)) := by
  obtain ⟨hh, hnul, hlen, hstr⟩ := control_header_digit K hv
  have hcmp : strncmp c.buffer.data (control_header K) (strlen (control_header K)) = 0 := by
    rw [hstr, hh, strncmp_eq_zero_iff 9 (version_header K) hnul (by omega),
      List.take_of_length_le (by omega), hline]
    exact List.prefix_append _ _
  have hdrop : c.buffer.data.drop (strlen (control_header K)) = rest := by
    rw [hstr, hline, ← hlen, List.drop_left]
  simp only [sslconn_command, hc]
  rw [if_neg (not_not.mpr hcmp), hdrop]

/-- A known prefix of the text that is comparable with every compared pattern only by
containing it, and not comparable with `status`, decides the cascade. -/
theorem sslconn_command_select_of_known (str name : CStr) (hpre : name <+: str)
    (hq : ∀ q ∈ cascade_patterns, q <+: name ∨ ¬ name <+: q)
    (hs1 : ¬ "status".toList <+: name) (hs2 : ¬ name <+: "status".toList) :
    sslconn_command_select str = sslconn_command_select name := by
  have hst : ¬ cstr str = "status".toList := fun e =>
    hs1 ((prefix_iff_of_known "status".toList name str hpre (Or.inr hs2)).1
      (e ▸ cstr_prefix str))
  have hst' : ¬ cstr name = "status".toList := fun e => hs1 (e ▸ cstr_prefix name)
  have key : ∀ q ∈ cascade_patterns, (q <+: str ↔ q <+: name) := fun q hmem =>
    prefix_iff_of_known q name str hpre (hq q hmem)
  rw [sslconn_command_select_eq str, sslconn_command_select_eq name]
  simp only [hst, hst', key "submit".toList (by decide), key "reprobe".toList (by decide),
    key "skip_http".toList (by decide), key "hotspot_signon".toList (by decide),
    key "results".toList (by decide), key "cmdtray".toList (by decide),
    key "unsafe".toList (by decide), key "test_tcp".toList (by decide),
    key "test_ssl".toList (by decide), key "test_htt".toList (by decide),
    key "test_update".toList (by decide), key "stoppanels".toList (by decide),
    key "stop".toList (by decide)]

/-- Every name of the table meets the conditions of `sslconn_command_select_of_known` and
selects its own command. -/
theorem cascade_table_checked : ∀ p ∈ cascade_table,
    (∀ q ∈ cascade_patterns, q <+: p.1 ∨ ¬ p.1 <+: q) ∧ ¬ "status".toList <+: p.1 ∧
      ¬ p.1 <+: "status".toList ∧ sslconn_command_select p.1 = p.2 := by
  decide

/-- A name of the table selects its command whenever it is a prefix of the text. -/
theorem sslconn_command_select_table (str name : CStr) (cmd : Command)
    (hmem : (name, cmd) ∈ cascade_table) (hpre : name <+: str) :
    sslconn_command_select str = cmd := by
  obtain ⟨hq, hs1, hs2, hsel⟩ := cascade_table_checked (name, cmd) hmem
  rw [sslconn_command_select_of_known str name hpre hq hs1 hs2]
  exact hsel

/-- The text `stop...` selects the stop branch unless it is `stoppanels...`. -/
theorem sslconn_command_select_stop (str : CStr) (hpre : "stop".toList <+: str)
    (hnot : ¬ "stoppanels".toList <+: str) : sslconn_command_select str = .stop := by
  rw [sslconn_command_select_eq]
  have hst : ¬ cstr str = "status".toList := fun e =>
    absurd ((prefix_iff_of_known "status".toList _ str hpre (by decide)).1
      (e ▸ cstr_prefix str)) (by decide)
  simp only [hst, hnot,
    prefix_iff_of_known "submit".toList _ str hpre (by decide),
    prefix_iff_of_known "reprobe".toList _ str hpre (by decide),
    prefix_iff_of_known "skip_http".toList _ str hpre (by decide),
    prefix_iff_of_known "hotspot_signon".toList _ str hpre (by decide),
    prefix_iff_of_known "results".toList _ str hpre (by decide),
    prefix_iff_of_known "cmdtray".toList _ str hpre (by decide),
    prefix_iff_of_known "unsafe".toList _ str hpre (by decide),
    prefix_iff_of_known "test_tcp".toList _ str hpre (by decide),
    prefix_iff_of_known "test_ssl".toList _ str hpre (by decide),
    prefix_iff_of_known "test_htt".toList _ str hpre (by decide),
    prefix_iff_of_known "test_update".toList _ str hpre (by decide),
    prefix_iff_of_known "stop".toList _ str hpre (by decide)]
  decide

/-- The text that is exactly `status` selects the status branch. -/
theorem sslconn_command_select_status (str : CStr) (hst : cstr str = "status".toList) :
    sslconn_command_select str = .status := by
  rw [sslconn_command_select_eq]
  have hpre : "status".toList <+: str := hst ▸ cstr_prefix str
  simp only [hst,
    prefix_iff_of_known "submit".toList _ str hpre (by decide),
    prefix_iff_of_known "reprobe".toList _ str hpre (by decide),
    prefix_iff_of_known "skip_http".toList _ str hpre (by decide),
    prefix_iff_of_known "hotspot_signon".toList _ str hpre (by decide),
    prefix_iff_of_known "results".toList _ str hpre (by decide)]
  simp +decide only [if_true, if_false]

/-- A text that begins with none of the compared names selects no branch. -/
theorem sslconn_command_select_unknown (str : CStr)
    (hnone : ∀ name ∈ command_names, ¬ name <+: str) (h8 : ¬ "test_htt".toList <+: str) :
    sslconn_command_select str = .unknown := by
  rw [sslconn_command_select_eq]
  have hst : ¬ cstr str = "status".toList := fun e =>
    hnone "status".toList (by decide) (e ▸ cstr_prefix str)
  simp only [hst, h8, hnone "submit".toList (by decide), hnone "reprobe".toList (by decide),
    hnone "skip_http".toList (by decide), hnone "hotspot_signon".toList (by decide),
    hnone "results".toList (by decide), hnone "cmdtray".toList (by decide),
    hnone "unsafe".toList (by decide), hnone "test_tcp".toList (by decide),
    hnone "test_ssl".toList (by decide), hnone "test_update".toList (by decide),
    hnone "stoppanels".toList (by decide), hnone "stop".toList (by decide)]
  rfl

/-- C2 (amended): on the one-shot channel the handler is selected by prefix comparison, not by
token. For every line with a correct version prefix, with `str` the text after the prefix and
the spaces that follow it: if `str` begins with one of submit, reprobe, skip_http,
hotspot_signon, results, cmdtray, unsafe, test_tcp, test_ssl, test_http, test_update,
stoppanels (whatever follows the name), `sslconn_command` runs that command's branch; if it
begins with stop but not with stoppanels it runs the stop branch; if it is exactly status it
runs the status handler; and if it begins with none of the fourteen names nor with test_htt,
no handler runs and exactly `error unknown command\n` is queued, with `close_me` set and
`line_state` `persist_write`. -/
theorem sslconn_command_cascade (K : Consts) (env : Env) (d : Daemon) (sc : Nat)
    (c : sslconn) (rest : CStr) (hv : 0 ≤ K.CONTROL_VERSION ∧ K.CONTROL_VERSION ≤ 9)
    (hc : d.conn sc = some c) (hline : c.buffer.data = version_header K ++ rest) :
    (∀ name cmd, (name, cmd) ∈ cascade_table → name <+: skip_spaces rest →
      sslconn_command K env d sc = sslconn_command_run K env d sc (skip_spaces rest) cmd) ∧
    ("stop".toList <+: skip_spaces rest → ¬ "stoppanels".toList <+: skip_spaces rest →
      sslconn_command K env d sc =
        sslconn_command_run K env d sc (skip_spaces rest) .stop) ∧
    (cstr (skip_spaces rest) = "status".toList →
      sslconn_command K env d sc =
        sslconn_command_run K env d sc (skip_spaces rest) .status) ∧
    ((∀ name ∈ command_names, ¬ name <+: skip_spaces rest) →
      ¬ "test_htt".toList <+: skip_spaces rest →
      ∃ d' c', sslconn_command K env d sc = some d' ∧ d'.conn sc = some c' ∧
        ldns_buffer_pending c'.buffer = "error unknown command\n".toList ∧
        c'.close_me = 1 ∧ c'.line_state = .persist_write ∧
        d'.trace = d.trace ++ [Event.comm_point_listen_for_rw sc 1 1] ∧
        d'.global_svr = { d.global_svr with busy_list := d'.global_svr.busy_list }) := by
  have hrun := sslconn_command_good_version K env d sc c rest hv hc hline
  refine ⟨?_, ?_, ?_, ?_⟩
  · intro name cmd hmem hpre
    rw [hrun, sslconn_command_select_table _ name cmd hmem hpre]
  · intro hpre hnot
    rw [hrun, sslconn_command_select_stop _ hpre hnot]
  · intro hst
    rw [hrun, sslconn_command_select_status _ hst]
  · intro hnone h8
    rw [hrun, sslconn_command_select_unknown _ hnone h8]
    refine ⟨handle_printclose d sc "error unknown command".toList, _, rfl,
      handle_printclose_conn d sc _ c hc, ?_, rfl, rfl, rfl, rfl⟩
    have hs : cstr "error unknown command".toList ++ "\n".toList =
        "error unknown command\n".toList := by decide
    simp only [pending_flip_printf_clear, hs]

/-- Witness of C2 (amended): the line `DNSTRIG1  results now` runs the results handler. -/
theorem sslconn_command_cascade_witness :
    (0 ≤ example_consts.CONTROL_VERSION ∧ example_consts.CONTROL_VERSION ≤ 9) ∧
    "results".toList <+: skip_spaces (" results now".toList ++ [NUL]) ∧
    sslconn_command example_consts example_env
      (example_daemon 0 .res_cache 0 0
        (example_conn 7 .command_read "DNSTRIG1  results now".toList)) 7 =
      some (handle_results_cmd example_consts example_env
        (example_daemon 0 .res_cache 0 0
          (example_conn 7 .command_read "DNSTRIG1  results now".toList)) 7) :=
  ⟨by decide, by decide,
    (sslconn_command_cascade example_consts example_env
      (example_daemon 0 .res_cache 0 0
        (example_conn 7 .command_read "DNSTRIG1  results now".toList)) 7
      (example_conn 7 .command_read "DNSTRIG1  results now".toList)
      (" results now".toList ++ [NUL]) (by decide) rfl rfl).1
      "results".toList .results (by decide) (by decide)⟩

/-- C2 (counterexample): the first token `stopx` is none of the fourteen names, yet the line
`DNSTRIG1 stopx` runs the stop branch (the event loop is told to exit) and no error reply is
queued; and the first token of `DNSTRIG1 status now` is exactly `status`, yet the status
handler does not run and `error unknown command` is queued. -/
theorem sslconn_command_token_counterexample :
    (token_command (first_token "stopx".toList) = .unknown ∧
      sslconn_command example_consts example_env
        (example_daemon 0 .res_cache 0 0
          (example_conn 7 .command_read "DNSTRIG1 stopx".toList)) 7 =
        some (sslconn_shutdown example_env
          ((example_daemon 0 .res_cache 0 0
            (example_conn 7 .command_read "DNSTRIG1 stopx".toList)).call .comm_base_exit) 7) ∧
      sslconn_command example_consts example_env
        (example_daemon 0 .res_cache 0 0
          (example_conn 7 .command_read "DNSTRIG1 stopx".toList)) 7 ≠
        some (handle_printclose
          (example_daemon 0 .res_cache 0 0
            (example_conn 7 .command_read "DNSTRIG1 stopx".toList)) 7
          "error unknown command".toList)) ∧
    (token_command (first_token "status now".toList) = .status ∧
      sslconn_command example_consts example_env
        (example_daemon 0 .res_cache 0 0
          (example_conn 7 .command_read "DNSTRIG1 status now".toList)) 7 =
        some (handle_printclose
          (example_daemon 0 .res_cache 0 0
            (example_conn 7 .command_read "DNSTRIG1 status now".toList)) 7
          "error unknown command".toList) ∧
      sslconn_command example_consts example_env
        (example_daemon 0 .res_cache 0 0
          (example_conn 7 .command_read "DNSTRIG1 status now".toList)) 7 ≠
        some (handle_status_cmd example_consts example_env
          (example_daemon 0 .res_cache 0 0
            (example_conn 7 .command_read "DNSTRIG1 status now".toList)) 7)) := by
  refine ⟨⟨by decide, by rfl, by decide⟩, ⟨by decide, by rfl, by decide⟩⟩

/-! ## The reprobe command -/

/-- Only the busy list, `active` and the trace are touched by `sslconn_shutdown`. -/
theorem sslconn_shutdown_frame (env : Env) (d : Daemon) (sc : Nat) :
    (sslconn_shutdown env d sc).global_svr =
      { d.global_svr with
        busy_list := (sslconn_shutdown env d sc).global_svr.busy_list,
        active := (sslconn_shutdown env d sc).global_svr.active } := by
  unfold sslconn_shutdown
  simp only
  split_ifs <;> rfl

/-- The calls of `sslconn_shutdown` start no probe. -/
theorem sslconn_shutdown_probe_starts (env : Env) (d : Daemon) (sc : Nat) :
    (sslconn_shutdown env d sc).trace.filter is_probe_start =
      d.trace.filter is_probe_start := by
  unfold sslconn_shutdown
  simp only
  split_ifs <;> simp [sslconn_delete, is_probe_start, List.filter_append]

theorem deref_eq_NUL_iff (s : CStr) : deref s = NUL ↔ cstr s = [] := by
  cases s with
  | nil => simp [deref_nil, cstr_nil]
  | cons a s =>
    by_cases h : a = NUL <;> simp [deref_cons, cstr_cons, h]

/-- The cascade of `sslconn_persist_command`, with each comparison read on the contents of
the line after its leading spaces. -/
theorem sslconn_persist_command_eq (K : Consts) (env : Env) (d : Daemon) (sc : Nat)
    (c : sslconn) (hc : d.conn sc = some c) :
    sslconn_persist_command K env d sc =
      some (Daemon.set_conn
        (if cstr (skip_spaces c.buffer.data) = [] then d
         else if cstr (skip_spaces c.buffer.data) = "insecure yes".toList then
           persist_cmd_insecure K env d 1
         else if cstr (skip_spaces c.buffer.data) = "insecure no".toList then
           persist_cmd_insecure K env d 0
         else if cstr (skip_spaces c.buffer.data) = "reprobe".toList then reprobe_branch d
         else if cstr (skip_spaces c.buffer.data) = "skip_http".toList then
           handle_skip_http_cmd d
         else if cstr (skip_spaces c.buffer.data) = "hotspot_signon".toList then
           handle_hotspot_signon_cmd K env d
         else if cstr (skip_spaces c.buffer.data) = "update_cancel".toList then
           d.call (.selfupdate_userokay 0)
         else if cstr (skip_spaces c.buffer.data) = "update_ok".toList then
           d.call (.selfupdate_userokay 1)
         else d)
        sc (fun c => { c with buffer := ldns_buffer_clear c.buffer })) := by
  simp only [sslconn_persist_command, hc, deref_eq_NUL_iff,
    strcmp_eq_zero_iff "insecure yes".toList (by decide),
    strcmp_eq_zero_iff "insecure no".toList (by decide),
    strcmp_eq_zero_iff "reprobe".toList (by decide),
    strcmp_eq_zero_iff "skip_http".toList (by decide),
    strcmp_eq_zero_iff "hotspot_signon".toList (by decide),
    strcmp_eq_zero_iff "update_cancel".toList (by decide),
    strcmp_eq_zero_iff "update_ok".toList (by decide)]

/-- The one-shot channel on a line `DNSTRIG<N> reprobe...`. -/
theorem sslconn_command_reprobe (K : Consts) (env : Env) (d : Daemon) (sc : Nat)
    (c : sslconn) (rest : CStr) (hv : 0 ≤ K.CONTROL_VERSION ∧ K.CONTROL_VERSION ≤ 9)
    (hc : d.conn sc = some c) (hline : c.buffer.data = version_header K ++ rest)
    (hcmd : "reprobe".toList <+: skip_spaces rest) :
    sslconn_command K env d sc = some (sslconn_shutdown env (reprobe_branch d) sc) := by
  rw [sslconn_command_good_version K env d sc c rest hv hc hline,
    sslconn_command_select_table _ "reprobe".toList .reprobe (by decide) hcmd]
  rfl

/-- The persistent channel on the line `reprobe`. -/
theorem sslconn_persist_command_reprobe (K : Consts) (env : Env) (d : Daemon) (sc : Nat)
    (c : sslconn) (hc : d.conn sc = some c)
    (hcmd : cstr (skip_spaces c.buffer.data) = "reprobe".toList) :
    sslconn_persist_command K env d sc =
      some ((reprobe_branch d).set_conn sc
        (fun c => { c with buffer := ldns_buffer_clear c.buffer })) := by
  rw [sslconn_persist_command_eq K env d sc c hc, hcmd]
  rfl

/-- C3: for every server state, handling a `reprobe` command — on the one-shot channel (a line
with a correct version prefix whose text begins with `reprobe`) or on the persistent channel
(the line `reprobe`) — leaves `forced_insecure = 0` and `http_insecure = 0`, leaves `skip_http`
and `res_state` as they were, and starts exactly one reprobe: the trace gains exactly one
`probe_start`, the one `cmd_reprobe` makes from the current probe list. -/
theorem reprobe_command_flags (K : Consts) (env : Env) (d : Daemon) (sc : Nat) (c : sslconn)
    (hc : d.conn sc = some c) :
    (∀ rest, 0 ≤ K.CONTROL_VERSION ∧ K.CONTROL_VERSION ≤ 9 →
      c.buffer.data = version_header K ++ rest → "reprobe".toList <+: skip_spaces rest →
      ∃ d', sslconn_command K env d sc = some d' ∧
        d'.global_svr.forced_insecure = 0 ∧ d'.global_svr.http_insecure = 0 ∧
        d'.global_svr.skip_http = d.global_svr.skip_http ∧
        d'.global_svr.res_state = d.global_svr.res_state ∧
        d'.trace.filter is_probe_start = d.trace.filter is_probe_start ++
          [Event.probe_start (cmd_reprobe_loop d.global_svr.probes [] 10240)]) ∧
    (cstr (skip_spaces c.buffer.data) = "reprobe".toList →
      ∃ d', sslconn_persist_command K env d sc = some d' ∧
        d'.global_svr.forced_insecure = 0 ∧ d'.global_svr.http_insecure = 0 ∧
        d'.global_svr.skip_http = d.global_svr.skip_http ∧
        d'.global_svr.res_state = d.global_svr.res_state ∧
        d'.trace.filter is_probe_start = d.trace.filter is_probe_start ++
          [Event.probe_start (cmd_reprobe_loop d.global_svr.probes [] 10240)]) := by
  constructor
  · intro rest hv hline hcmd
    refine ⟨_, sslconn_command_reprobe K env d sc c rest hv hc hline hcmd, ?_, ?_, ?_, ?_, ?_⟩
    · rw [sslconn_shutdown_frame]; rfl
    · rw [sslconn_shutdown_frame]; rfl
    · rw [sslconn_shutdown_frame]; rfl
    · rw [sslconn_shutdown_frame]; rfl
    · rw [sslconn_shutdown_probe_starts]
      simp [reprobe_branch, cmd_reprobe, is_probe_start, List.filter_append]
  · intro hcmd
    refine ⟨_, sslconn_persist_command_reprobe K env d sc c hc hcmd, rfl, rfl, rfl, rfl, ?_⟩
    simp [reprobe_branch, cmd_reprobe, is_probe_start, List.filter_append]

/-- Witness of C3: `reprobe` on both channels of a dark, forced-insecure server. -/
theorem reprobe_command_flags_witness :
    ((0 ≤ example_consts.CONTROL_VERSION ∧ example_consts.CONTROL_VERSION ≤ 9) ∧
      "reprobe".toList <+: skip_spaces ("reprobe".toList ++ [NUL]) ∧
      ∃ d', sslconn_command example_consts example_env
          (example_daemon 0 .res_dark 1 1
            (example_conn 7 .command_read "DNSTRIG1 reprobe".toList)) 7 = some d' ∧
        d'.global_svr.forced_insecure = 0 ∧ d'.global_svr.res_state = .res_dark) ∧
    (cstr (skip_spaces ("reprobe".toList ++ [NUL])) = "reprobe".toList ∧
      ∃ d', sslconn_persist_command example_consts example_env
          (example_daemon 0 .res_dark 1 1
            (example_conn 7 .persist_read "reprobe".toList)) 7 = some d' ∧
        d'.global_svr.forced_insecure = 0 ∧ d'.global_svr.res_state = .res_dark) := by
  refine ⟨⟨by decide, by decide, ?_⟩, ⟨by decide, ?_⟩⟩
  · obtain ⟨d', h, h1, -, -, h4, -⟩ :=
      (reprobe_command_flags example_consts example_env
        (example_daemon 0 .res_dark 1 1
          (example_conn 7 .command_read "DNSTRIG1 reprobe".toList)) 7
        (example_conn 7 .command_read "DNSTRIG1 reprobe".toList) rfl).1
        ("reprobe".toList ++ [NUL]) (by decide) rfl (by decide)
    exact ⟨d', h, h1, h4⟩
  · obtain ⟨d', h, h1, -, -, h4, -⟩ :=
      (reprobe_command_flags example_consts example_env
        (example_daemon 0 .res_dark 1 1 (example_conn 7 .persist_read "reprobe".toList)) 7
        (example_conn 7 .persist_read "reprobe".toList) rfl).2 (by decide)
    exact ⟨d', h, h1, h4⟩

/-- C4 (amended): the `reprobe` handlers do not write `insecure_state`. For every server
state, after `sslconn_command` or `sslconn_persist_command` has handled a `reprobe` command
and applied its own updates, `insecure_state` has the value it had before; only
`forced_insecure` and `http_insecure` are cleared. -/
theorem reprobe_command_insecure_state (K : Consts) (env : Env) (d : Daemon) (sc : Nat)
    (c : sslconn) (hc : d.conn sc = some c) :
    (∀ rest, 0 ≤ K.CONTROL_VERSION ∧ K.CONTROL_VERSION ≤ 9 →
      c.buffer.data = version_header K ++ rest → "reprobe".toList <+: skip_spaces rest →
      ∃ d', sslconn_command K env d sc = some d' ∧
        d'.global_svr.insecure_state = d.global_svr.insecure_state) ∧
    (cstr (skip_spaces c.buffer.data) = "reprobe".toList →
      ∃ d', sslconn_persist_command K env d sc = some d' ∧
        d'.global_svr.insecure_state = d.global_svr.insecure_state) := by
  constructor
  · intro rest hv hline hcmd
    refine ⟨_, sslconn_command_reprobe K env d sc c rest hv hc hline hcmd, ?_⟩
    rw [sslconn_shutdown_frame]; rfl
  · intro hcmd
    exact ⟨_, sslconn_persist_command_reprobe K env d sc c hc hcmd, rfl⟩

/-- Witness of C4 (amended): `reprobe` on both channels of a dark server in insecure mode. -/
theorem reprobe_command_insecure_state_witness :
    ((0 ≤ example_consts.CONTROL_VERSION ∧ example_consts.CONTROL_VERSION ≤ 9) ∧
      "reprobe".toList <+: skip_spaces ("reprobe".toList ++ [NUL]) ∧
      ∃ d', sslconn_command example_consts example_env
          (example_daemon 0 .res_dark 1 0
            (example_conn 7 .command_read "DNSTRIG1 reprobe".toList)) 7 = some d' ∧
        d'.global_svr.insecure_state = 1) ∧
    (cstr (skip_spaces ("reprobe".toList ++ [NUL])) = "reprobe".toList ∧
      ∃ d', sslconn_persist_command example_consts example_env
          (example_daemon 0 .res_dark 1 0
            (example_conn 7 .persist_read "reprobe".toList)) 7 = some d' ∧
        d'.global_svr.insecure_state = 1) :=
  ⟨⟨by decide, by decide,
      (reprobe_command_insecure_state example_consts example_env
        (example_daemon 0 .res_dark 1 0
          (example_conn 7 .command_read "DNSTRIG1 reprobe".toList)) 7
        (example_conn 7 .command_read "DNSTRIG1 reprobe".toList) rfl).1
        ("reprobe".toList ++ [NUL]) (by decide) rfl (by decide)⟩,
    ⟨by decide,
      (reprobe_command_insecure_state example_consts example_env
        (example_daemon 0 .res_dark 1 0 (example_conn 7 .persist_read "reprobe".toList)) 7
        (example_conn 7 .persist_read "reprobe".toList) rfl).2 (by decide)⟩⟩

/-- C4 (counterexample): on a dark server with `insecure_state = 1`, the `reprobe` command
leaves `insecure_state = 1` on the one-shot channel and on the persistent channel. -/
theorem reprobe_keeps_insecure_state_counterexample :
    (sslconn_command example_consts example_env
        (example_daemon 0 .res_dark 1 0
          (example_conn 7 .command_read "DNSTRIG1 reprobe".toList)) 7).map
      (fun d' => d'.global_svr.insecure_state) = some 1 ∧
    (sslconn_persist_command example_consts example_env
        (example_daemon 0 .res_dark 1 0
          (example_conn 7 .persist_read "reprobe".toList)) 7).map
      (fun d' => d'.global_svr.insecure_state) = some 1 := by
  constructor <;> rfl

/-! ## The insecure command -/

/-- The calls of the broadcast loop only re-register connections with the event loop. -/
theorem svr_send_results_loop_calls (K : Consts) (env : Env) (s : svr) (l : List sslconn) :
    ∀ e ∈ (svr_send_results_loop K env s l).2, ∃ c, e = Event.comm_point_listen_for_rw c 1 1 := by
  induction l with
  | nil => simp [svr_send_results_loop]
  | cons a l ih =>
    simp only [svr_send_results_loop]
    split_ifs
    · intro e he
      rcases List.mem_cons.1 he with h | h
      · exact ⟨a.ptr, h⟩
      · exact ih e h
    · exact ih

/-- A broadcast touches the busy list and the trace only. -/
theorem svr_send_results_frame (K : Consts) (env : Env) (d : Daemon) :
    (svr_send_results K env d).global_svr =
      { d.global_svr with busy_list := (svr_send_results K env d).global_svr.busy_list } :=
  rfl

/-- The trace of a broadcast: the marker, then the re-registrations. -/
theorem svr_send_results_trace (K : Consts) (env : Env) (d : Daemon) :
    (svr_send_results K env d).trace = d.trace ++ Event.svr_send_results ::
      (svr_send_results_loop K env d.global_svr d.global_svr.busy_list).2 := by
  simp [svr_send_results]

/-- The function `persist_cmd_insecure` as one flag update, the hook calls and a broadcast. -/
theorem persist_cmd_insecure_eq (K : Consts) (env : Env) (d : Daemon) (val : Int) :
    persist_cmd_insecure K env d val =
      svr_send_results K env
        { global_svr := { d.global_svr with
            insecure_state :=
              if d.global_svr.res_state = .res_dark then val
              else if d.global_svr.forced_insecure = 0 then 0 else val },
          trace := d.trace ++
            (if d.global_svr.res_state = .res_dark then
              (if d.global_svr.insecure_state = 0 ∧ val ≠ 0 then
                [Event.hook_resolv_iplist d.global_svr.probes]
               else if d.global_svr.insecure_state ≠ 0 ∧ val = 0 then
                [Event.hook_resolv_localhost]
               else [])
             else []) } := by
  unfold persist_cmd_insecure
  simp only
  split_ifs <;> simp_all [Daemon.call]

/-- C5: `persist_cmd_insecure(val)`, for `val` 0 or 1 and every server state. If `res_state`
is dark, `insecure_state` becomes `val`, the iplist hook is called once with the current probe
list exactly when `insecure_state` was 0 and `val` is 1, the loopback hook is called once
exactly when `insecure_state` was nonzero and `val` is 0, and no hook is called otherwise. If
`res_state` is not dark, no resolver hook is called and `insecure_state` becomes 0 unless
`forced_insecure` is set, in which case it becomes `val`. In every case the hook calls are
followed by exactly one broadcast (whose own calls only re-register connections), and
`res_state`, `forced_insecure`, `http_insecure` and `skip_http` are unchanged. -/
theorem persist_cmd_insecure_post (K : Consts) (env : Env) (d : Daemon) (val : Int)
    (hval : val = 0 ∨ val = 1) :
    ∃ hooks rw_calls,
      (persist_cmd_insecure K env d val).trace =
        d.trace ++ hooks ++ Event.svr_send_results :: rw_calls ∧
      (∀ e ∈ rw_calls, ∃ c, e = Event.comm_point_listen_for_rw c 1 1) ∧
      (d.global_svr.res_state = .res_dark →
        (persist_cmd_insecure K env d val).global_svr.insecure_state = val ∧
        hooks =
          (if d.global_svr.insecure_state = 0 ∧ val = 1 then
            [Event.hook_resolv_iplist d.global_svr.probes]
           else if d.global_svr.insecure_state ≠ 0 ∧ val = 0 then [Event.hook_resolv_localhost]
           else [])) ∧
      (d.global_svr.res_state ≠ .res_dark →
        hooks = [] ∧
        (persist_cmd_insecure K env d val).global_svr.insecure_state =
          (if d.global_svr.forced_insecure ≠ 0 then val else 0)) ∧
      (persist_cmd_insecure K env d val).global_svr.res_state = d.global_svr.res_state ∧
      (persist_cmd_insecure K env d val).global_svr.forced_insecure =
        d.global_svr.forced_insecure ∧
      (persist_cmd_insecure K env d val).global_svr.http_insecure =
        d.global_svr.http_insecure ∧
      (persist_cmd_insecure K env d val).global_svr.skip_http = d.global_svr.skip_http := by
  rw [persist_cmd_insecure_eq]
  refine ⟨_, _, svr_send_results_trace K env _, svr_send_results_loop_calls K env _ _, ?_, ?_,
    rfl, rfl, rfl, rfl⟩
  · intro hdark
    have h1 : val ≠ 0 ↔ val = 1 := by omega
    simp only [hdark, if_true, h1]
    exact ⟨rfl, trivial⟩
  · intro hdark
    simp only [hdark, if_false, true_and]
    by_cases hf : d.global_svr.forced_insecure = 0
    · simp [svr_send_results, hdark, hf]
    · simp [svr_send_results, hdark, hf]

/-- Witness of C5: `insecure yes` on a dark server that was not insecure calls the iplist
hook with the probe list and latches `insecure_state`. -/
theorem persist_cmd_insecure_post_witness :
    ((1 : Int) = 0 ∨ (1 : Int) = 1) ∧
    (persist_cmd_insecure example_consts example_env
      (with_probes (example_daemon 0 .res_dark 0 0
        (example_conn 7 .persist_read "insecure yes".toList)) [example_probe])
      1).global_svr.insecure_state = 1 ∧
    ∃ rw_calls, (persist_cmd_insecure example_consts example_env
      (with_probes (example_daemon 0 .res_dark 0 0
        (example_conn 7 .persist_read "insecure yes".toList)) [example_probe]) 1).trace =
      [Event.hook_resolv_iplist [example_probe]] ++ Event.svr_send_results :: rw_calls := by
  obtain ⟨hooks, rw_calls, h1, -, h3, -⟩ := persist_cmd_insecure_post example_consts
    example_env (with_probes (example_daemon 0 .res_dark 0 0
      (example_conn 7 .persist_read "insecure yes".toList)) [example_probe]) 1 (Or.inr rfl)
  obtain ⟨h4, h5⟩ := h3 rfl
  refine ⟨Or.inr rfl, h4, rw_calls, ?_⟩
  rw [h1, h5]
  rfl

/-! ## The invariant on the insecure flags -/

/-- The invariant reads three fields of the server only. -/
theorem insecure_invariant_congr (s t : svr) (h1 : t.insecure_state = s.insecure_state)
    (h2 : t.res_state = s.res_state) (h3 : t.forced_insecure = s.forced_insecure) :
    insecure_invariant t ↔ insecure_invariant s := by
  unfold insecure_invariant
  rw [h1, h2, h3]

/-- The function `persist_cmd_insecure` establishes the invariant, whatever the state. -/
theorem persist_cmd_insecure_invariant (K : Consts) (env : Env) (d : Daemon) (val : Int) :
    insecure_invariant (persist_cmd_insecure K env d val).global_svr := by
  rw [persist_cmd_insecure_eq]
  unfold insecure_invariant
  simp only [svr_send_results]
  by_cases hdark : d.global_svr.res_state = .res_dark
  · simp [hdark]
  · by_cases hf : d.global_svr.forced_insecure = 0
    · simp [hdark, hf]
    · simp [hdark, hf]

/-- C6 (amended): the predicate "`insecure_state` set implies `res_state` dark or disconn, or
`forced_insecure` set" is kept by the persistent-channel command lines `insecure yes`,
`insecure no`, `skip_http`, the empty line and every unknown line: for every server state that
satisfies it, the state after `sslconn_persist_command` has applied its own flag updates
satisfies it. The line `reprobe`, which clears `forced_insecure` and leaves `insecure_state`
alone, keeps it when in the state before `insecure_state` is 0 or `res_state` is dark or
disconn. -/
theorem sslconn_persist_command_invariant (K : Consts) (env : Env) (d : Daemon) (sc : Nat)
    (c : sslconn) (hc : d.conn sc = some c) (hinv : insecure_invariant d.global_svr)
    (hline : cstr (skip_spaces c.buffer.data) = "insecure yes".toList ∨
      cstr (skip_spaces c.buffer.data) = "insecure no".toList ∨
      cstr (skip_spaces c.buffer.data) = "skip_http".toList ∨
      cstr (skip_spaces c.buffer.data) = [] ∨
      cstr (skip_spaces c.buffer.data) ∉ persist_command_names ∨
      (cstr (skip_spaces c.buffer.data) = "reprobe".toList ∧
        (d.global_svr.insecure_state = 0 ∨ d.global_svr.res_state = .res_dark ∨
          d.global_svr.res_state = .res_disconn))) :
    ∃ d', sslconn_persist_command K env d sc = some d' ∧
      insecure_invariant d'.global_svr := by
  refine ⟨_, sslconn_persist_command_eq K env d sc c hc, ?_⟩
  rw [insecure_invariant_congr _ _ rfl rfl rfl]
  rcases hline with h | h | h | h | h | ⟨h, hpre⟩
  · rw [h]
    exact persist_cmd_insecure_invariant K env d 1
  · rw [h]
    exact persist_cmd_insecure_invariant K env d 0
  · rw [h]
    exact hinv
  · rw [h]
    exact hinv
  · simp only [persist_command_names, List.mem_cons, List.mem_singleton, List.not_mem_nil,
      or_false, not_or] at h
    obtain ⟨n1, n2, n3, n4, n5, n6, n7⟩ := h
    simp only [n1, n2, n3, n4, n5, n6, n7, if_false]
    split_ifs <;> exact hinv
  · rw [h]
    intro hins
    have hins' : d.global_svr.insecure_state ≠ 0 := hins
    rcases hpre with h0 | h0 | h0
    · exact absurd h0 hins'
    · exact Or.inl h0
    · exact Or.inr (Or.inl h0)

/-- Witness of C6 (amended): `insecure yes` on a server that reached `cache`. -/
theorem sslconn_persist_command_invariant_witness :
    insecure_invariant (example_daemon 0 .res_cache 0 0
      (example_conn 7 .persist_read "insecure yes".toList)).global_svr ∧
    ∃ d', sslconn_persist_command example_consts example_env
        (example_daemon 0 .res_cache 0 0
          (example_conn 7 .persist_read "insecure yes".toList)) 7 = some d' ∧
      insecure_invariant d'.global_svr :=
  ⟨fun h => absurd rfl h,
    sslconn_persist_command_invariant example_consts example_env
      (example_daemon 0 .res_cache 0 0 (example_conn 7 .persist_read "insecure yes".toList))
      7 (example_conn 7 .persist_read "insecure yes".toList) rfl (fun h => absurd rfl h)
      (Or.inl (by decide))⟩

/-- C6 (counterexample): a server in state `cache` with `insecure_state = 1` and
`forced_insecure = 1` satisfies the predicate; after the persistent-channel line `reprobe`
it has `insecure_state = 1`, `forced_insecure = 0` and `res_state` still `cache`, so the
predicate fails. -/
theorem reprobe_breaks_invariant_counterexample :
    insecure_invariant (example_daemon 0 .res_cache 1 1
      (example_conn 7 .persist_read "reprobe".toList)).global_svr ∧
    ∃ d', sslconn_persist_command example_consts example_env
        (example_daemon 0 .res_cache 1 1
          (example_conn 7 .persist_read "reprobe".toList)) 7 = some d' ∧
      d'.global_svr.insecure_state = 1 ∧ d'.global_svr.forced_insecure = 0 ∧
      d'.global_svr.res_state = .res_cache ∧ ¬ insecure_invariant d'.global_svr := by
  refine ⟨fun _ => Or.inr (Or.inr (by decide)), _, rfl, rfl, rfl, rfl, ?_⟩
  intro h
  rcases h (by decide) with h | h | h
  · exact absurd h (by decide)
  · exact absurd h (by decide)
  · exact h rfl

/-! ## The test_update command -/

/-- Without an update collaborator `handle_test_update_cmd` has no result. -/
theorem handle_test_update_cmd_null (env : Env) (d : Daemon) (sc : Nat)
    (h : d.global_svr.update = none) : handle_test_update_cmd env d sc = none := by
  simp [handle_test_update_cmd, h]

/-- C7 (failing input): `svr_create` with `check_updates` off leaves `update` NULL, and on
that server the one-shot line `DNSTRIG1 test_update` dereferences it: the command has no
result. With `check_updates` on, the same line sets `test_flag = 1` and `update_desired = 1`
and shuts the connection down. -/
theorem test_update_null_dereference :
    (svr_create 0).global_svr.update = none ∧
    sslconn_command example_consts example_env
      (example_daemon 0 .res_cache 0 0
        (example_conn 7 .command_read "DNSTRIG1 test_update".toList)) 7 = none ∧
    (sslconn_command example_consts example_env
      (example_daemon 1 .res_cache 0 0
        (example_conn 7 .command_read "DNSTRIG1 test_update".toList)) 7).map
      (fun d' => (d'.global_svr.update.map selfupdate.test_flag,
        d'.global_svr.update_desired, d'.global_svr.busy_list, d'.trace)) =
      some (some 1, 1, [], [Event.SSL_shutdown 7]) := by
  refine ⟨rfl, rfl, rfl⟩

/-! ## Retry scheduler -/

theorem int_wrap_of_range (x : Int) (h1 : -(2 ^ 31) ≤ x) (h2 : x < 2 ^ 31) :
    int_wrap x = x := by
  unfold int_wrap
  have h : (x + 2 ^ 31) % 2 ^ 32 = x + 2 ^ 31 := Int.emod_eq_of_lt (by omega) (by omega)
  omega

/-- Starting the disabled timer. -/
theorem svr_retry_timer_next_disabled (K : Consts) (d : Daemon) (http_mode : Int)
    (h : d.global_svr.retry_timer_enabled = 0) :
    (svr_retry_timer_next K d http_mode).global_svr.retry_timer_timeout =
        K.RETRY_TIMER_START ∧
      (svr_retry_timer_next K d http_mode).global_svr.retry_timer_count =
        (if http_mode ≠ 0 then 1 else K.RETRY_TIMER_COUNT_MAX) ∧
      (svr_retry_timer_next K d http_mode).global_svr.retry_timer_enabled = 1 := by
  unfold svr_retry_timer_next
  rw [if_pos h]
  unfold svr_retry_start svr_retry_setit
  by_cases hm : http_mode = 0 <;> simp [hm]

/-- A fire of the enabled timer while the count is below the maximum. -/
theorem svr_retry_timer_next_count (K : Consts) (d : Daemon) (http_mode : Int)
    (h : d.global_svr.retry_timer_enabled ≠ 0)
    (hc : d.global_svr.retry_timer_count < K.RETRY_TIMER_COUNT_MAX) :
    (svr_retry_timer_next K d http_mode).global_svr.retry_timer_timeout =
        d.global_svr.retry_timer_timeout ∧
      (svr_retry_timer_next K d http_mode).global_svr.retry_timer_count =
        d.global_svr.retry_timer_count + 1 ∧
      (svr_retry_timer_next K d http_mode).global_svr.retry_timer_enabled =
        d.global_svr.retry_timer_enabled := by
  unfold svr_retry_timer_next
  rw [if_neg h]
  simp [hc, svr_retry_setit]

/-- A fire of the enabled timer once the count has reached the maximum. -/
theorem svr_retry_timer_next_double (K : Consts) (d : Daemon) (http_mode : Int)
    (hmax : 2 * K.RETRY_TIMER_MAX < 2 ^ 31)
    (h : d.global_svr.retry_timer_enabled ≠ 0)
    (hc : ¬ d.global_svr.retry_timer_count < K.RETRY_TIMER_COUNT_MAX)
    (ht0 : 0 < d.global_svr.retry_timer_timeout)
    (ht1 : d.global_svr.retry_timer_timeout ≤ K.RETRY_TIMER_MAX) :
    (svr_retry_timer_next K d http_mode).global_svr.retry_timer_timeout =
        min (2 * d.global_svr.retry_timer_timeout) K.RETRY_TIMER_MAX ∧
      (svr_retry_timer_next K d http_mode).global_svr.retry_timer_count =
        d.global_svr.retry_timer_count ∧
      (svr_retry_timer_next K d http_mode).global_svr.retry_timer_enabled =
        d.global_svr.retry_timer_enabled := by
  unfold svr_retry_timer_next
  rw [if_neg h]
  have hw : int_wrap (d.global_svr.retry_timer_timeout * 2) =
      2 * d.global_svr.retry_timer_timeout :=
    (int_wrap_of_range _ (by omega) (by omega)).trans (by ring)
  simp only [hc, if_false, hw, svr_retry_setit]
  by_cases hgt : 2 * d.global_svr.retry_timer_timeout > K.RETRY_TIMER_MAX
  · simp [hgt, min_eq_right (le_of_lt hgt)]
  · simp [hgt, min_eq_left (not_lt.mp hgt)]

/-- Clamped doubling, iterated. -/
theorem min_double_pow (t m : Int) (n : Nat) (ht : 0 < t) (htm : t ≤ m) :
    min (min (2 * t) m * 2 ^ n) m = min (t * 2 ^ (n + 1)) m := by
  have hp : (1 : Int) ≤ 2 ^ n := one_le_pow₀ (by norm_num)
  have e : t * 2 ^ (n + 1) = 2 * t * 2 ^ n := by ring
  rw [e]
  by_cases h : 2 * t ≤ m
  · rw [min_eq_left h]
  · have h' : m < 2 * t := not_le.mp h
    have hm : 0 < m := lt_of_lt_of_le ht htm
    rw [min_eq_right (le_of_lt h')]
    have h1 : m ≤ m * 2 ^ n := le_mul_of_one_le_right (le_of_lt hm) hp
    have h2 : m ≤ 2 * t * 2 ^ n :=
      le_trans (le_of_lt h') (le_mul_of_one_le_right (by omega) hp)
    rw [min_eq_right h1, min_eq_right h2]

/-- The backoff phase: once the count has reached the maximum, every fire doubles the period,
clamped at the maximum. -/
theorem retry_backoff_phase (K : Consts) (hmax : 2 * K.RETRY_TIMER_MAX < 2 ^ 31)
    (modes : List Int) : ∀ d : Daemon,
    d.global_svr.retry_timer_enabled ≠ 0 →
    ¬ d.global_svr.retry_timer_count < K.RETRY_TIMER_COUNT_MAX →
    0 < d.global_svr.retry_timer_timeout →
    d.global_svr.retry_timer_timeout ≤ K.RETRY_TIMER_MAX →
    (modes.foldl (svr_retry_timer_next K) d).global_svr.retry_timer_timeout =
      min (d.global_svr.retry_timer_timeout * 2 ^ modes.length) K.RETRY_TIMER_MAX := by
  induction modes with
  | nil =>
    intro d _ _ _ h1
    simp [min_eq_left h1]
  | cons m modes ih =>
    intro d he hc ht0 ht1
    obtain ⟨h1, h2, h3⟩ := svr_retry_timer_next_double K d m hmax he hc ht0 ht1
    rw [List.foldl_cons, ih (svr_retry_timer_next K d m) (h3 ▸ he) (h2 ▸ hc)
      (by rw [h1]; exact lt_min (by omega) (by omega)) (by rw [h1]; exact min_le_right _ _),
      h1, List.length_cons]
    exact min_double_pow _ _ _ ht0 ht1

/-- The constant phase: while the count stays below the maximum, a fire only counts. -/
theorem retry_constant_phase (K : Consts) (modes : List Int) : ∀ d : Daemon,
    d.global_svr.retry_timer_enabled ≠ 0 →
    (modes.length = 0 ∨
      d.global_svr.retry_timer_count + modes.length ≤ K.RETRY_TIMER_COUNT_MAX) →
    (modes.foldl (svr_retry_timer_next K) d).global_svr.retry_timer_timeout =
        d.global_svr.retry_timer_timeout ∧
      (modes.foldl (svr_retry_timer_next K) d).global_svr.retry_timer_count =
        d.global_svr.retry_timer_count + modes.length ∧
      (modes.foldl (svr_retry_timer_next K) d).global_svr.retry_timer_enabled =
        d.global_svr.retry_timer_enabled := by
  induction modes with
  | nil =>
    intro d _ _
    simp
  | cons m modes ih =>
    intro d he hlen
    have hlen' : d.global_svr.retry_timer_count + (modes.length + 1 : Nat) ≤
        K.RETRY_TIMER_COUNT_MAX := by
      rcases hlen with h | h
      · simp at h
      · simpa using h
    have hc : d.global_svr.retry_timer_count < K.RETRY_TIMER_COUNT_MAX := by
      push_cast at hlen'
      omega
    obtain ⟨h1, h2, h3⟩ := svr_retry_timer_next_count K d m he hc
    obtain ⟨k1, k2, k3⟩ := ih (svr_retry_timer_next K d m) (h3 ▸ he)
      (Or.inr (by rw [h2]; push_cast at hlen'; omega))
    rw [List.foldl_cons, k1, k2, k3, h1, h2, h3, List.length_cons]
    refine ⟨rfl, ?_, rfl⟩
    push_cast
    ring

/-- C8 (amended): reprobe-timer schedule after a normal (non-http) start, assuming
`0 < RETRY_TIMER_START <= RETRY_TIMER_MAX` and that `2 * RETRY_TIMER_MAX` fits in an int. When
`svr_retry_timer_next(0)` is called on a disabled timer the period is `RETRY_TIMER_START` and
the count is set to `RETRY_TIMER_COUNT_MAX`, so no call keeps the period constant: every
later call of `svr_retry_timer_next` doubles the period, clamped at `RETRY_TIMER_MAX`; after
`n` later calls it is `min (RETRY_TIMER_START * 2^n) RETRY_TIMER_MAX`. -/
theorem retry_normal_start_schedule (K : Consts) (d : Daemon)
    (hstart : 0 < K.RETRY_TIMER_START) (hle : K.RETRY_TIMER_START ≤ K.RETRY_TIMER_MAX)
    (hmax : 2 * K.RETRY_TIMER_MAX < 2 ^ 31) (hdis : d.global_svr.retry_timer_enabled = 0) :
    (svr_retry_timer_next K d 0).global_svr.retry_timer_timeout = K.RETRY_TIMER_START ∧
    (svr_retry_timer_next K d 0).global_svr.retry_timer_count = K.RETRY_TIMER_COUNT_MAX ∧
    (∀ modes : List Int,
      (modes.foldl (svr_retry_timer_next K)
        (svr_retry_timer_next K d 0)).global_svr.retry_timer_timeout =
        min (K.RETRY_TIMER_START * 2 ^ modes.length) K.RETRY_TIMER_MAX) ∧
    (∀ (modes : List Int) (m : Int),
      ((modes ++ [m]).foldl (svr_retry_timer_next K)
        (svr_retry_timer_next K d 0)).global_svr.retry_timer_timeout =
        min (2 * (modes.foldl (svr_retry_timer_next K)
          (svr_retry_timer_next K d 0)).global_svr.retry_timer_timeout)
          K.RETRY_TIMER_MAX) := by
  obtain ⟨h1, h2, h3⟩ := svr_retry_timer_next_disabled K d 0 hdis
  simp only [ne_eq, not_true_eq_false, if_false] at h2
  have hclosed : ∀ modes : List Int,
      (modes.foldl (svr_retry_timer_next K)
        (svr_retry_timer_next K d 0)).global_svr.retry_timer_timeout =
        min (K.RETRY_TIMER_START * 2 ^ modes.length) K.RETRY_TIMER_MAX := by
    intro modes
    rw [retry_backoff_phase K hmax modes (svr_retry_timer_next K d 0) (by rw [h3]; decide)
      (by rw [h2]; exact lt_irrefl _) (by rw [h1]; exact hstart) (by rw [h1]; exact hle), h1]
  refine ⟨h1, h2, hclosed, ?_⟩
  intro modes m
  rw [hclosed, hclosed, List.length_append, List.length_singleton]
  have hp : (1 : Int) ≤ 2 ^ modes.length := one_le_pow₀ (by norm_num)
  have e : K.RETRY_TIMER_START * 2 ^ (modes.length + 1) =
      2 * (K.RETRY_TIMER_START * 2 ^ modes.length) := by ring
  rw [e]
  by_cases h : K.RETRY_TIMER_START * 2 ^ modes.length ≤ K.RETRY_TIMER_MAX
  · rw [min_eq_left h]
  · have h' : K.RETRY_TIMER_MAX < K.RETRY_TIMER_START * 2 ^ modes.length := not_le.mp h
    rw [min_eq_right (le_of_lt h'), min_eq_right (by omega), min_eq_right (by omega)]

/-- Witness of C8 (amended): the upstream constants, a freshly created server. -/
theorem retry_normal_start_schedule_witness :
    (0 < example_consts.RETRY_TIMER_START ∧
      example_consts.RETRY_TIMER_START ≤ example_consts.RETRY_TIMER_MAX ∧
      2 * example_consts.RETRY_TIMER_MAX < 2 ^ 31 ∧
      (svr_create 0).global_svr.retry_timer_enabled = 0) ∧
    (([1, 0, 0] : List Int).foldl (svr_retry_timer_next example_consts)
      (svr_retry_timer_next example_consts (svr_create 0) 0)).global_svr.retry_timer_timeout =
      min (example_consts.RETRY_TIMER_START * 2 ^ 3) example_consts.RETRY_TIMER_MAX :=
  ⟨by decide,
    (retry_normal_start_schedule example_consts (svr_create 0) (by decide) (by decide)
      (by decide) rfl).2.2.1 [1, 0, 0]⟩

/-- C8 (counterexample): with `RETRY_TIMER_START = 10` and `RETRY_TIMER_COUNT_MAX = 30`, after
`svr_retry_timer_next(0)` on a fresh server the period is 10 and the count is already 30; the
very next call makes the period 20 instead of keeping it at 10. -/
theorem retry_normal_start_counterexample :
    (svr_retry_timer_next example_consts (svr_create 0) 0).global_svr.retry_timer_timeout =
      10 ∧
    (svr_retry_timer_next example_consts (svr_create 0) 0).global_svr.retry_timer_count =
      30 ∧
    (svr_retry_timer_next example_consts
      (svr_retry_timer_next example_consts (svr_create 0) 0) 0).global_svr.retry_timer_timeout
      = 20 ∧
    (svr_retry_timer_next example_consts
      (svr_retry_timer_next example_consts (svr_create 0) 0) 0).global_svr.retry_timer_timeout
      ≠ example_consts.RETRY_TIMER_START := by
  decide

/-- C9 (amended): when the reprobe timer is started in http mode (`svr_retry_timer_next` with
a nonzero argument on a disabled timer), assuming `0 < RETRY_TIMER_START <= RETRY_TIMER_MAX`
and that `2 * RETRY_TIMER_MAX` fits in an int, the period is `RETRY_TIMER_START` and
`retry_timer_count` is initialised to 1. The next `RETRY_TIMER_COUNT_MAX - 1` calls of
`svr_retry_timer_next` keep the period at `RETRY_TIMER_START`, and only the calls after
those double it, clamped at `RETRY_TIMER_MAX`: after `n` calls the period is
`min (RETRY_TIMER_START * 2^(n - (RETRY_TIMER_COUNT_MAX - 1))) RETRY_TIMER_MAX`. -/
theorem retry_http_start_schedule (K : Consts) (d : Daemon) (http_mode : Int)
    (hstart : 0 < K.RETRY_TIMER_START) (hle : K.RETRY_TIMER_START ≤ K.RETRY_TIMER_MAX)
    (hmax : 2 * K.RETRY_TIMER_MAX < 2 ^ 31) (hdis : d.global_svr.retry_timer_enabled = 0)
    (hhttp : http_mode ≠ 0) :
    (svr_retry_timer_next K d http_mode).global_svr.retry_timer_timeout =
      K.RETRY_TIMER_START ∧
    (svr_retry_timer_next K d http_mode).global_svr.retry_timer_count = 1 ∧
    (∀ modes : List Int, (modes.length : Int) ≤ K.RETRY_TIMER_COUNT_MAX - 1 →
      (modes.foldl (svr_retry_timer_next K)
        (svr_retry_timer_next K d http_mode)).global_svr.retry_timer_timeout =
        K.RETRY_TIMER_START) ∧
    (∀ modes : List Int,
      (modes.foldl (svr_retry_timer_next K)
        (svr_retry_timer_next K d http_mode)).global_svr.retry_timer_timeout =
        min (K.RETRY_TIMER_START *
          2 ^ (modes.length - (K.RETRY_TIMER_COUNT_MAX - 1).toNat)) K.RETRY_TIMER_MAX) := by
  obtain ⟨h1, h2, h3⟩ := svr_retry_timer_next_disabled K d http_mode hdis
  rw [if_pos hhttp] at h2
  have hen : (svr_retry_timer_next K d http_mode).global_svr.retry_timer_enabled ≠ 0 := by
    rw [h3]; decide
  have hconst : ∀ modes : List Int, (modes.length : Int) ≤ K.RETRY_TIMER_COUNT_MAX - 1 →
      (modes.foldl (svr_retry_timer_next K)
        (svr_retry_timer_next K d http_mode)).global_svr.retry_timer_timeout =
        K.RETRY_TIMER_START ∧
      (modes.foldl (svr_retry_timer_next K)
        (svr_retry_timer_next K d http_mode)).global_svr.retry_timer_count =
        1 + modes.length ∧
      (modes.foldl (svr_retry_timer_next K)
        (svr_retry_timer_next K d http_mode)).global_svr.retry_timer_enabled ≠ 0 := by
    intro modes hlen
    obtain ⟨k1, k2, k3⟩ := retry_constant_phase K modes (svr_retry_timer_next K d http_mode)
      hen (Or.inr (by rw [h2]; omega))
    exact ⟨k1.trans h1, k2.trans (by rw [h2]), k3 ▸ hen⟩
  refine ⟨h1, h2, fun modes hlen => (hconst modes hlen).1, ?_⟩
  intro modes
  by_cases hlen : (modes.length : Int) ≤ K.RETRY_TIMER_COUNT_MAX - 1
  · rw [(hconst modes hlen).1]
    have hz : modes.length - (K.RETRY_TIMER_COUNT_MAX - 1).toNat = 0 := by omega
    rw [hz, pow_zero, mul_one, min_eq_left hle]
  · have hm : (K.RETRY_TIMER_COUNT_MAX - 1).toNat ≤ modes.length := by omega
    have hm' : (((modes.take (K.RETRY_TIMER_COUNT_MAX - 1).toNat).length : Nat) : Int) ≤
        K.RETRY_TIMER_COUNT_MAX - 1 ∨ (K.RETRY_TIMER_COUNT_MAX - 1).toNat = 0 := by
      rw [List.length_take, min_eq_left hm]
      omega
    have hsplit : modes = modes.take (K.RETRY_TIMER_COUNT_MAX - 1).toNat ++
        modes.drop (K.RETRY_TIMER_COUNT_MAX - 1).toNat := (List.take_append_drop _ _).symm
    have hmid : (List.foldl (svr_retry_timer_next K) (svr_retry_timer_next K d http_mode)
          (modes.take (K.RETRY_TIMER_COUNT_MAX - 1).toNat)).global_svr.retry_timer_timeout =
          K.RETRY_TIMER_START ∧
        (List.foldl (svr_retry_timer_next K) (svr_retry_timer_next K d http_mode)
          (modes.take (K.RETRY_TIMER_COUNT_MAX - 1).toNat)).global_svr.retry_timer_count =
          1 + (K.RETRY_TIMER_COUNT_MAX - 1).toNat ∧
        (List.foldl (svr_retry_timer_next K) (svr_retry_timer_next K d http_mode)
          (modes.take (K.RETRY_TIMER_COUNT_MAX - 1).toNat)).global_svr.retry_timer_enabled ≠
          0 := by
      rcases hm' with h | h
      · have := hconst _ h
        rwa [List.length_take, min_eq_left hm] at this
      · rw [h, List.take_zero, List.foldl_nil]
        exact ⟨h1, by rw [h2]; simp, hen⟩
    obtain ⟨m1, m2, m3⟩ := hmid
    conv_lhs => rw [hsplit]
    rw [List.foldl_append, retry_backoff_phase K hmax _ _ m3 (by rw [m2]; omega)
      (by rw [m1]; exact hstart) (by rw [m1]; exact hle), m1, List.length_drop]

/-- Witness of C9 (amended): the upstream constants, a freshly created server; after the
start and 29 further calls the period is still 10 seconds. -/
theorem retry_http_start_schedule_witness :
    (0 < example_consts.RETRY_TIMER_START ∧
      example_consts.RETRY_TIMER_START ≤ example_consts.RETRY_TIMER_MAX ∧
      2 * example_consts.RETRY_TIMER_MAX < 2 ^ 31 ∧
      (svr_create 0).global_svr.retry_timer_enabled = 0 ∧ (1 : Int) ≠ 0) ∧
    ((List.replicate 29 (1 : Int)).foldl (svr_retry_timer_next example_consts)
      (svr_retry_timer_next example_consts (svr_create 0) 1)).global_svr.retry_timer_timeout =
      example_consts.RETRY_TIMER_START :=
  ⟨by decide,
    (retry_http_start_schedule example_consts (svr_create 0) 1 (by decide) (by decide)
      (by decide) rfl (by decide)).2.2.1 (List.replicate 29 1) (by decide)⟩

/-- C9 (counterexample): with `RETRY_TIMER_START = 10`, `RETRY_TIMER_MAX = 86400` and
`RETRY_TIMER_COUNT_MAX = 30`, after `svr_retry_timer_next(1)` on a fresh server the count is
1 and the very next call keeps the period at 10 instead of changing it to
`min (2 * 10) 86400 = 20`. -/
theorem retry_http_start_counterexample :
    (svr_retry_timer_next example_consts (svr_create 0) 1).global_svr.retry_timer_timeout =
      10 ∧
    (svr_retry_timer_next example_consts (svr_create 0) 1).global_svr.retry_timer_count = 1 ∧
    (svr_retry_timer_next example_consts
      (svr_retry_timer_next example_consts (svr_create 0) 1) 1).global_svr.retry_timer_timeout
      = 10 ∧
    (svr_retry_timer_next example_consts
      (svr_retry_timer_next example_consts (svr_create 0) 1) 1).global_svr.retry_timer_timeout
      ≠ min (2 * example_consts.RETRY_TIMER_START) example_consts.RETRY_TIMER_MAX := by
  decide

/-- Stopping leaves the timer disabled. -/
theorem svr_retry_timer_stop_disabled (d : Daemon) :
    (svr_retry_timer_stop d).global_svr.retry_timer_enabled = 0 := by
  unfold svr_retry_timer_stop
  by_cases h : d.global_svr.retry_timer_enabled = 0
  · rw [if_pos h]; exact h
  · rw [if_neg h]; rfl

/-- The bounds on period and count are kept by every call on the retry scheduler. -/
theorem retry_step_bounds (K : Consts) (hstart : 0 < K.RETRY_TIMER_START)
    (hle : K.RETRY_TIMER_START ≤ K.RETRY_TIMER_MAX) (hcount : 1 ≤ K.RETRY_TIMER_COUNT_MAX)
    (hmax : 2 * K.RETRY_TIMER_MAX < 2 ^ 31) (d : Daemon) (op : retry_op)
    (hd : d.global_svr.retry_timer_enabled ≠ 0 →
      K.RETRY_TIMER_START ≤ d.global_svr.retry_timer_timeout ∧
      d.global_svr.retry_timer_timeout ≤ K.RETRY_TIMER_MAX ∧
      1 ≤ d.global_svr.retry_timer_count ∧
      d.global_svr.retry_timer_count ≤ K.RETRY_TIMER_COUNT_MAX) :
    (retry_step K d op).global_svr.retry_timer_enabled ≠ 0 →
      K.RETRY_TIMER_START ≤ (retry_step K d op).global_svr.retry_timer_timeout ∧
      (retry_step K d op).global_svr.retry_timer_timeout ≤ K.RETRY_TIMER_MAX ∧
      1 ≤ (retry_step K d op).global_svr.retry_timer_count ∧
      (retry_step K d op).global_svr.retry_timer_count ≤ K.RETRY_TIMER_COUNT_MAX := by
  cases op with
  | stop =>
    intro h
    exact absurd (svr_retry_timer_stop_disabled d) h
  | next http_mode =>
    intro _
    have hstep : retry_step K d (.next http_mode) = svr_retry_timer_next K d http_mode := rfl
    rw [hstep]
    by_cases he : d.global_svr.retry_timer_enabled = 0
    · obtain ⟨h1, h2, -⟩ := svr_retry_timer_next_disabled K d http_mode he
      rw [h1, h2]
      by_cases hm : http_mode = 0
      · simp [hm, hle, hcount]
      · simp [hm, hle, hcount]
    · obtain ⟨b1, b2, b3, b4⟩ := hd he
      by_cases hc : d.global_svr.retry_timer_count < K.RETRY_TIMER_COUNT_MAX
      · obtain ⟨h1, h2, -⟩ := svr_retry_timer_next_count K d http_mode he hc
        rw [h1, h2]
        exact ⟨b1, b2, by omega, by omega⟩
      · obtain ⟨h1, h2, -⟩ := svr_retry_timer_next_double K d http_mode hmax he hc
          (by omega) b2
        rw [h1, h2]
        exact ⟨le_min (by omega) hle, min_le_right _ _, b3, b4⟩

/-- C10: assuming `0 < RETRY_TIMER_START <= RETRY_TIMER_MAX`, `1 <= RETRY_TIMER_COUNT_MAX` and
that `2 * RETRY_TIMER_MAX` fits in an int: after every sequence of `svr_retry_timer_next` and
`svr_retry_timer_stop` calls from a disabled (freshly created) server, whenever
`retry_timer_enabled` is set the period lies between `RETRY_TIMER_START` and
`RETRY_TIMER_MAX` and the count between 1 and `RETRY_TIMER_COUNT_MAX`; a further
`svr_retry_timer_next` on the enabled timer never decreases the period; and the
`svr_retry_timer_next` that follows a `svr_retry_timer_stop` resets the period to
`RETRY_TIMER_START`. -/
theorem retry_run_bounds (K : Consts) (d0 : Daemon) (ops : List retry_op)
    (hstart : 0 < K.RETRY_TIMER_START) (hle : K.RETRY_TIMER_START ≤ K.RETRY_TIMER_MAX)
    (hcount : 1 ≤ K.RETRY_TIMER_COUNT_MAX) (hmax : 2 * K.RETRY_TIMER_MAX < 2 ^ 31)
    (hdis : d0.global_svr.retry_timer_enabled = 0) :
    ((retry_run K d0 ops).global_svr.retry_timer_enabled ≠ 0 →
      K.RETRY_TIMER_START ≤ (retry_run K d0 ops).global_svr.retry_timer_timeout ∧
      (retry_run K d0 ops).global_svr.retry_timer_timeout ≤ K.RETRY_TIMER_MAX ∧
      1 ≤ (retry_run K d0 ops).global_svr.retry_timer_count ∧
      (retry_run K d0 ops).global_svr.retry_timer_count ≤ K.RETRY_TIMER_COUNT_MAX) ∧
    ((retry_run K d0 ops).global_svr.retry_timer_enabled ≠ 0 → ∀ http_mode : Int,
      (retry_run K d0 ops).global_svr.retry_timer_timeout ≤
        (svr_retry_timer_next K (retry_run K d0 ops)
          http_mode).global_svr.retry_timer_timeout) ∧
    (∀ http_mode : Int,
      (svr_retry_timer_next K (svr_retry_timer_stop (retry_run K d0 ops))
        http_mode).global_svr.retry_timer_timeout = K.RETRY_TIMER_START) := by
  have hinv : ∀ (ops : List retry_op) (d : Daemon),
      (d.global_svr.retry_timer_enabled ≠ 0 →
        K.RETRY_TIMER_START ≤ d.global_svr.retry_timer_timeout ∧
        d.global_svr.retry_timer_timeout ≤ K.RETRY_TIMER_MAX ∧
        1 ≤ d.global_svr.retry_timer_count ∧
        d.global_svr.retry_timer_count ≤ K.RETRY_TIMER_COUNT_MAX) →
      ((retry_run K d ops).global_svr.retry_timer_enabled ≠ 0 →
        K.RETRY_TIMER_START ≤ (retry_run K d ops).global_svr.retry_timer_timeout ∧
        (retry_run K d ops).global_svr.retry_timer_timeout ≤ K.RETRY_TIMER_MAX ∧
        1 ≤ (retry_run K d ops).global_svr.retry_timer_count ∧
        (retry_run K d ops).global_svr.retry_timer_count ≤ K.RETRY_TIMER_COUNT_MAX) := by
    intro ops
    induction ops with
    | nil => intro d hd; exact hd
    | cons op ops ih =>
      intro d hd
      exact ih (retry_step K d op) (retry_step_bounds K hstart hle hcount hmax d op hd)
  have hb := hinv ops d0 (fun h => absurd hdis h)
  refine ⟨hb, ?_, ?_⟩
  · intro he http_mode
    obtain ⟨b1, b2, b3, b4⟩ := hb he
    by_cases hc : (retry_run K d0 ops).global_svr.retry_timer_count < K.RETRY_TIMER_COUNT_MAX
    · rw [(svr_retry_timer_next_count K _ http_mode he hc).1]
    · rw [(svr_retry_timer_next_double K _ http_mode hmax he hc (by omega) b2).1]
      exact le_min (by omega) b2
  · intro http_mode
    exact (svr_retry_timer_next_disabled K _ http_mode (svr_retry_timer_stop_disabled _)).1

/-- Witness of C10: the upstream constants; start in http mode, fire twice, stop, start. -/
theorem retry_run_bounds_witness :
    (0 < example_consts.RETRY_TIMER_START ∧
      example_consts.RETRY_TIMER_START ≤ example_consts.RETRY_TIMER_MAX ∧
      1 ≤ example_consts.RETRY_TIMER_COUNT_MAX ∧
      2 * example_consts.RETRY_TIMER_MAX < 2 ^ 31 ∧
      (svr_create 0).global_svr.retry_timer_enabled = 0) ∧
    (retry_run example_consts (svr_create 0)
      [.next 1, .next 0, .next 0, .stop, .next 0]).global_svr.retry_timer_enabled ≠ 0 ∧
    example_consts.RETRY_TIMER_START ≤ (retry_run example_consts (svr_create 0)
      [.next 1, .next 0, .next 0, .stop, .next 0]).global_svr.retry_timer_timeout ∧
    (retry_run example_consts (svr_create 0)
      [.next 1, .next 0, .next 0, .stop, .next 0]).global_svr.retry_timer_timeout ≤
      example_consts.RETRY_TIMER_MAX :=
  ⟨by decide, by decide,
    ((retry_run_bounds example_consts (svr_create 0)
      [.next 1, .next 0, .next 0, .stop, .next 0] (by decide) (by decide) (by decide)
      (by decide) rfl).1 (by decide)).1,
    ((retry_run_bounds example_consts (svr_create 0)
      [.next 1, .next 0, .next 0, .stop, .next 0] (by decide) (by decide) (by decide)
      (by decide) rfl).1 (by decide)).2.1⟩

/-! ## The tcp-recheck timer -/

theorem tcp_timer_armed_append (t : List Event) (e : Event) :
    tcp_timer_armed (t ++ [e]) =
      match e with
      | .comm_timer_set .tcp_timer _ => true
      | .comm_timer_disable .tcp_timer => false
      | _ => tcp_timer_armed t := by
  simp [tcp_timer_armed, List.foldl_append]

theorem probe_starts_append (t : List Event) (e : Event) :
    probe_starts (t ++ [e]) = probe_starts t + (if is_probe_start e then 1 else 0) := by
  by_cases h : is_probe_start e = true <;> simp [probe_starts, List.filter_append, h]

/-- The trace and the latch after `svr_tcp_callback`. -/
theorem svr_tcp_callback_eq (d : Daemon) :
    svr_tcp_callback d =
      if d.global_svr.res_state = .res_tcp ∨ d.global_svr.res_state = .res_ssl then
        { global_svr := { d.global_svr with tcp_timer_used := 1 },
          trace := d.trace ++ [Event.comm_timer_disable .tcp_timer,
            Event.probe_start (cmd_reprobe_loop d.global_svr.probes [] 10240)] }
      else { d with trace := d.trace ++ [Event.comm_timer_disable .tcp_timer] } := by
  unfold svr_tcp_callback
  by_cases h : d.global_svr.res_state = .res_tcp ∨ d.global_svr.res_state = .res_ssl
  · simp [h, cmd_reprobe, Daemon.call]
  · simp [h, Daemon.call]

/-- Every step keeps: either no reprobe was added, or exactly one was and the latch is set
with the timer disarmed. -/
theorem tcp_step_latch (K : Consts) (n0 : Nat) (d : Daemon) (op : tcp_op)
    (h : probe_starts d.trace = n0 ∨
      (d.global_svr.tcp_timer_used ≠ 0 ∧ tcp_timer_armed d.trace = false ∧
        probe_starts d.trace = n0 + 1)) :
    probe_starts (tcp_step K d op).trace = n0 ∨
      ((tcp_step K d op).global_svr.tcp_timer_used ≠ 0 ∧
        tcp_timer_armed (tcp_step K d op).trace = false ∧
        probe_starts (tcp_step K d op).trace = n0 + 1) := by
  cases op with
  | probe_done rs => exact h
  | enable =>
    simp only [tcp_step, svr_tcp_timer_enable]
    by_cases hu : d.global_svr.tcp_timer_used = 0
    · rcases h with h | ⟨h1, -, -⟩
      · left
        simp [hu, Daemon.call, probe_starts_append, is_probe_start, h]
      · exact absurd hu h1
    · rw [if_pos hu]
      exact h
  | fire =>
    simp only [tcp_step]
    by_cases ha : tcp_timer_armed d.trace = true
    · rw [if_pos ha, svr_tcp_callback_eq]
      rcases h with h | ⟨-, h2, -⟩
      · by_cases hs : d.global_svr.res_state = .res_tcp ∨ d.global_svr.res_state = .res_ssl
        · right
          rw [if_pos hs]
          refine ⟨by simp, ?_, ?_⟩
          · rw [show d.trace ++ [Event.comm_timer_disable .tcp_timer,
                Event.probe_start (cmd_reprobe_loop d.global_svr.probes [] 10240)] =
                (d.trace ++ [Event.comm_timer_disable .tcp_timer]) ++
                [Event.probe_start (cmd_reprobe_loop d.global_svr.probes [] 10240)] by simp,
              tcp_timer_armed_append, tcp_timer_armed_append]
          · rw [show d.trace ++ [Event.comm_timer_disable .tcp_timer,
                Event.probe_start (cmd_reprobe_loop d.global_svr.probes [] 10240)] =
                (d.trace ++ [Event.comm_timer_disable .tcp_timer]) ++
                [Event.probe_start (cmd_reprobe_loop d.global_svr.probes [] 10240)] by simp,
              probe_starts_append, probe_starts_append]
            simp [is_probe_start, h]
        · left
          rw [if_neg hs]
          simp [probe_starts_append, is_probe_start, h]
      · rw [h2] at ha
        exact absurd ha (by decide)
    · rw [if_neg ha]
      exact h

/-- C11: when `svr_tcp_callback` fires, if `res_state` is tcp or ssl it sets
`tcp_timer_used = 1` and triggers exactly one reprobe (one `probe_start`, made by
`cmd_reprobe` from the probe list), and otherwise it triggers no reprobe and leaves
`tcp_timer_used` unchanged; in both cases the tcp timer is disarmed. Once `tcp_timer_used`
is set, `svr_tcp_timer_enable` does nothing, so over any sequence of `svr_tcp_timer_enable`
calls, timer fires and changes of the resolution state the recheck adds at most one
reprobe. -/
theorem tcp_recheck_at_most_once (K : Consts) (d : Daemon) (ops : List tcp_op) :
    (d.global_svr.res_state = .res_tcp ∨ d.global_svr.res_state = .res_ssl →
      (svr_tcp_callback d).global_svr.tcp_timer_used = 1 ∧
      (svr_tcp_callback d).trace = d.trace ++ [Event.comm_timer_disable .tcp_timer,
        Event.probe_start (cmd_reprobe_loop d.global_svr.probes [] 10240)]) ∧
    (¬ (d.global_svr.res_state = .res_tcp ∨ d.global_svr.res_state = .res_ssl) →
      (svr_tcp_callback d).global_svr.tcp_timer_used = d.global_svr.tcp_timer_used ∧
      (svr_tcp_callback d).trace = d.trace ++ [Event.comm_timer_disable .tcp_timer]) ∧
    tcp_timer_armed (svr_tcp_callback d).trace = false ∧
    (d.global_svr.tcp_timer_used ≠ 0 → svr_tcp_timer_enable K d = d) ∧
    probe_starts (tcp_run K d ops).trace ≤ probe_starts d.trace + 1 := by
  refine ⟨?_, ?_, ?_, ?_, ?_⟩
  · intro hs
    rw [svr_tcp_callback_eq, if_pos hs]
    exact ⟨rfl, rfl⟩
  · intro hs
    rw [svr_tcp_callback_eq, if_neg hs]
    exact ⟨rfl, rfl⟩
  · rw [svr_tcp_callback_eq]
    by_cases hs : d.global_svr.res_state = .res_tcp ∨ d.global_svr.res_state = .res_ssl
    · rw [if_pos hs, show d.trace ++ [Event.comm_timer_disable .tcp_timer,
          Event.probe_start (cmd_reprobe_loop d.global_svr.probes [] 10240)] =
          (d.trace ++ [Event.comm_timer_disable .tcp_timer]) ++
          [Event.probe_start (cmd_reprobe_loop d.global_svr.probes [] 10240)] by simp,
        tcp_timer_armed_append, tcp_timer_armed_append]
    · rw [if_neg hs]
      exact tcp_timer_armed_append _ _
  · intro hu
    unfold svr_tcp_timer_enable
    rw [if_pos hu]
  · have key : ∀ (ops : List tcp_op) (d' : Daemon),
        (probe_starts d'.trace = probe_starts d.trace ∨
          (d'.global_svr.tcp_timer_used ≠ 0 ∧ tcp_timer_armed d'.trace = false ∧
            probe_starts d'.trace = probe_starts d.trace + 1)) →
        probe_starts (tcp_run K d' ops).trace ≤ probe_starts d.trace + 1 := by
      intro ops
      induction ops with
      | nil =>
        intro d' h
        rcases h with h | ⟨-, -, h⟩
        · exact h ▸ Nat.le_succ _
        · exact le_of_eq h
      | cons op ops ih =>
        intro d' h
        exact ih (tcp_step K d' op) (tcp_step_latch K _ d' op h)
    exact key ops d (Or.inl rfl)

/-- Witness of C11: a server in state tcp; the timer is armed and fires, and is asked for
again. -/
theorem tcp_recheck_at_most_once_witness :
    (svr_tcp_callback (example_daemon 0 .res_tcp 0 0
      (example_conn 7 .persist_read []))).global_svr.tcp_timer_used = 1 ∧
    probe_starts (tcp_run example_consts
      (example_daemon 0 .res_tcp 0 0 (example_conn 7 .persist_read []))
      [.enable, .fire, .enable, .fire, .probe_done .res_ssl, .enable, .fire]).trace ≤ 0 + 1 :=
  ⟨((tcp_recheck_at_most_once example_consts
      (example_daemon 0 .res_tcp 0 0 (example_conn 7 .persist_read [])) []).1
      (Or.inl rfl)).1,
    (tcp_recheck_at_most_once example_consts
      (example_daemon 0 .res_tcp 0 0 (example_conn 7 .persist_read []))
      [.enable, .fire, .enable, .fire, .probe_done .res_ssl, .enable, .fire]).2.2.2.2⟩

/-! ## The results block -/

/-- The probe loop prints the lines of the finished probes and counts the rest. -/
theorem probe_lines_eq (ps : List probe_ip) :
    (probe_lines ps).1 = finished_probe_lines ps ∧
    ((probe_lines ps).2.2 ≠ 0 ↔ ∃ p ∈ ps, p.finished = 0) ∧
    ((probe_lines ps).2.1 = 0 ↔ ∀ p ∈ ps, probe_is_cache p = false) := by
  induction ps with
  | nil => simp [probe_lines, finished_probe_lines]
  | cons p rest ih =>
    obtain ⟨h1, h2, h3⟩ := ih
    by_cases hf : p.finished = 0 <;> by_cases hc : probe_is_cache p = true <;>
      simp [probe_lines, finished_probe_lines, hf, hc, h1, h2, h3]

/-- The text of `send_results_to_con`, piece by piece. -/
theorem results_text_eq (K : Consts) (env : Env) (s : svr) :
    results_text K env s =
      (if s.probetime = 0 then "at (no probe performed)\n".toList
       else if cstr (env.strftime s.probetime) ≠ [] then
         "at ".toList ++ cstr (env.strftime s.probetime) ++ "\n".toList
       else []) ++ (probe_lines s.probes).1 ++
      (if (probe_lines s.probes).2.2 ≠ 0 then "probe is in progress\n".toList
       else if (probe_lines s.probes).2.1 = 0 then
         "no cache: no DNS servers have been supplied via DHCP\n".toList
       else []) ++ state_line s ++ "\n".toList ++
      (match s.update with
       | some u =>
         if u.update_available ≠ 0 ∧ u.user_replied = 0 then
           update_text K u.version_available
         else []
       | none => []) := by
  unfold results_text
  rfl

/-- The `state:` line is decided by the resolution state and the truth of the flags. -/
theorem state_line_eq (s : svr) :
    state_line s = state_line_of s.res_state (decide (s.insecure_state ≠ 0))
      (decide (s.forced_insecure ≠ 0)) (decide (s.http_insecure ≠ 0)) := by
  unfold state_line state_line_of
  cases s.res_state <;> simp [res_state_token]

/-- The `state:` line is one line that starts with `state: `. -/
theorem state_line_shape (s : svr) :
    ∃ body, state_line s = "state: ".toList ++ body ++ "\n".toList ∧ '\n' ∉ body := by
  rw [state_line_eq]
  generalize decide (s.insecure_state ≠ 0) = a
  generalize decide (s.forced_insecure ≠ 0) = b
  generalize decide (s.http_insecure ≠ 0) = c
  refine ⟨res_state_token s.res_state ++ " ".toList ++
    (if a then "insecure_mode".toList else "secure".toList) ++
    (if b then " forced_insecure".toList else []) ++
    (if c then " http_insecure".toList else []), ?_, ?_⟩
  · simp [state_line_of]
  · cases s.res_state <;> cases a <;> cases b <;> cases c <;> decide

/-- C12: for every server state with no pending update (and a C library whose `strftime`
formats the probe time), the text that `send_results_to_con` puts in the connection buffer
is, in this order: one `at` line, which is exactly `at (no probe performed)` iff `probetime`
is 0; one line for each probe with `finished` set, in probe-list order, and none for an
unfinished probe; then `probe is in progress` iff at least one probe is unfinished,
otherwise the `no cache` line iff no probe of the list is a cache probe; then exactly one
line starting with `state: `; then one empty line that ends the block. The connection is
left in `line_state` `persist_write`. -/
theorem send_results_to_con_block (K : Consts) (env : Env) (s : svr) (c : sslconn)
    (hupd : ¬ update_pending s)
    (hat : s.probetime ≠ 0 → cstr (env.strftime s.probetime) ≠ [] ∧
      cstr (env.strftime s.probetime) ≠ "(no probe performed)".toList) :
    ldns_buffer_pending (send_results_to_con K env s c).buffer =
      at_line env s ++ finished_probe_lines s.probes ++ progress_line s.probes ++
        state_line s ++ "\n".toList ∧
    (at_line env s = "at (no probe performed)\n".toList ↔ s.probetime = 0) ∧
    (∃ body, state_line s = "state: ".toList ++ body ++ "\n".toList ∧ '\n' ∉ body) ∧
    (send_results_to_con K env s c).line_state = .persist_write := by
  obtain ⟨h1, h2, h3⟩ := probe_lines_eq s.probes
  refine ⟨?_, ?_, state_line_shape s, rfl⟩
  · have hup : (match s.update with
        | some u =>
          if u.update_available ≠ 0 ∧ u.user_replied = 0 then
            update_text K u.version_available
          else []
        | none => []) = [] := by
      cases hu : s.update with
      | none => rfl
      | some u =>
        have : ¬ (u.update_available ≠ 0 ∧ u.user_replied = 0) :=
          fun h => hupd ⟨u, hu, h.1, h.2⟩
        simp only [this, if_false]
    have hatl : (if s.probetime = 0 then "at (no probe performed)\n".toList
        else if cstr (env.strftime s.probetime) ≠ [] then
          "at ".toList ++ cstr (env.strftime s.probetime) ++ "\n".toList
        else []) = at_line env s := by
      unfold at_line
      by_cases hp : s.probetime = 0
      · simp only [hp, if_true]
      · simp only [hp, if_false, (hat hp).1, ne_eq, not_false_eq_true, if_true]
    have hprog : (if (probe_lines s.probes).2.2 ≠ 0 then "probe is in progress\n".toList
        else if (probe_lines s.probes).2.1 = 0 then
          "no cache: no DNS servers have been supplied via DHCP\n".toList
        else []) = progress_line s.probes := by
      unfold progress_line
      simp only [h2, h3]
    unfold send_results_to_con
    simp only [pending_flip_printf_clear]
    rw [results_text_eq, hup, hatl, hprog, h1, List.append_nil]
  · unfold at_line
    constructor
    · intro h
      by_contra hp
      rw [if_neg hp] at h
      have h' : "at ".toList ++ (cstr (env.strftime s.probetime) ++ "\n".toList) =
          "at ".toList ++ ("(no probe performed)".toList ++ "\n".toList) := by
        rw [← List.append_assoc, h]
        rfl
      exact (hat hp).2 (List.append_cancel_right (List.append_cancel_left h'))
    · intro hp
      rw [if_pos hp]

/-- Witness of C12: one finished cache probe and one unfinished probe, no probe time. -/
theorem send_results_to_con_block_witness :
    ¬ update_pending (with_probes (example_daemon 0 .res_cache 0 0
      (example_conn 7 .persist_write_checkclose []))
      [example_probe, { example_probe with finished := 0 }]).global_svr ∧
    ldns_buffer_pending (send_results_to_con example_consts example_env
      (with_probes (example_daemon 0 .res_cache 0 0
        (example_conn 7 .persist_write_checkclose []))
        [example_probe, { example_probe with finished := 0 }]).global_svr
      (example_conn 7 .persist_write_checkclose [])).buffer =
      ("at (no probe performed)\ncache 192.0.2.1: OK \nprobe is in progress\n" ++
        "state: cache secure\n\n").toList := by
  have hupd : ¬ update_pending (with_probes (example_daemon 0 .res_cache 0 0
      (example_conn 7 .persist_write_checkclose []))
      [example_probe, { example_probe with finished := 0 }]).global_svr := by
    rintro ⟨u, h, -⟩
    cases h
  refine ⟨hupd, ?_⟩
  rw [(send_results_to_con_block example_consts example_env _
    (example_conn 7 .persist_write_checkclose []) hupd (fun h => absurd rfl h)).1]
  decide

/-- The line that `send_results_to_con` prints for a probe is the line of the
specification. -/
theorem probe_line_eq_spec (p : probe_ip) : probe_line p = probe_line_spec p := by
  unfold probe_line probe_line_spec probe_line_head reason_text
  by_cases h1 : p.to_http = 0 <;> by_cases h2 : p.dnstcp = 0 <;>
    by_cases h3 : p.http_ip6 = 0 <;> by_cases h4 : p.to_auth = 0 <;>
    cases h5 : p.host_c <;> simp [h1, h2, h3, h4, h5, List.append_assoc]

theorem finished_probe_lines_append (l1 l2 : List probe_ip) :
    finished_probe_lines (l1 ++ l2) = finished_probe_lines l1 ++ finished_probe_lines l2 := by
  induction l1 with
  | nil => rfl
  | cons p rest ih =>
    by_cases h : p.finished = 0 <;> simp [finished_probe_lines, h, ih]

/-- C13: for every finished probe entry the line that `send_results_to_con` emits is chosen
by the first matching kind — `to_http` with a hostname: `addr <qname> <A|AAAA> from <name>: `,
`to_http` without hostname: `http <desc> (<name>): `, `dnstcp`: `<tcp|ssl><port> <name>: `
(`ssl` iff `ssldns`), otherwise `<authority|cache> <name>: ` (`authority` iff `to_auth`) —
followed by `OK` iff `works` is set and `error` otherwise, one space, the reason text
(empty when no reason is set) and a newline; this line stands in the block between the
lines of the probes before and after it. In particular a finished, working plain cache
probe named 192.0.2.1 with no reason yields exactly `cache 192.0.2.1: OK \n`. -/
theorem probe_line_format (pre post : List probe_ip) (p : probe_ip)
    (hfin : p.finished ≠ 0) :
    probe_line p = probe_line_spec p ∧
    (probe_lines (pre ++ p :: post)).1 =
      (probe_lines pre).1 ++ probe_line_spec p ++ (probe_lines post).1 ∧
    (p.to_http = 0 → p.dnstcp = 0 → p.to_auth = 0 → p.works ≠ 0 → p.reason = none →
      cstr p.name = "192.0.2.1".toList → probe_line p = "cache 192.0.2.1: OK \n".toList) := by
  refine ⟨probe_line_eq_spec p, ?_, ?_⟩
  · rw [(probe_lines_eq _).1, (probe_lines_eq pre).1, (probe_lines_eq post).1,
      finished_probe_lines_append, ← probe_line_eq_spec]
    simp [finished_probe_lines, hfin]
  · intro h1 h2 h3 h4 h5 h6
    unfold probe_line reason_text
    simp only [h1, h2, h3, h4, h5, h6, ne_eq, not_true_eq_false, not_false_eq_true, if_true,
      if_false]
    decide

/-- Witness of C13: the cache probe 192.0.2.1 as the only entry of the probe list; the
block of `send_results_to_con` carries its line. -/
theorem probe_line_format_witness :
    example_probe.finished ≠ 0 ∧
    probe_line example_probe = "cache 192.0.2.1: OK \n".toList ∧
    ldns_buffer_pending (send_results_to_con example_consts example_env
      (with_probes (example_daemon 0 .res_cache 0 0
        (example_conn 7 .persist_write_checkclose [])) [example_probe]).global_svr
      (example_conn 7 .persist_write_checkclose [])).buffer =
      "at (no probe performed)\ncache 192.0.2.1: OK \nstate: cache secure\n\n".toList :=
  ⟨by decide,
    (probe_line_format [] [] example_probe (by decide)).2.2 rfl rfl rfl (by decide) rfl rfl,
    by decide⟩

/-- C14 (amended): when `res_state` is dark, the state line of the results block names the
state with the token `nodnssec`: with `insecure_state`, `forced_insecure` and
`http_insecure` all 0 the line is exactly `state: nodnssec secure`, with only
`insecure_state` set it is `state: nodnssec insecure_mode`, and with `insecure_state` and
`forced_insecure` set (`http_insecure` 0) it is
`state: nodnssec insecure_mode forced_insecure`. -/
theorem state_line_dark (s : svr) (hdark : s.res_state = .res_dark) :
    (s.insecure_state = 0 → s.forced_insecure = 0 → s.http_insecure = 0 →
      state_line s = "state: nodnssec secure\n".toList) ∧
    (s.insecure_state ≠ 0 → s.forced_insecure = 0 → s.http_insecure = 0 →
      state_line s = "state: nodnssec insecure_mode\n".toList) ∧
    (s.insecure_state ≠ 0 → s.forced_insecure ≠ 0 → s.http_insecure = 0 →
      state_line s = "state: nodnssec insecure_mode forced_insecure\n".toList) := by
  refine ⟨?_, ?_, ?_⟩ <;> intro h1 h2 h3 <;> rw [state_line_eq, hdark] <;>
    simp only [h1, h2, h3, ne_eq, not_true_eq_false, not_false_eq_true, decide_True,
      decide_False] <;> decide

/-- Witness of C14 (amended): the three dark states of the scenarios. -/
theorem state_line_dark_witness :
    state_line (example_daemon 0 .res_dark 0 0
      (example_conn 7 .persist_read [])).global_svr = "state: nodnssec secure\n".toList ∧
    state_line (example_daemon 0 .res_dark 1 0
      (example_conn 7 .persist_read [])).global_svr =
      "state: nodnssec insecure_mode\n".toList ∧
    state_line (example_daemon 0 .res_dark 1 1
      (example_conn 7 .persist_read [])).global_svr =
      "state: nodnssec insecure_mode forced_insecure\n".toList :=
  ⟨(state_line_dark _ rfl).1 rfl rfl rfl,
    (state_line_dark (example_daemon 0 .res_dark 1 0
      (example_conn 7 .persist_read [])).global_svr rfl).2.1 (by decide) rfl rfl,
    (state_line_dark (example_daemon 0 .res_dark 1 1
      (example_conn 7 .persist_read [])).global_svr rfl).2.2 (by decide) (by decide) rfl⟩

/-- C14 (counterexample): for a dark server with all three flags 0 the state line is
`state: nodnssec secure`, not `state: dark secure`; with `insecure_state` set it is
`state: nodnssec insecure_mode`, not `state: dark insecure_mode`. -/
theorem state_line_dark_counterexample :
    state_line (example_daemon 0 .res_dark 0 0
      (example_conn 7 .persist_read [])).global_svr = "state: nodnssec secure\n".toList ∧
    state_line (example_daemon 0 .res_dark 0 0
      (example_conn 7 .persist_read [])).global_svr ≠ "state: dark secure\n".toList ∧
    state_line (example_daemon 0 .res_dark 1 0
      (example_conn 7 .persist_read [])).global_svr ≠
      "state: dark insecure_mode\n".toList ∧
    state_line (example_daemon 0 .res_dark 1 1
      (example_conn 7 .persist_read [])).global_svr ≠
      "state: dark insecure_mode forced_insecure\n".toList := by
  decide

theorem state_line_keys_complete (rs : res_state) (a b c : Bool) :
    (rs, a, b, c) ∈ state_line_keys := by
  cases rs <;> cases a <;> cases b <;> cases c <;> decide

theorem state_line_of_nodup :
    (state_line_keys.map (fun k => state_line_of k.1 k.2.1 k.2.2.1 k.2.2.2)).Nodup := by
  decide

/-- Two keys with the same state line are the same key. -/
theorem state_line_of_injective (r1 r2 : res_state) (a1 b1 c1 a2 b2 c2 : Bool)
    (h : state_line_of r1 a1 b1 c1 = state_line_of r2 a2 b2 c2) :
    r1 = r2 ∧ a1 = a2 ∧ b1 = b2 ∧ c1 = c2 := by
  have hinj := List.inj_on_of_nodup_map state_line_of_nodup
    (state_line_keys_complete r1 a1 b1 c1) (state_line_keys_complete r2 a2 b2 c2) h
  simpa using hinj

/-- C15: for every server state the state line is `state: ` ++ T ++ ` ` ++ M ++ F ++ H (and
the newline that ends it), where T depends only on `res_state`, M is `insecure_mode` iff
`insecure_state` is nonzero and `secure` otherwise, F is ` forced_insecure` iff
`forced_insecure` is set and empty otherwise, and H is ` http_insecure` iff `http_insecure`
is set and empty otherwise; the six resolution states map to six pairwise distinct tokens
T, and two server states produce the same state line only if they agree on `res_state` and
on the truth of `insecure_state`, `forced_insecure` and `http_insecure`. -/
theorem state_line_decomposition (s1 s2 : svr) :
    state_line s1 = "state: ".toList ++ res_state_token s1.res_state ++ " ".toList ++
      (if s1.insecure_state ≠ 0 then "insecure_mode".toList else "secure".toList) ++
      (if s1.forced_insecure ≠ 0 then " forced_insecure".toList else []) ++
      (if s1.http_insecure ≠ 0 then " http_insecure".toList else []) ++ "\n".toList ∧
    (∀ r1 r2 : res_state, res_state_token r1 = res_state_token r2 → r1 = r2) ∧
    (state_line s1 = state_line s2 →
      s1.res_state = s2.res_state ∧
      (s1.insecure_state ≠ 0 ↔ s2.insecure_state ≠ 0) ∧
      (s1.forced_insecure ≠ 0 ↔ s2.forced_insecure ≠ 0) ∧
      (s1.http_insecure ≠ 0 ↔ s2.http_insecure ≠ 0)) := by
  refine ⟨?_, ?_, ?_⟩
  · rw [state_line_eq]
    unfold state_line_of
    simp only [decide_eq_true_eq]
  · intro r1 r2 h
    cases r1 <;> cases r2 <;> first | rfl | exact absurd h (by decide)
  · intro h
    rw [state_line_eq, state_line_eq] at h
    obtain ⟨h1, h2, h3, h4⟩ := state_line_of_injective _ _ _ _ _ _ _ _ h
    have hb : ∀ x y : Int, decide (x ≠ 0) = decide (y ≠ 0) → (x ≠ 0 ↔ y ≠ 0) := by
      intro x y hxy
      have := decide_eq_decide.mp hxy
      exact this
    exact ⟨h1, hb _ _ h2, hb _ _ h3, hb _ _ h4⟩

/-- Witness of C15: a dark and a disconnected server have different state lines, a dark
server in insecure mode and a dark server in secure mode too. -/
theorem state_line_decomposition_witness :
    state_line (example_daemon 0 .res_dark 1 0
      (example_conn 7 .persist_read [])).global_svr =
      "state: nodnssec insecure_mode\n".toList ∧
    (state_line (example_daemon 0 .res_dark 1 0
        (example_conn 7 .persist_read [])).global_svr =
      state_line (example_daemon 1 .res_dark 2 0
        (example_conn 8 .persist_write [])).global_svr →
      ((1 : Int) ≠ 0 ↔ (2 : Int) ≠ 0)) :=
  ⟨(state_line_decomposition (example_daemon 0 .res_dark 1 0
      (example_conn 7 .persist_read [])).global_svr
      (example_daemon 0 .res_dark 1 0 (example_conn 7 .persist_read [])).global_svr).1,
    fun h => ((state_line_decomposition (example_daemon 0 .res_dark 1 0
      (example_conn 7 .persist_read [])).global_svr
      (example_daemon 1 .res_dark 2 0 (example_conn 8 .persist_write [])).global_svr).2.2
      h).2.1⟩

/-! ## The broadcast -/

theorem svr_send_results_loop_fst (K : Consts) (env : Env) (s : svr) (l : List sslconn) :
    (svr_send_results_loop K env s l).1 = l.map (svr_send_results_con K env s) := by
  induction l with
  | nil => rfl
  | cons a l ih =>
    simp only [svr_send_results_loop, List.map_cons]
    split_ifs <;> simp [ih]

/-- The busy list after a broadcast. -/
theorem svr_send_results_busy_list (K : Consts) (env : Env) (d : Daemon) :
    (svr_send_results K env d).global_svr.busy_list =
      d.global_svr.busy_list.map (svr_send_results_con K env d.global_svr) := by
  simp [svr_send_results, svr_send_results_loop_fst]

/-- One round of the broadcast loop, by the line state of the connection. -/
theorem svr_send_results_con_eq (K : Consts) (env : Env) (s : svr) (c : sslconn) :
    svr_send_results_con K env s c =
      if c.line_state = .persist_write_checkclose then send_results_to_con K env s c
      else if c.line_state = .persist_write then { c with fetch_another_update := 1 }
      else c := by
  unfold svr_send_results_con
  cases h : c.line_state <;> simp [h]

theorem svr_send_results_con_ptr (K : Consts) (env : Env) (s : svr) (c : sslconn) :
    (svr_send_results_con K env s c).ptr = c.ptr := by
  rw [svr_send_results_con_eq]
  split_ifs <;> rfl

/-- C16: `svr_send_results` visits every connection in the busy list: each connection in
`line_state` `persist_write_checkclose` gets its buffer replaced by a fresh results block
and moves to `persist_write`; each connection already in `persist_write` gets
`fetch_another_update` set to 1 with its buffer and `line_state` unchanged; every
connection in any other state is left entirely unchanged. The server flags and the probe
list are unchanged and the busy list keeps the same connections in the same order. -/
theorem svr_send_results_visits (K : Consts) (env : Env) (d : Daemon) :
    (svr_send_results K env d).global_svr.busy_list =
      d.global_svr.busy_list.map (fun c =>
        if c.line_state = .persist_write_checkclose then
          { c with
            buffer := ldns_buffer_flip (ldns_buffer_printf (ldns_buffer_clear c.buffer)
              (results_text K env d.global_svr)),
            line_state := .persist_write }
        else if c.line_state = .persist_write then { c with fetch_another_update := 1 }
        else c) ∧
    (∀ b : ldns_buffer, ldns_buffer_pending (ldns_buffer_flip (ldns_buffer_printf
      (ldns_buffer_clear b) (results_text K env d.global_svr))) =
      results_text K env d.global_svr) ∧
    (svr_send_results K env d).global_svr.busy_list.map sslconn.ptr =
      d.global_svr.busy_list.map sslconn.ptr ∧
    (svr_send_results K env d).global_svr =
      { d.global_svr with busy_list := (svr_send_results K env d).global_svr.busy_list } := by
  refine ⟨?_, fun b => pending_flip_printf_clear b _, ?_, rfl⟩
  · rw [svr_send_results_busy_list]
    apply List.map_congr_left
    intro c _
    rw [svr_send_results_con_eq]
    rfl
  · rw [svr_send_results_busy_list, List.map_map]
    apply List.map_congr_left
    intro c _
    exact svr_send_results_con_ptr K env d.global_svr c

/-! ## Flushing a connection -/

theorem written_to_append (sc : Nat) (t1 t2 : List Event) :
    written_to sc (t1 ++ t2) = written_to sc t1 ++ written_to sc t2 := by
  induction t1 with
  | nil => rfl
  | cons e t1 ih =>
    cases e <;> simp [written_to, ih]
    split_ifs <;> simp

theorem ldns_buffer_pending_skip (b : ldns_buffer) (n : Nat) :
    ldns_buffer_pending (ldns_buffer_skip b n) = (ldns_buffer_pending b).drop n := by
  simp only [ldns_buffer_pending, ldns_buffer_skip, List.drop_take, List.drop_drop]
  congr 1
  omega

theorem set_conn_set_conn (d : Daemon) (sc : Nat) (f g : sslconn → sslconn)
    (hf : ∀ c, (f c).ptr = c.ptr) :
    (d.set_conn sc f).set_conn sc g = d.set_conn sc (fun c => g (f c)) := by
  simp only [Daemon.set_conn, List.map_map]
  congr 2
  apply List.map_congr_left
  intro c _
  by_cases h : c.ptr = sc
  · simp [h, hf]
  · simp [h]

/-- Reading back a live connection after an assignment through its pointer. -/
theorem conn_set_conn_of (d : Daemon) (sc : Nat) (f : sslconn → sslconn) (c : sslconn)
    (hc : d.conn sc = some c) (hf : (f c).ptr = c.ptr) :
    (d.set_conn sc f).conn sc = some (f c) := by
  unfold Daemon.conn Daemon.set_conn at *
  simp only
  generalize d.global_svr.busy_list = l at hc
  induction l with
  | nil => simp at hc
  | cons a l ih =>
    by_cases h : a.ptr = sc
    · have ha : a = c := by simpa [List.find?_cons, h] using hc
      subst ha
      simp [List.find?_cons, h, hf]
    · simp only [List.find?_cons, h, decide_False] at hc
      simp [List.find?_cons, h, ih hc]

theorem set_conn_id (d : Daemon) (sc : Nat) (f : sslconn → sslconn) (hf : ∀ c, f c = c) :
    d.set_conn sc f = d := by
  simp [Daemon.set_conn, hf]

theorem conn_skip_ptr (n : Nat) (c : sslconn) : (conn_skip n c).ptr = c.ptr := rfl

theorem conn_skip_zero (c : sslconn) : conn_skip 0 c = c := rfl

theorem conn_skip_skip (n m : Nat) (c : sslconn) :
    conn_skip m (conn_skip n c) = conn_skip (n + m) c := by
  simp [conn_skip, ldns_buffer_skip, Nat.add_assoc]

/-- A write loop that reports completion has handed exactly the pending bytes to the TLS
engine and moved the position to the limit; nothing else has changed. -/
theorem sslconn_write_loop_complete (env : Env) (sc : Nat) :
    ∀ (fuel : Nat) (d : Daemon) (c : sslconn) (d1 : Daemon), d.conn sc = some c →
      sslconn_write_loop env sc fuel d = some (d1, true) →
      c.buffer.limit - c.buffer.position < fuel →
      ∃ evs, d1 =
          { global_svr := (d.set_conn sc
              (conn_skip (c.buffer.limit - c.buffer.position))).global_svr,
            trace := d.trace ++ evs } ∧
        written_to sc evs = ldns_buffer_pending c.buffer := by
  intro fuel
  induction fuel with
  | zero => intro d c d1 _ _ h; exact absurd h (Nat.not_lt_zero _)
  | succ fuel ih =>
    intro d c d1 hc hw hfuel
    simp only [sslconn_write_loop, hc] at hw
    by_cases hrem : c.buffer.limit - c.buffer.position = 0
    · rw [if_pos hrem] at hw
      have hd : d1 = d := by simpa using hw.symm
      refine ⟨[], ?_, ?_⟩
      · rw [hd, hrem, set_conn_id d sc _ conn_skip_zero]
        simp
      · simp [written_to, ldns_buffer_pending, hrem]
    · rw [if_neg hrem] at hw
      by_cases hr : (env.SSL_write sc (ldns_buffer_pending c.buffer)).1 ≤ 0
      · rw [if_pos hr] at hw
        split_ifs at hw <;> simp at hw
      · rw [if_neg hr] at hw
        generalize hn : min (env.SSL_write sc (ldns_buffer_pending c.buffer)).1.toNat
          (c.buffer.limit - c.buffer.position) = n at hw
        have hn1 : 1 ≤ n ∧ n ≤ c.buffer.limit - c.buffer.position := by
          rw [← hn]
          exact ⟨le_min (by omega) (by omega), min_le_right _ _⟩
        have hc' := conn_set_conn (d.call (Event.SSL_write sc ((ldns_buffer_pending
            c.buffer).take n))) sc (conn_skip n) (conn_skip_ptr n)
        rw [call_conn, hc, Option.map_some'] at hc'
        have hlen : (conn_skip n c).buffer.limit - (conn_skip n c).buffer.position =
            c.buffer.limit - c.buffer.position - n := by
          simp only [conn_skip, ldns_buffer_skip]
          omega
        obtain ⟨evs, h1, h2⟩ := ih _ _ d1 hc' hw (by rw [hlen]; omega)
        refine ⟨Event.SSL_write sc ((ldns_buffer_pending c.buffer).take n) :: evs, ?_, ?_⟩
        · rw [h1, hlen, set_conn_set_conn _ _ _ _ (conn_skip_ptr n)]
          have hfun : (fun c' => conn_skip (c.buffer.limit - c.buffer.position - n)
              (conn_skip n c')) = conn_skip (c.buffer.limit - c.buffer.position) := by
            funext c'
            rw [conn_skip_skip]
            congr 1
            omega
          rw [hfun]
          simp [Daemon.set_conn, Daemon.call]
        · simp only [written_to, if_true, h2]
          rw [show (conn_skip n c).buffer = ldns_buffer_skip c.buffer n from rfl,
            ldns_buffer_pending_skip]
          exact List.take_append_drop _ _

/-- With the peer still there, `sslconn_checkclose` changes nothing and returns 0. -/
theorem sslconn_checkclose_open (env : Env) (d : Daemon) (sc : Nat) (c : sslconn)
    (hc : d.conn sc = some c) (hopen : peer_open env sc) :
    sslconn_checkclose env d sc = some (d, false) := by
  simp only [sslconn_checkclose, hc]
  rcases hopen with ⟨h1, h2⟩ | ⟨h1, h2⟩
  · rw [if_pos h1, h2]
    rfl
  · rw [if_neg (by omega), if_neg (by simpa using h2)]

/-- A completed `sslconn_write`: the pending bytes went to the TLS engine, the position
moved to the limit, nothing else changed. -/
theorem sslconn_write_complete (env : Env) (d : Daemon) (sc : Nat) (c : sslconn)
    (d1 : Daemon) (hc : d.conn sc = some c) (hw : sslconn_write env d sc = some (d1, true)) :
    ∃ evs, d1 =
        { global_svr := (d.set_conn sc
            (conn_skip (c.buffer.limit - c.buffer.position))).global_svr,
          trace := d.trace ++ evs } ∧
      written_to sc evs = ldns_buffer_pending c.buffer := by
  simp only [sslconn_write, hc] at hw
  exact sslconn_write_loop_complete env sc _ d c d1 hc hw (Nat.lt_succ_self _)

/-- The dispatch of `control_callback` on a connection in `persist_write` whose peer is
there and whose write completes. -/
theorem control_callback_flush (K : Consts) (env : Env) (d : Daemon) (sc : Nat)
    (c : sslconn) (dw : Daemon) (hc : d.conn sc = some c)
    (hs : c.shake_state = .rc_hs_none) (hl : c.line_state = .persist_write)
    (hopen : peer_open env sc) (hw : sslconn_write env d sc = some (dw, true)) :
    dw.conn sc = some (conn_skip (c.buffer.limit - c.buffer.position) c) ∧
    control_callback K env d sc 0 =
      if c.fetch_another_update ≠ 0 then
        some (send_results_to_con_ptr K env
          (dw.set_conn sc (fun c => { c with fetch_another_update := 0 })) sc)
      else if c.close_me ≠ 0 then some (sslconn_shutdown env dw sc)
      else
        some ((dw.call (.comm_point_listen_for_rw sc 1 0)).set_conn sc
          (fun c => { c with line_state := .persist_write_checkclose })) := by
  obtain ⟨evs, h1, -⟩ := sslconn_write_complete env d sc c dw hc hw
  have hdw : dw.conn sc = some (conn_skip (c.buffer.limit - c.buffer.position) c) := by
    rw [h1]
    have := conn_set_conn d sc (conn_skip (c.buffer.limit - c.buffer.position))
      (conn_skip_ptr _)
    rw [hc, Option.map_some'] at this
    exact this
  refine ⟨hdw, ?_⟩
  have hshake : control_callback_shake env d sc c = (d, true) := by
    simp [control_callback_shake, hs]
  simp only [control_callback, hc, ne_eq, not_true_eq_false, if_false, hshake,
    control_callback_line, hl, control_callback_persist_write,
    sslconn_checkclose_open env d sc c hc hopen, hw, hdw]
  rfl

theorem find_map_ptr (l : List sslconn) (sc : Nat) (f : sslconn → sslconn)
    (hf : ∀ c, (f c).ptr = c.ptr) :
    (l.map f).find? (fun c => c.ptr = sc) = (l.find? (fun c => c.ptr = sc)).map f := by
  induction l with
  | nil => rfl
  | cons a l ih =>
    by_cases h : a.ptr = sc
    · simp [List.find?_cons, h, hf]
    · simp [List.find?_cons, h, hf, ih]

/-- A connection after a broadcast. -/
theorem svr_send_results_conn (K : Consts) (env : Env) (d : Daemon) (sc : Nat) :
    (svr_send_results K env d).conn sc =
      (d.conn sc).map (svr_send_results_con K env d.global_svr) := by
  unfold Daemon.conn
  rw [svr_send_results_busy_list]
  exact find_map_ptr _ sc _ (svr_send_results_con_ptr K env d.global_svr)

theorem written_to_listen (sc : Nat) (l : List Event)
    (h : ∀ e ∈ l, ∃ c, e = Event.comm_point_listen_for_rw c 1 1) : written_to sc l = [] := by
  induction l with
  | nil => rfl
  | cons e l ih =>
    obtain ⟨c, rfl⟩ := h e (List.mem_cons_self _ _)
    simp only [written_to]
    exact ih (fun e' he' => h e' (List.mem_cons_of_mem _ he'))

/-- A broadcast writes nothing to any peer. -/
theorem svr_send_results_written (K : Consts) (env : Env) (d : Daemon) (sc : Nat) :
    written_to sc (svr_send_results K env d).trace = written_to sc d.trace := by
  rw [svr_send_results_trace, written_to_append]
  simp only [written_to]
  rw [written_to_listen sc _ (svr_send_results_loop_calls K env _ _), List.append_nil]

/-- The text of a results block reads the flags, the probes and the update record of the
server, not its connections. -/
theorem results_text_busy_list (K : Consts) (env : Env) (s : svr) (l : List sslconn) :
    results_text K env { s with busy_list := l } = results_text K env s := rfl

/-- Broadcasts latch `fetch_another_update` on a connection in `persist_write`, leave the
rest of it alone, write nothing to it and keep the text of the next block. -/
theorem broadcasts_latch (K : Consts) (envs : List Env) (sc : Nat) :
    ∀ (d : Daemon) (c : sslconn), d.conn sc = some c → c.line_state = .persist_write →
      (broadcasts K envs d).conn sc =
        some (if envs.isEmpty then c else { c with fetch_another_update := 1 }) ∧
      written_to sc (broadcasts K envs d).trace = written_to sc d.trace ∧
      ∀ env, results_text K env (broadcasts K envs d).global_svr =
        results_text K env d.global_svr := by
  induction envs with
  | nil =>
    intro d c hc _
    exact ⟨hc, rfl, fun _ => rfl⟩
  | cons e envs ih =>
    intro d c hc hl
    have h1 : (svr_send_results K e d).conn sc = some { c with fetch_another_update := 1 } := by
      rw [svr_send_results_conn, hc, Option.map_some', svr_send_results_con_eq]
      simp [hl]
    obtain ⟨k1, k2, k3⟩ := ih (svr_send_results K e d) _ h1 hl
    refine ⟨?_, ?_, ?_⟩
    · show (broadcasts K envs (svr_send_results K e d)).conn sc = _
      rw [k1]
      cases envs <;> rfl
    · show written_to sc (broadcasts K envs (svr_send_results K e d)).trace = _
      rw [k2, svr_send_results_written]
    · intro env
      show results_text K env (broadcasts K envs (svr_send_results K e d)).global_svr = _
      rw [k3]
      rfl

/-- A flush that completes with the latch set: the latch is cleared and one fresh results
block, built from the server state of that moment, is queued; the connection stays. -/
theorem control_callback_flush_latched (K : Consts) (env : Env) (d : Daemon) (sc : Nat)
    (c : sslconn) (dw : Daemon) (hc : d.conn sc = some c)
    (hs : c.shake_state = .rc_hs_none) (hl : c.line_state = .persist_write)
    (hopen : peer_open env sc) (hw : sslconn_write env d sc = some (dw, true))
    (hf : c.fetch_another_update ≠ 0) :
    ∃ d2 c2, control_callback K env d sc 0 = some d2 ∧ d2.conn sc = some c2 ∧
      c2.fetch_another_update = 0 ∧ c2.line_state = .persist_write ∧
      c2.shake_state = .rc_hs_none ∧ c2.close_me = c.close_me ∧
      ldns_buffer_pending c2.buffer = results_text K env d.global_svr ∧
      written_to sc d2.trace = written_to sc d.trace ++ ldns_buffer_pending c.buffer ∧
      ∀ env', results_text K env' d2.global_svr = results_text K env' d.global_svr := by
  obtain ⟨hdw, hres⟩ := control_callback_flush K env d sc c dw hc hs hl hopen hw
  obtain ⟨evs, h1, h2⟩ := sslconn_write_complete env d sc c dw hc hw
  rw [if_pos hf] at hres
  have hconn : (send_results_to_con_ptr K env
      (dw.set_conn sc (fun c => { c with fetch_another_update := 0 })) sc).conn sc =
      some (send_results_to_con K env
        (dw.set_conn sc (fun c => { c with fetch_another_update := 0 })).global_svr
        { conn_skip (c.buffer.limit - c.buffer.position) c with
          fetch_another_update := 0 }) := by
    have e1 := conn_set_conn_of dw sc (fun c => { c with fetch_another_update := 0 }) _
      hdw rfl
    exact conn_set_conn_of _ sc (send_results_to_con K env _) _ e1 rfl
  refine ⟨_, _, hres, hconn, rfl, rfl, hs, rfl, ?_, ?_, ?_⟩
  · unfold send_results_to_con
    simp only [pending_flip_printf_clear]
    rw [h1]
    rfl
  · unfold send_results_to_con_ptr
    rw [call_trace, set_conn_trace, set_conn_trace, written_to_append, h1]
    simp only [written_to_append, h2, written_to, List.append_nil]
  · intro env'
    rw [h1]
    rfl

/-- A flush that completes with nothing latched and `close_me` not set: the connection goes
idle in `persist_write_checkclose`. -/
theorem control_callback_flush_idle (K : Consts) (env : Env) (d : Daemon) (sc : Nat)
    (c : sslconn) (dw : Daemon) (hc : d.conn sc = some c)
    (hs : c.shake_state = .rc_hs_none) (hl : c.line_state = .persist_write)
    (hopen : peer_open env sc) (hw : sslconn_write env d sc = some (dw, true))
    (hf : c.fetch_another_update = 0) (hcm : c.close_me = 0) :
    ∃ d3 c3, control_callback K env d sc 0 = some d3 ∧ d3.conn sc = some c3 ∧
      c3.fetch_another_update = 0 ∧ c3.line_state = .persist_write_checkclose ∧
      written_to sc d3.trace = written_to sc d.trace ++ ldns_buffer_pending c.buffer := by
  obtain ⟨hdw, hres⟩ := control_callback_flush K env d sc c dw hc hs hl hopen hw
  obtain ⟨evs, h1, h2⟩ := sslconn_write_complete env d sc c dw hc hw
  rw [if_neg (not_not.mpr hf), if_neg (not_not.mpr hcm)] at hres
  refine ⟨_, { conn_skip (c.buffer.limit - c.buffer.position) c with
    line_state := .persist_write_checkclose }, hres, ?_, hf, rfl, ?_⟩
  · exact conn_set_conn_of (dw.call (.comm_point_listen_for_rw sc 1 0)) sc
      (fun c => { c with line_state := .persist_write_checkclose }) _ hdw rfl
  · rw [set_conn_trace, call_trace, written_to_append, h1]
    simp only [written_to_append, h2, written_to, List.append_nil]

/-- A flush that completes with nothing latched and `close_me` set: the connection is shut
down. -/
theorem control_callback_flush_close (K : Consts) (env : Env) (d : Daemon) (sc : Nat)
    (c : sslconn) (dw : Daemon) (hc : d.conn sc = some c)
    (hs : c.shake_state = .rc_hs_none) (hl : c.line_state = .persist_write)
    (hopen : peer_open env sc) (hw : sslconn_write env d sc = some (dw, true))
    (hf : c.fetch_another_update = 0) (hcm : c.close_me ≠ 0) :
    control_callback K env d sc 0 = some (sslconn_shutdown env dw sc) ∧
      written_to sc dw.trace = written_to sc d.trace ++ ldns_buffer_pending c.buffer := by
  obtain ⟨-, hres⟩ := control_callback_flush K env d sc c dw hc hs hl hopen hw
  obtain ⟨evs, h1, h2⟩ := sslconn_write_complete env d sc c dw hc hw
  rw [if_neg (not_not.mpr hf), if_pos hcm] at hres
  refine ⟨hres, ?_⟩
  rw [h1]
  simp only [written_to_append, h2]

/-- C17: broadcast coalescing. For every n >= 1, if `svr_send_results` is called n times
while a connection is in `persist_write` flushing a block, the latch is set once; when that
flush completes (the peer is there and `sslconn_write` writes the buffer out),
`control_callback` clears `fetch_another_update` and queues exactly one further results
block, built from the server state as it is at that moment; the peer has then received the
rest of the in-flight block. When the flush of that second block completes with no further
broadcast, the peer has received the in-flight block and then the fresh one, and a
connection without `close_me` is in `persist_write_checkclose` with
`fetch_another_update = 0`. -/
theorem broadcast_coalescing (K : Consts) (envs : List Env) (env1 env2 : Env) (d : Daemon)
    (sc : Nat) (c : sslconn) (d1w : Daemon) (hc : d.conn sc = some c)
    (hs : c.shake_state = .rc_hs_none) (hl : c.line_state = .persist_write)
    (hn : envs ≠ []) (ho1 : peer_open env1 sc)
    (hw1 : sslconn_write env1 (broadcasts K envs d) sc = some (d1w, true)) :
    (broadcasts K envs d).conn sc = some { c with fetch_another_update := 1 } ∧
    ∃ d2 c2, control_callback K env1 (broadcasts K envs d) sc 0 = some d2 ∧
      d2.conn sc = some c2 ∧ c2.fetch_another_update = 0 ∧
      c2.line_state = .persist_write ∧
      ldns_buffer_pending c2.buffer = results_text K env1 (broadcasts K envs d).global_svr ∧
      written_to sc d2.trace = written_to sc d.trace ++ ldns_buffer_pending c.buffer ∧
      (∀ d2w, c.close_me = 0 → peer_open env2 sc →
        sslconn_write env2 d2 sc = some (d2w, true) →
        ∃ d3 c3, control_callback K env2 d2 sc 0 = some d3 ∧ d3.conn sc = some c3 ∧
          c3.line_state = .persist_write_checkclose ∧ c3.fetch_another_update = 0 ∧
          written_to sc d3.trace = written_to sc d.trace ++ ldns_buffer_pending c.buffer ++
            results_text K env1 (broadcasts K envs d).global_svr) := by
  obtain ⟨k1, k2, -⟩ := broadcasts_latch K envs sc d c hc hl
  have hne : envs.isEmpty = false := by
    cases envs with
    | nil => exact absurd rfl hn
    | cons _ _ => rfl
  rw [hne] at k1
  simp only [Bool.false_eq_true, if_false] at k1
  refine ⟨k1, ?_⟩
  obtain ⟨d2, c2, h1, h2, h3, h4, h5, h6, h7, h8, -⟩ :=
    control_callback_flush_latched K env1 (broadcasts K envs d) sc
      { c with fetch_another_update := 1 } d1w k1 hs hl ho1 hw1 (by simp)
  have h8 : written_to sc d2.trace = written_to sc d.trace ++ ldns_buffer_pending c.buffer := by
    rw [h8, k2]
  refine ⟨d2, c2, h1, h2, h3, h4, h7, h8, ?_⟩
  intro d2w hcm ho2 hw2
  obtain ⟨d3, c3, g1, g2, g3, g4, g5⟩ :=
    control_callback_flush_idle K env2 d2 sc c2 d2w h2 h5 h4 ho2 hw2 h3 (h6.trans hcm)
  exact ⟨d3, c3, g1, g2, g4, g3, by rw [g5, h8, h7]⟩

/-- Witness of C17: a connection flushing its block on a fresh server, two broadcasts, then
the flush completes. -/
theorem broadcast_coalescing_witness :
    (broadcasts example_consts [example_env, example_env]
        (example_daemon 0 .res_cache 0 0 (example_flushing 0))).conn 7 =
      some { example_flushing 0 with fetch_another_update := 1 } ∧
    ∃ d2 c2, control_callback example_consts example_env
        (broadcasts example_consts [example_env, example_env]
          (example_daemon 0 .res_cache 0 0 (example_flushing 0))) 7 0 = some d2 ∧
      d2.conn 7 = some c2 ∧ c2.fetch_another_update = 0 ∧
      c2.line_state = .persist_write :=
  have h := broadcast_coalescing example_consts [example_env, example_env] example_env
    example_env (example_daemon 0 .res_cache 0 0 (example_flushing 0)) 7
    (example_flushing 0) _ rfl rfl rfl (by simp) (Or.inl ⟨by decide, rfl⟩) rfl
  ⟨h.1, h.2.imp fun _ h2 => h2.imp fun _ h3 => ⟨h3.1, h3.2.1, h3.2.2.1, h3.2.2.2.1⟩⟩

/-- A connection after an update signal. -/
theorem svr_signal_update_conn (K : Consts) (d : Daemon) (v : CStr) (sc : Nat) :
    (svr_signal_update K d v).conn sc = (d.conn sc).map (svr_signal_update_con K v) := by
  unfold Daemon.conn
  refine find_map_ptr _ sc _ (fun c => ?_)
  unfold svr_signal_update_con
  by_cases h : c.line_state = .persist_write <;> simp only [h, if_true, if_false] <;>
    split_ifs <;> rfl

/-- An update signal writes nothing to any peer. -/
theorem svr_signal_update_written (K : Consts) (d : Daemon) (v : CStr) (sc : Nat) :
    written_to sc (svr_signal_update K d v).trace = written_to sc d.trace := by
  have h : written_to sc ((d.global_svr.busy_list.filter
      (fun s => s.line_state = .persist_write_checkclose)).map
      (fun s => Event.comm_point_listen_for_rw s.ptr 1 1)) = [] := by
    refine written_to_listen sc _ (fun e he => ?_)
    obtain ⟨s, -, rfl⟩ := List.mem_map.mp he
    exact ⟨_, rfl⟩
  show written_to sc (d.trace ++ _) = _
  rw [written_to_append, h, List.append_nil]

/-- Broadcasts of either kind latch `fetch_another_update` on a connection in
`persist_write`, leave the rest of it alone, write nothing to it and keep the text of the
next block. -/
theorem interleaving_latch (K : Consts) (bs : List broadcast) (sc : Nat) :
    ∀ (d : Daemon) (c : sslconn), d.conn sc = some c → c.line_state = .persist_write →
      (interleaving K bs d).conn sc =
        some (if bs.isEmpty then c else { c with fetch_another_update := 1 }) ∧
      written_to sc (interleaving K bs d).trace = written_to sc d.trace ∧
      ∀ env, results_text K env (interleaving K bs d).global_svr =
        results_text K env d.global_svr := by
  induction bs with
  | nil =>
    intro d c hc _
    exact ⟨hc, rfl, fun _ => rfl⟩
  | cons b bs ih =>
    intro d c hc hl
    have h1 : (broadcast_step K d b).conn sc = some { c with fetch_another_update := 1 } := by
      cases b with
      | send_results e =>
        show (svr_send_results K e d).conn sc = _
        rw [svr_send_results_conn, hc, Option.map_some', svr_send_results_con_eq]
        simp [hl]
      | signal_update v =>
        show (svr_signal_update K d v).conn sc = _
        rw [svr_signal_update_conn, hc, Option.map_some']
        simp [svr_signal_update_con, hl]
    have h2 : written_to sc (broadcast_step K d b).trace = written_to sc d.trace := by
      cases b with
      | send_results e => exact svr_send_results_written K e d sc
      | signal_update v => exact svr_signal_update_written K d v sc
    have h3 : ∀ env, results_text K env (broadcast_step K d b).global_svr =
        results_text K env d.global_svr := by
      intro env
      cases b <;> rfl
    obtain ⟨k1, k2, k3⟩ := ih (broadcast_step K d b) _ h1 hl
    refine ⟨?_, ?_, ?_⟩
    · show (interleaving K bs (broadcast_step K d b)).conn sc = _
      rw [k1]
      cases bs <;> rfl
    · show written_to sc (interleaving K bs (broadcast_step K d b)).trace = _
      rw [k2, h2]
    · intro env
      show results_text K env (interleaving K bs (broadcast_step K d b)).global_svr = _
      rw [k3, h3]

/-- C18, counterexample: a `status` connection (`close_me` = 1) is flushing its block, one
`svr_send_results` arrives, and the flush completes. The connection is not shut down: it is
still in the busy list, in `persist_write`, with a second results block queued, and no
`SSL_shutdown` was called. -/
theorem status_second_block_counterexample :
    ∃ d2 c2, control_callback example_consts example_env
        (svr_send_results example_consts example_env
          (example_daemon 0 .res_cache 0 0 (example_flushing 1))) 7 0 = some d2 ∧
      d2.conn 7 = some c2 ∧ c2.close_me = 1 ∧ c2.line_state = .persist_write ∧
      ldns_buffer_pending c2.buffer = results_text example_consts example_env d2.global_svr ∧
      Event.SSL_shutdown 7 ∉ d2.trace ∧
      written_to 7 d2.trace = results_text example_consts example_env d2.global_svr :=
  ⟨_, _, rfl, rfl, rfl, rfl, by decide, by decide, by decide⟩

/-- C18, amended: a connection with `close_me` set (as `status` leaves it), flushing its
block in `persist_write` with the latch clear, and any series of broadcasts
(`svr_send_results`, `svr_signal_update`) arriving before the flush completes. With no
broadcast, `control_callback` shuts the connection down once the block is written. With at
least one broadcast it first queues one further results block (`fetch_another_update` is
tested before `close_me`) and keeps the connection; the flush of that block, with no
further broadcast, is the one that ends in `sslconn_shutdown`, after both blocks were
written. -/
theorem status_flush_then_shutdown (K : Consts) (bs : List broadcast) (env1 env2 : Env)
    (d : Daemon) (sc : Nat) (c : sslconn) (d1w : Daemon) (hc : d.conn sc = some c)
    (hs : c.shake_state = .rc_hs_none) (hl : c.line_state = .persist_write)
    (hcm : c.close_me ≠ 0) (hf : c.fetch_another_update = 0) (ho1 : peer_open env1 sc)
    (hw1 : sslconn_write env1 (interleaving K bs d) sc = some (d1w, true)) :
    (bs = [] →
      control_callback K env1 (interleaving K bs d) sc 0 =
        some (sslconn_shutdown env1 d1w sc) ∧
      written_to sc d1w.trace = written_to sc d.trace ++ ldns_buffer_pending c.buffer) ∧
    (bs ≠ [] →
      ∃ d2 c2, control_callback K env1 (interleaving K bs d) sc 0 = some d2 ∧
        d2.conn sc = some c2 ∧ c2.line_state = .persist_write ∧
        c2.fetch_another_update = 0 ∧ c2.close_me = c.close_me ∧
        ldns_buffer_pending c2.buffer =
          results_text K env1 (interleaving K bs d).global_svr ∧
        written_to sc d2.trace = written_to sc d.trace ++ ldns_buffer_pending c.buffer ∧
        ∀ d2w, peer_open env2 sc → sslconn_write env2 d2 sc = some (d2w, true) →
          control_callback K env2 d2 sc 0 = some (sslconn_shutdown env2 d2w sc) ∧
          written_to sc d2w.trace = written_to sc d.trace ++ ldns_buffer_pending c.buffer ++
            results_text K env1 (interleaving K bs d).global_svr) := by
  obtain ⟨k1, k2, -⟩ := interleaving_latch K bs sc d c hc hl
  constructor
  · rintro rfl
    obtain ⟨g1, g2⟩ := control_callback_flush_close K env1 d sc c d1w hc hs hl ho1 hw1 hf hcm
    exact ⟨g1, g2⟩
  · intro hn
    have hne : bs.isEmpty = false := by
      cases bs with
      | nil => exact absurd rfl hn
      | cons _ _ => rfl
    rw [hne] at k1
    simp only [Bool.false_eq_true, if_false] at k1
    obtain ⟨d2, c2, h1, h2, h3, h4, h5, h6, h7, h8, -⟩ :=
      control_callback_flush_latched K env1 (interleaving K bs d) sc
        { c with fetch_another_update := 1 } d1w k1 hs hl ho1 hw1 (by simp)
    have h8 : written_to sc d2.trace =
        written_to sc d.trace ++ ldns_buffer_pending c.buffer := by
      rw [h8, k2]
    refine ⟨d2, c2, h1, h2, h4, h3, h6, h7, h8, ?_⟩
    intro d2w ho2 hw2
    obtain ⟨g1, g2⟩ := control_callback_flush_close K env2 d2 sc c2 d2w h2 h5 h4 ho2 hw2 h3
      (by rw [h6]; exact hcm)
    exact ⟨g1, by rw [g2, h8, h7]⟩

/-- Witness of C18 (amended): a `status` connection whose flush completes with no broadcast
in between is shut down and gone from the busy list. -/
theorem status_flush_then_shutdown_witness :
    ∃ d1w, sslconn_write example_env
        (example_daemon 0 .res_cache 0 0 (example_flushing 1)) 7 = some (d1w, true) ∧
      control_callback example_consts example_env
          (interleaving example_consts []
            (example_daemon 0 .res_cache 0 0 (example_flushing 1))) 7 0 =
        some (sslconn_shutdown example_env d1w 7) ∧
      (sslconn_shutdown example_env d1w 7).conn 7 = none :=
  ⟨_, rfl, ((status_flush_then_shutdown example_consts [] example_env example_env
      (example_daemon 0 .res_cache 0 0 (example_flushing 1)) 7 (example_flushing 1) _
      rfl rfl rfl (by decide) rfl (Or.inl ⟨by decide, rfl⟩) rfl).1 rfl).1, rfl⟩

/-! ## The connection count -/

theorem same_conns_refl (d : Daemon) : same_conns d d := ⟨rfl, rfl, rfl, rfl⟩

theorem same_conns_trans (d1 d2 d3 : Daemon) (h1 : same_conns d1 d2) (h2 : same_conns d2 d3) :
    same_conns d1 d3 :=
  ⟨h2.1.trans h1.1, h2.2.1.trans h1.2.1, h2.2.2.1.trans h1.2.2.1,
    h2.2.2.2.trans h1.2.2.2⟩

theorem same_conns_call (d : Daemon) (e : Event) : same_conns d (d.call e) :=
  ⟨rfl, rfl, rfl, rfl⟩

theorem busy_ptrs_map (l : List sslconn) (f : sslconn → sslconn)
    (hf : ∀ c, (f c).ptr = c.ptr) :
    (l.map f).map (fun c => c.ptr) = l.map (fun c => c.ptr) := by
  rw [List.map_map]
  exact List.map_congr_left (fun c _ => hf c)

theorem same_conns_set_conn (d : Daemon) (sc : Nat) (f : sslconn → sslconn)
    (hf : ∀ c, (f c).ptr = c.ptr) : same_conns d (d.set_conn sc f) := by
  refine ⟨busy_ptrs_map _ _ (fun c => ?_), rfl, rfl, rfl⟩
  by_cases h : c.ptr = sc
  · simp only [h, if_true]
    rw [hf, h]
  · simp only [h, if_false]

theorem same_conns_svr_send_results (K : Consts) (env : Env) (d : Daemon) :
    same_conns d (svr_send_results K env d) := by
  refine ⟨?_, rfl, rfl, rfl⟩
  unfold busy_ptrs
  rw [svr_send_results_busy_list]
  exact busy_ptrs_map _ _ (svr_send_results_con_ptr K env d.global_svr)

theorem count_invariant_same {M : Int} {u : Bool} (d1 d2 : Daemon) (h : same_conns d1 d2)
    (hi : count_invariant M u d1) : count_invariant M u d2 := by
  obtain ⟨h1, h2, h3, h4⟩ := h
  have hl : d2.global_svr.busy_list.length = d1.global_svr.busy_list.length := by
    have := congrArg List.length h1
    simpa [busy_ptrs] using this
  unfold count_invariant at *
  rw [h2, h3, h4, hl]
  exact hi

theorem conn_some_mem (d : Daemon) (sc : Nat) (c : sslconn) (h : d.conn sc = some c) :
    sc ∈ busy_ptrs d := by
  unfold Daemon.conn at h
  have h1 := List.mem_of_find?_eq_some h
  have h2 := List.find?_some h
  simp only [decide_eq_true_eq] at h2
  exact List.mem_map.mpr ⟨c, h1, h2⟩

theorem busy_list_unlink_length (l : List sslconn) (sc : Nat)
    (h : sc ∈ l.map (fun c => c.ptr)) : (busy_list_unlink l sc).length + 1 = l.length := by
  induction l with
  | nil => simp at h
  | cons a l ih =>
    unfold busy_list_unlink
    by_cases ha : a.ptr = sc
    · simp [ha]
    · simp only [ha, if_false, List.length_cons]
      rw [ih]
      simp only [List.map_cons, List.mem_cons] at h
      rcases h with h | h
      · exact absurd h.symm ha
      · exact h

theorem count_invariant_delete {M : Int} {u : Bool} (d : Daemon) (sc : Nat) (h : sc ∈ busy_ptrs d)
    (hi : count_invariant M u d) : count_invariant M u (sslconn_delete d sc) := by
  have hl := busy_list_unlink_length d.global_svr.busy_list sc h
  obtain ⟨h1, h2, h3, h4⟩ := hi
  refine ⟨?_, ?_, h3, h4⟩
  · show d.global_svr.active - 1 = ((busy_list_unlink d.global_svr.busy_list sc).length : Int)
    omega
  · show d.global_svr.active - 1 ≤ d.global_svr.max_active
    omega

theorem mem_of_same_conns (d1 d2 : Daemon) (sc : Nat) (h : same_conns d1 d2)
    (hm : sc ∈ busy_ptrs d1) : sc ∈ busy_ptrs d2 := by
  rw [h.1]
  exact hm

theorem count_invariant_shutdown {M : Int} {u : Bool} (env : Env) (d : Daemon) (sc : Nat) (h : sc ∈ busy_ptrs d)
    (hi : count_invariant M u d) : count_invariant M u (sslconn_shutdown env d sc) := by
  have hd : ∀ d2, same_conns d d2 → count_invariant M u (sslconn_delete d2 sc) := fun d2 h2 =>
    count_invariant_delete d2 sc (mem_of_same_conns d d2 sc h2 h) (count_invariant_same d d2 h2 hi)
  have hs : same_conns d ((d.call (.SSL_shutdown sc)).set_conn sc
      (fun c => { c with shake_state := .rc_hs_shutdown })) :=
    same_conns_trans _ _ _ (same_conns_call d _) (same_conns_set_conn _ sc _ (fun _ => rfl))
  unfold sslconn_shutdown
  simp only []
  split_ifs
  · exact hd _ (same_conns_call d _)
  · exact hd _ (same_conns_call d _)
  · exact hd _ hs
  · exact count_invariant_same d _ (same_conns_trans _ _ _ hs (same_conns_call _ _)) hi
  · exact count_invariant_same d _ (same_conns_trans _ _ _ hs (same_conns_call _ _)) hi
  · exact hd _ hs

theorem same_conns_call_of (d1 d : Daemon) (e : Event) (h : same_conns d1 d) :
    same_conns d1 (d.call e) :=
  same_conns_trans _ _ _ h (same_conns_call d e)

theorem same_conns_set_conn_of (d1 d : Daemon) (sc : Nat) (f : sslconn → sslconn)
    (hf : ∀ c, (f c).ptr = c.ptr) (h : same_conns d1 d) : same_conns d1 (d.set_conn sc f) :=
  same_conns_trans _ _ _ h (same_conns_set_conn d sc f hf)

theorem same_conns_send_results_to_con_ptr (K : Consts) (env : Env) (d : Daemon) (sc : Nat) :
    same_conns d (send_results_to_con_ptr K env d sc) := by
  unfold send_results_to_con_ptr
  refine same_conns_call_of _ _ _ ?_
  exact same_conns_set_conn d sc _ (fun _ => rfl)

theorem same_conns_handle_results_cmd (K : Consts) (env : Env) (d : Daemon) (sc : Nat) :
    same_conns d (handle_results_cmd K env d sc) := by
  unfold handle_results_cmd
  refine same_conns_trans _ _ _ ?_ (same_conns_send_results_to_con_ptr K env _ sc)
  refine same_conns_set_conn_of _ _ _ _ (fun _ => rfl) ?_
  refine same_conns_call_of _ _ _ ?_
  exact same_conns_set_conn d sc _ (fun _ => rfl)

theorem same_conns_handle_status_cmd (K : Consts) (env : Env) (d : Daemon) (sc : Nat) :
    same_conns d (handle_status_cmd K env d sc) := by
  unfold handle_status_cmd
  refine same_conns_trans _ _ _ ?_ (same_conns_handle_results_cmd K env _ sc)
  exact same_conns_set_conn d sc _ (fun _ => rfl)

theorem same_conns_handle_printclose (d : Daemon) (sc : Nat) (str : CStr) :
    same_conns d (handle_printclose d sc str) := by
  unfold handle_printclose
  refine same_conns_set_conn_of _ _ _ _ (fun _ => rfl) ?_
  refine same_conns_set_conn_of _ _ _ _ (fun _ => rfl) ?_
  refine same_conns_set_conn_of _ _ _ _ (fun _ => rfl) ?_
  refine same_conns_set_conn_of _ _ _ _ (fun _ => rfl) ?_
  refine same_conns_call_of _ _ _ ?_
  exact same_conns_set_conn d sc _ (fun _ => rfl)

theorem same_conns_handle_cmdtray_cmd (d : Daemon) (sc : Nat) :
    same_conns d (handle_cmdtray_cmd d sc) := by
  unfold handle_cmdtray_cmd
  refine same_conns_set_conn_of _ _ _ _ (fun _ => rfl) ?_
  refine same_conns_call_of _ _ _ ?_
  exact same_conns_set_conn d sc _ (fun _ => rfl)

theorem same_conns_handle_hotspot_signon_cmd (K : Consts) (env : Env) (d : Daemon) :
    same_conns d (handle_hotspot_signon_cmd K env d) :=
  same_conns_trans d (probe_setup_hotspot_signon d) _ ⟨rfl, rfl, rfl, rfl⟩
    (same_conns_svr_send_results K env _)

theorem same_conns_persist_cmd_insecure (K : Consts) (env : Env) (d : Daemon) (val : Int) :
    same_conns d (persist_cmd_insecure K env d val) := by
  unfold persist_cmd_insecure
  refine same_conns_trans _ _ _ ?_ (same_conns_svr_send_results K env _)
  simp only []
  split_ifs <;> exact ⟨rfl, rfl, rfl, rfl⟩

theorem handle_stoppanels_loop_ptrs (env : Env) (l : List sslconn) :
    (handle_stoppanels_loop env l).1.map (fun c => c.ptr) = l.map (fun c => c.ptr) := by
  induction l with
  | nil => rfl
  | cons a l ih =>
    simp only [handle_stoppanels_loop, List.map_cons, ih]
    congr 1
    unfold handle_stoppanels_con
    split_ifs <;> rfl

theorem same_conns_persist_command (K : Consts) (env : Env) (d : Daemon) (sc : Nat)
    (d2 : Daemon) (h : sslconn_persist_command K env d sc = some d2) : same_conns d d2 := by
  unfold sslconn_persist_command at h
  cases hc : d.conn sc with
  | none => simp [hc] at h
  | some c =>
    simp only [hc, Option.some.injEq] at h
    subst h
    refine same_conns_set_conn_of _ _ _ _ (fun _ => rfl) ?_
    split_ifs
    · exact same_conns_refl d
    · exact same_conns_persist_cmd_insecure K env d 1
    · exact same_conns_persist_cmd_insecure K env d 0
    · exact ⟨rfl, rfl, rfl, rfl⟩
    · exact ⟨rfl, rfl, rfl, rfl⟩
    · exact same_conns_handle_hotspot_signon_cmd K env d
    · exact same_conns_call d _
    · exact same_conns_call d _
    · exact same_conns_refl d

/-- Every branch of the command cascade keeps the connection count right. -/
theorem count_invariant_command_run {M : Int} {u : Bool} (K : Consts) (env : Env) (d : Daemon) (sc : Nat)
    (str : CStr) (cmd : Command) (d2 : Daemon) (hm : sc ∈ busy_ptrs d)
    (hi : count_invariant M u d) (h : sslconn_command_run K env d sc str cmd = some d2) :
    count_invariant M u d2 := by
  have hsh : ∀ d1, same_conns d d1 → count_invariant M u (sslconn_shutdown env d1 sc) :=
    fun d1 h1 => count_invariant_shutdown env d1 sc (mem_of_same_conns d d1 sc h1 hm)
      (count_invariant_same d d1 h1 hi)
  cases cmd <;> simp only [sslconn_command_run, Option.some.injEq] at h
  · subst h; exact hsh _ (same_conns_call d _)
  · subst h; exact hsh _ ⟨rfl, rfl, rfl, rfl⟩
  · subst h; exact hsh _ ⟨rfl, rfl, rfl, rfl⟩
  · subst h; exact hsh _ (same_conns_handle_hotspot_signon_cmd K env d)
  · subst h; exact count_invariant_same d _ (same_conns_handle_results_cmd K env d sc) hi
  · subst h; exact count_invariant_same d _ (same_conns_handle_status_cmd K env d sc) hi
  · subst h; exact count_invariant_same d _ (same_conns_handle_cmdtray_cmd d sc) hi
  · subst h; exact hsh _ (same_conns_call d _)
  · subst h; exact hsh _ (same_conns_call d _)
  · subst h; exact hsh _ (same_conns_call d _)
  · subst h; exact hsh _ (same_conns_call d _)
  · unfold handle_test_update_cmd at h
    cases hu : d.global_svr.update with
    | none => simp [hu] at h
    | some u =>
      simp only [hu, Option.some.injEq] at h
      subst h
      exact hsh _ ⟨rfl, rfl, rfl, by rw [hu]; rfl⟩
  · subst h
    exact hsh _ ⟨handle_stoppanels_loop_ptrs env d.global_svr.busy_list, rfl, rfl, rfl⟩
  · subst h; exact hsh _ (same_conns_call d _)
  · subst h; exact count_invariant_same d _ (same_conns_handle_printclose d sc _) hi

theorem count_invariant_command {M : Int} {u : Bool} (K : Consts) (env : Env) (d : Daemon) (sc : Nat)
    (d2 : Daemon) (hi : count_invariant M u d) (h : sslconn_command K env d sc = some d2) :
    count_invariant M u d2 := by
  unfold sslconn_command at h
  cases hc : d.conn sc with
  | none => simp [hc] at h
  | some c =>
    have hm := conn_some_mem d sc c hc
    simp only [hc] at h
    split_ifs at h
    · simp only [Option.some.injEq] at h
      subst h
      exact count_invariant_delete d sc hm hi
    · exact count_invariant_command_run K env d sc _ _ d2 hm hi h

theorem sslconn_readline_nil (env : Env) (sc : Nat) (d : Daemon) :
    sslconn_readline env sc [] d =
      match d.conn sc with
      | none => none
      | some c =>
        if ldns_buffer_available c.buffer 1 = false then some (sslconn_delete d sc, false, [])
        else some (d, false, []) := rfl

theorem sslconn_readline_cons (env : Env) (sc : Nat) (r : read_result)
    (rest : List read_result) (d : Daemon) :
    sslconn_readline env sc (r :: rest) d =
      match d.conn sc with
      | none => none
      | some c =>
        if ldns_buffer_available c.buffer 1 = false then
          some (sslconn_delete d sc, false, r :: rest)
        else
          match r with
          | .fail want =>
            if want = .SSL_ERROR_ZERO_RETURN then some (sslconn_shutdown env d sc, false, rest)
            else if want = .SSL_ERROR_WANT_READ then some (d, false, rest)
            else if want = .SSL_ERROR_WANT_WRITE then
              some ((d.set_conn sc (fun c => { c with shake_state := .rc_hs_want_write })).call
                (.comm_point_listen_for_rw sc 0 1), false, rest)
            else some (sslconn_delete d sc, false, rest)
          | .byte ch =>
            if ch = '\n' then
              some ((d.set_conn sc (fun c =>
                { c with buffer := ldns_buffer_poke c.buffer ch })).set_conn sc (fun c =>
                { c with buffer := ldns_buffer_flip (ldns_buffer_write_u8 c.buffer NUL) }),
                true, rest)
            else
              sslconn_readline env sc rest
                ((d.set_conn sc (fun c =>
                  { c with buffer := ldns_buffer_poke c.buffer ch })).set_conn sc
                  (fun c => { c with buffer := ldns_buffer_skip c.buffer 1 })) := rfl

theorem count_invariant_readline {M : Int} {u : Bool} (env : Env) (sc : Nat) (input : List read_result) :
    ∀ (d : Daemon) (r : Daemon × Bool × List read_result), count_invariant M u d →
      sslconn_readline env sc input d = some r → count_invariant M u r.1 := by
  induction input with
  | nil =>
    intro d r hi h
    rw [sslconn_readline_nil] at h
    cases hc : d.conn sc with
    | none => simp [hc] at h
    | some c =>
      simp only [hc] at h
      split_ifs at h <;> simp only [Option.some.injEq] at h <;> subst h
      · exact count_invariant_delete d sc (conn_some_mem d sc c hc) hi
      · exact hi
  | cons a input ih =>
    intro d r hi h
    rw [sslconn_readline_cons] at h
    cases hc : d.conn sc with
    | none => simp [hc] at h
    | some c =>
      have hm := conn_some_mem d sc c hc
      simp only [hc] at h
      split_ifs at h with h1
      · simp only [Option.some.injEq] at h
        subst h
        exact count_invariant_delete d sc hm hi
      · cases a with
        | fail want =>
          simp only [] at h
          split_ifs at h <;> simp only [Option.some.injEq] at h <;> subst h
          · exact count_invariant_shutdown env d sc hm hi
          · exact hi
          · refine count_invariant_same d _ ?_ hi
            refine same_conns_call_of _ _ _ ?_
            exact same_conns_set_conn d sc _ (fun _ => rfl)
          · exact count_invariant_delete d sc hm hi
        | byte ch =>
          simp only [] at h
          split_ifs at h
          · simp only [Option.some.injEq] at h
            subst h
            refine count_invariant_same d _ ?_ hi
            refine same_conns_set_conn_of _ _ _ _ (fun _ => rfl) ?_
            exact same_conns_set_conn d sc _ (fun _ => rfl)
          · refine ih _ r (count_invariant_same d _ ?_ hi) h
            refine same_conns_set_conn_of _ _ _ _ (fun _ => rfl) ?_
            exact same_conns_set_conn d sc _ (fun _ => rfl)

theorem count_invariant_write_loop {M : Int} {u : Bool} (env : Env) (sc : Nat) (fuel : Nat) :
    ∀ (d : Daemon) (r : Daemon × Bool), count_invariant M u d →
      sslconn_write_loop env sc fuel d = some r → count_invariant M u r.1 := by
  induction fuel with
  | zero =>
    intro d r hi h
    simp only [sslconn_write_loop, Option.some.injEq] at h
    subst h
    exact hi
  | succ fuel ih =>
    intro d r hi h
    unfold sslconn_write_loop at h
    cases hc : d.conn sc with
    | none => simp [hc] at h
    | some c =>
      have hm := conn_some_mem d sc c hc
      simp only [hc] at h
      split_ifs at h
      · simp only [Option.some.injEq] at h; subst h; exact hi
      · simp only [Option.some.injEq] at h; subst h
        exact count_invariant_delete d sc hm hi
      · simp only [Option.some.injEq] at h; subst h
        refine count_invariant_same d _ ?_ hi
        refine same_conns_call_of _ _ _ ?_
        exact same_conns_set_conn d sc _ (fun _ => rfl)
      · simp only [Option.some.injEq] at h; subst h; exact hi
      · simp only [Option.some.injEq] at h; subst h
        exact count_invariant_delete d sc hm hi
      · refine ih _ r (count_invariant_same d _ ?_ hi) h
        refine same_conns_set_conn_of _ _ _ _ (fun _ => rfl) ?_
        exact same_conns_call d _

theorem count_invariant_write {M : Int} {u : Bool} (env : Env) (d : Daemon) (sc : Nat) (r : Daemon × Bool)
    (hi : count_invariant M u d) (h : sslconn_write env d sc = some r) : count_invariant M u r.1 := by
  unfold sslconn_write at h
  cases hc : d.conn sc with
  | none => simp [hc] at h
  | some c =>
    simp only [hc] at h
    exact count_invariant_write_loop env sc _ d r hi h

theorem count_invariant_checkclose {M : Int} {u : Bool} (env : Env) (d : Daemon) (sc : Nat) (r : Daemon × Bool)
    (hi : count_invariant M u d) (h : sslconn_checkclose env d sc = some r) :
    count_invariant M u r.1 := by
  unfold sslconn_checkclose at h
  cases hc : d.conn sc with
  | none => simp [hc] at h
  | some c =>
    have hm := conn_some_mem d sc c hc
    simp only [hc] at h
    split_ifs at h <;> simp only [Option.some.injEq] at h <;> subst h
    · exact count_invariant_shutdown env d sc hm hi
    · exact hi
    · refine count_invariant_same d _ ?_ hi
      refine same_conns_call_of _ _ _ ?_
      exact same_conns_set_conn d sc _ (fun _ => rfl)
    · exact count_invariant_delete d sc hm hi
    · exact count_invariant_delete d sc hm hi
    · exact count_invariant_delete d sc hm hi
    · exact hi

theorem count_invariant_shake {M : Int} {u : Bool} (env : Env) (d : Daemon) (sc : Nat) (c : sslconn)
    (hc : d.conn sc = some c) (hi : count_invariant M u d) :
    count_invariant M u (control_callback_shake env d sc c).1 := by
  have hm := conn_some_mem d sc c hc
  have hdel := count_invariant_delete d sc hm hi
  have h1 : ∀ (f : sslconn → sslconn) (e : Event), (∀ c, (f c).ptr = c.ptr) →
      count_invariant M u ((d.set_conn sc f).call e) := fun f e hf =>
    count_invariant_same d _
      (same_conns_call_of _ _ _ (same_conns_set_conn d sc f hf)) hi
  have h2 : ∀ (f : sslconn → sslconn) (e : Event), (∀ c, (f c).ptr = c.ptr) →
      count_invariant M u ((d.call e).set_conn sc f) := fun f e hf =>
    count_invariant_same d _
      (same_conns_set_conn_of _ _ _ _ hf (same_conns_call d e)) hi
  unfold control_callback_shake
  simp only []
  split_ifs
  all_goals first
    | exact hi
    | exact hdel
    | exact h1 _ _ (fun _ => rfl)
    | exact h2 _ _ (fun _ => rfl)
    | exact count_invariant_shutdown env d sc hm hi
    | (refine count_invariant_same d _ ?_ hi
       refine same_conns_set_conn_of _ _ _ _ (fun _ => rfl) ?_
       refine same_conns_set_conn_of _ _ _ _ (fun _ => rfl) ?_
       exact same_conns_set_conn d sc _ (fun _ => rfl))

theorem count_invariant_persist_read_loop {M : Int} {u : Bool} (K : Consts) (env : Env) (sc : Nat) (fuel : Nat) :
    ∀ (input : List read_result) (d d2 : Daemon), count_invariant M u d →
      persist_read_loop K env sc fuel input d = some d2 → count_invariant M u d2 := by
  induction fuel with
  | zero =>
    intro input d d2 hi h
    simp only [persist_read_loop, Option.some.injEq] at h
    subst h
    exact hi
  | succ fuel ih =>
    intro input d d2 hi h
    unfold persist_read_loop at h
    cases hr : sslconn_readline env sc input d with
    | none => simp [hr] at h
    | some r =>
      obtain ⟨d1, b, rest⟩ := r
      have hi1 : count_invariant M u d1 := count_invariant_readline env sc input d _ hi hr
      cases b with
      | false =>
        simp only [hr, Option.some.injEq] at h
        subst h
        exact hi1
      | true =>
        simp only [hr] at h
        cases hp : sslconn_persist_command K env d1 sc with
        | none => simp [hp] at h
        | some d3 =>
          have hi3 : count_invariant M u d3 :=
            count_invariant_same d1 d3 (same_conns_persist_command K env d1 sc d3 hp) hi1
          simp only [hp] at h
          split_ifs at h
          · exact ih rest d3 d2 hi3 h
          · simp only [Option.some.injEq] at h
            subst h
            exact hi3

theorem count_invariant_persist_write {M : Int} {u : Bool} (K : Consts) (env : Env) (d : Daemon) (sc : Nat)
    (d2 : Daemon) (hi : count_invariant M u d)
    (h : control_callback_persist_write K env d sc = some d2) : count_invariant M u d2 := by
  unfold control_callback_persist_write at h
  cases hcc : sslconn_checkclose env d sc with
  | none => simp [hcc] at h
  | some r =>
    obtain ⟨d1, b⟩ := r
    have hi1 : count_invariant M u d1 := count_invariant_checkclose env d sc _ hi hcc
    cases b with
    | true =>
      simp only [hcc, Option.some.injEq] at h
      subst h
      exact hi1
    | false =>
      simp only [hcc] at h
      cases hw : sslconn_write env d1 sc with
      | none => simp [hw] at h
      | some r =>
        obtain ⟨d3, b⟩ := r
        have hi3 : count_invariant M u d3 := count_invariant_write env d1 sc _ hi1 hw
        cases b with
        | false =>
          simp only [hw, Option.some.injEq] at h
          subst h
          exact hi3
        | true =>
          simp only [hw] at h
          cases hc : d3.conn sc with
          | none => simp [hc] at h
          | some c =>
            simp only [hc] at h
            split_ifs at h <;> simp only [Option.some.injEq] at h <;> subst h
            · refine count_invariant_same d3 _ ?_ hi3
              refine same_conns_trans _ _ _ ?_ (same_conns_send_results_to_con_ptr K env _ sc)
              exact same_conns_set_conn d3 sc _ (fun _ => rfl)
            · exact count_invariant_shutdown env d3 sc (conn_some_mem d3 sc c hc) hi3
            · refine count_invariant_same d3 _ ?_ hi3
              refine same_conns_set_conn_of _ _ _ _ (fun _ => rfl) ?_
              exact same_conns_call d3 _

theorem count_invariant_line {M : Int} {u : Bool} (K : Consts) (env : Env) (d : Daemon) (sc : Nat)
    (d2 : Daemon) (hi : count_invariant M u d) (h : control_callback_line K env d sc = some d2) :
    count_invariant M u d2 := by
  unfold control_callback_line at h
  cases hc : d.conn sc with
  | none => simp [hc] at h
  | some c =>
    simp only [hc] at h
    cases hl : c.line_state with
    | command_read =>
      simp only [hl] at h
      cases hr : sslconn_readline env sc (env.SSL_read sc) d with
      | none => simp [hr] at h
      | some r =>
        obtain ⟨d1, b, rest⟩ := r
        have hi1 : count_invariant M u d1 := count_invariant_readline env sc _ d _ hi hr
        cases b with
        | false =>
          simp only [hr, Option.some.injEq] at h
          subst h
          exact hi1
        | true =>
          simp only [hr] at h
          exact count_invariant_command K env d1 sc d2 hi1 h
    | persist_read =>
      simp only [hl] at h
      exact count_invariant_persist_read_loop K env sc _ _ d d2 hi h
    | persist_write =>
      simp only [hl] at h
      exact count_invariant_persist_write K env d sc d2 hi h
    | persist_write_checkclose =>
      simp only [hl] at h
      cases hcc : sslconn_checkclose env d sc with
      | none => simp [hcc] at h
      | some r =>
        simp only [hcc, Option.map_some', Option.some.injEq] at h
        subst h
        exact count_invariant_checkclose env d sc r hi hcc

/-- The connection callback keeps the connection count right. -/
theorem count_invariant_control_callback {M : Int} {u : Bool} (K : Consts) (env : Env) (d : Daemon) (sc : Nat)
    (err : Int) (d2 : Daemon) (hi : count_invariant M u d)
    (h : control_callback K env d sc err = some d2) : count_invariant M u d2 := by
  unfold control_callback at h
  cases hc : d.conn sc with
  | none => simp [hc] at h
  | some c =>
    simp only [hc] at h
    split_ifs at h
    · simp only [Option.some.injEq] at h
      subst h
      exact count_invariant_delete d sc (conn_some_mem d sc c hc) hi
    · have hs := count_invariant_shake env d sc c hc hi
      cases hsh : control_callback_shake env d sc c with
      | mk d1 b =>
        rw [hsh] at hs h
        cases b with
        | false =>
          simp only [Option.some.injEq] at h
          subst h
          exact hs
        | true => exact count_invariant_line K env d1 sc d2 hs h

/-- The accept callback keeps the connection count right. -/
theorem count_invariant_accept {M : Int} {u : Bool} (K : Consts) (env : Env) (d : Daemon) (err : Int)
    (d2 : Daemon) (hi : count_invariant M u d) (h : handle_ssl_accept K env d err = some d2) :
    count_invariant M u d2 := by
  unfold handle_ssl_accept at h
  by_cases h1 : err ≠ 0
  · rw [if_pos h1, Option.some.injEq] at h; subst h; exact hi
  rw [if_neg h1] at h
  by_cases h2 : env.comm_point_perform_accept = -1
  · rw [if_pos h2, Option.some.injEq] at h; subst h; exact hi
  rw [if_neg h2] at h
  by_cases h3 : d.global_svr.active ≥ d.global_svr.max_active
  · rw [if_pos h3, Option.some.injEq] at h; subst h; exact hi
  rw [if_neg h3] at h
  cases hp : env.calloc_sslconn with
  | none =>
    simp only [hp, Option.some.injEq] at h
    subst h
    exact hi
  | some ptr =>
    simp only [hp] at h
    split_ifs at h
    · simp only [Option.some.injEq] at h; subst h; exact hi
    · simp only [Option.some.injEq] at h; subst h; exact hi
    · simp only [Option.some.injEq] at h; subst h; exact hi
    · simp only [Option.some.injEq] at h; subst h; exact hi
    · refine count_invariant_control_callback K env _ ptr 0 d2 ?_ h
      obtain ⟨g1, g2, g3, g4⟩ := hi
      refine ⟨?_, ?_, g3, g4⟩
      · show d.global_svr.active + 1 = ((d.global_svr.busy_list.length + 1 : Nat) : Int)
        omega
      · show d.global_svr.active + 1 ≤ d.global_svr.max_active
        omega

theorem count_invariant_step {M : Int} {u : Bool} (K : Consts) (d : Daemon) (op : conn_op) (d2 : Daemon)
    (hi : count_invariant M u d) (h : conn_step K d op = some d2) : count_invariant M u d2 := by
  cases op with
  | accept env err => exact count_invariant_accept K env d err d2 hi h
  | delete sc =>
    simp only [conn_step] at h
    cases hc : d.conn sc with
    | none =>
      simp only [hc, Option.isSome_none, Bool.false_eq_true, if_false,
        Option.some.injEq] at h
      subst h
      exact hi
    | some c =>
      simp only [hc, Option.isSome_some, if_true, Option.some.injEq] at h
      subst h
      exact count_invariant_delete d sc (conn_some_mem d sc c hc) hi

theorem count_invariant_run {M : Int} {u : Bool} (K : Consts) (ops : List conn_op) :
    ∀ (d d2 : Daemon), count_invariant M u d → conn_run K ops d = some d2 →
      count_invariant M u d2 := by
  induction ops with
  | nil =>
    intro d d2 hi h
    simp only [conn_run, Option.some.injEq] at h
    subst h
    exact hi
  | cons op ops ih =>
    intro d d2 hi h
    simp only [conn_run] at h
    cases hs : conn_step K d op with
    | none => simp [hs] at h
    | some d1 =>
      rw [hs, Option.some_bind] at h
      exact ih d1 d2 (count_invariant_step K d op d1 hi hs) h

/-- Reading a line on a live connection gives a result, and after a whole line the
connection is still live. -/
theorem sslconn_readline_total (env : Env) (sc : Nat) (input : List read_result) :
    ∀ (d : Daemon) (c : sslconn), d.conn sc = some c →
      ∃ r, sslconn_readline env sc input d = some r ∧
        (r.2.1 = true → ∃ c2, r.1.conn sc = some c2) := by
  induction input with
  | nil =>
    intro d c hc
    rw [sslconn_readline_nil]
    simp only [hc]
    split_ifs
    · exact ⟨_, rfl, fun h => Bool.noConfusion h⟩
    · exact ⟨_, rfl, fun h => Bool.noConfusion h⟩
  | cons a input ih =>
    intro d c hc
    rw [sslconn_readline_cons]
    simp only [hc]
    split_ifs
    · exact ⟨_, rfl, fun h => Bool.noConfusion h⟩
    · cases a with
      | fail want =>
        simp only []
        split_ifs <;> exact ⟨_, rfl, fun h => Bool.noConfusion h⟩
      | byte ch =>
        have h1 := conn_set_conn_of d sc
          (fun c => { c with buffer := ldns_buffer_poke c.buffer ch }) c hc rfl
        simp only []
        split_ifs
        · exact ⟨_, rfl, fun _ => ⟨_, conn_set_conn_of _ sc
            (fun c => { c with buffer := ldns_buffer_flip (ldns_buffer_write_u8 c.buffer NUL) })
            _ h1 rfl⟩⟩
        · exact ih _ _ (conn_set_conn_of _ sc
            (fun c => { c with buffer := ldns_buffer_skip c.buffer 1 }) _ h1 rfl)

/-- With the update collaborator there, every branch of the command cascade gives a
result. -/
theorem sslconn_command_total (K : Consts) (env : Env) (d : Daemon) (sc : Nat) (c : sslconn)
    (hc : d.conn sc = some c) (hu : d.global_svr.update.isSome = true) :
    ∃ d2, sslconn_command K env d sc = some d2 := by
  obtain ⟨u, hu⟩ := Option.isSome_iff_exists.mp hu
  unfold sslconn_command
  simp only [hc]
  split_ifs
  · exact ⟨_, rfl⟩
  · generalize sslconn_command_select _ = cmd
    cases cmd
    all_goals
      simp only [sslconn_command_run, handle_test_update_cmd, hu]
      exact ⟨_, rfl⟩

/-- The handshake part on a connection that is still shaking hands for reading: when the
callback goes on, the connection is live and reads its command. -/
theorem control_callback_shake_read (env : Env) (d : Daemon) (sc : Nat) (c : sslconn)
    (hc : d.conn sc = some c) (hs : c.shake_state = .rc_hs_read)
    (hb : (control_callback_shake env d sc c).2 = true) :
    ∃ c1, (control_callback_shake env d sc c).1.conn sc = some c1 ∧
      c1.line_state = .command_read := by
  have h1 := conn_set_conn_of d sc (fun c => { c with line_state := .command_read }) c hc rfl
  have h2 := conn_set_conn_of _ sc (fun c => { c with shake_state := .rc_hs_none }) _ h1 rfl
  have h3 := conn_set_conn_of _ sc
    (fun c => { c with buffer := ldns_buffer_clear c.buffer }) _ h2 rfl
  unfold control_callback_shake at hb ⊢
  simp only [hs, true_or, if_true, reduceCtorEq, if_false] at hb ⊢
  split_ifs at hb ⊢
  all_goals first
    | exact absurd hb (by decide)
    | exact ⟨_, h3, rfl⟩

/-- With the update collaborator there, the callback on a connection that is still
shaking hands for reading gives a result. -/
theorem control_callback_read_total {M : Int} (K : Consts) (env : Env) (d0 : Daemon)
    (ptr : Nat) (c0 : sslconn) (hc0 : d0.conn ptr = some c0)
    (hs0 : c0.shake_state = .rc_hs_read) (hi0 : count_invariant M true d0) :
    ∃ d2, control_callback K env d0 ptr 0 = some d2 := by
  unfold control_callback
  simp only [hc0, ne_eq, not_true_eq_false, if_false]
  have hsr := control_callback_shake_read env d0 ptr c0 hc0 hs0
  have hi1 := count_invariant_shake env d0 ptr c0 hc0 hi0
  cases hsh : control_callback_shake env d0 ptr c0 with
  | mk d1 b =>
    rw [hsh] at hsr hi1
    cases b with
    | false => exact ⟨_, rfl⟩
    | true =>
      obtain ⟨c1, hc1, hl1⟩ := hsr rfl
      simp only []
      unfold control_callback_line
      simp only [hc1, hl1]
      obtain ⟨r, hr, hlive⟩ := sslconn_readline_total env ptr (env.SSL_read ptr) d1 c1 hc1
      have hi2 := count_invariant_readline env ptr _ d1 r hi1 hr
      obtain ⟨d2, b2, rest⟩ := r
      rw [hr]
      cases b2 with
      | false => exact ⟨_, rfl⟩
      | true =>
        obtain ⟨c2, hc2⟩ := hlive rfl
        simp only []
        exact sslconn_command_total K env d2 ptr c2 hc2 hi2.2.2.2

theorem conn_head (d : Daemon) (c : sslconn) (l : List sslconn)
    (h : d.global_svr.busy_list = c :: l) : d.conn c.ptr = some c := by
  unfold Daemon.conn
  rw [h]
  exact List.find?_cons_of_pos _ (decide_eq_true rfl)

/-- With the update collaborator there, the accept callback gives a result. -/
theorem handle_ssl_accept_total {M : Int} (K : Consts) (env : Env) (d : Daemon) (err : Int)
    (hi : count_invariant M true d) : ∃ d2, handle_ssl_accept K env d err = some d2 := by
  unfold handle_ssl_accept
  by_cases h1 : err ≠ 0
  · rw [if_pos h1]; exact ⟨_, rfl⟩
  rw [if_neg h1]
  by_cases h2 : env.comm_point_perform_accept = -1
  · rw [if_pos h2]; exact ⟨_, rfl⟩
  rw [if_neg h2]
  by_cases h3 : d.global_svr.active ≥ d.global_svr.max_active
  · rw [if_pos h3]; exact ⟨_, rfl⟩
  rw [if_neg h3]
  cases hp : env.calloc_sslconn with
  | none => exact ⟨_, rfl⟩
  | some ptr =>
    simp only []
    split_ifs
    · exact ⟨_, rfl⟩
    · exact ⟨_, rfl⟩
    · exact ⟨_, rfl⟩
    · exact ⟨_, rfl⟩
    · obtain ⟨g1, g2, g3, g4⟩ := hi
      refine control_callback_read_total K env _ ptr (sslconn_calloc ptr)
        (conn_head _ (sslconn_calloc ptr) _ rfl) rfl ⟨?_, ?_, g3, g4⟩
      · show d.global_svr.active + 1 = ((d.global_svr.busy_list.length + 1 : Nat) : Int)
        omega
      · show d.global_svr.active + 1 ≤ d.global_svr.max_active
        omega

/-- With the update collaborator there, every sequence of accepts and deletions gives a
state. -/
theorem conn_run_total {M : Int} (K : Consts) (ops : List conn_op) :
    ∀ (d : Daemon), count_invariant M true d → ∃ d2, conn_run K ops d = some d2 := by
  induction ops with
  | nil => exact fun d _ => ⟨d, rfl⟩
  | cons op ops ih =>
    intro d hi
    have hs : ∃ d1, conn_step K d op = some d1 := by
      cases op with
      | accept env err => exact handle_ssl_accept_total K env d err hi
      | delete sc =>
        simp only [conn_step]
        split_ifs <;> exact ⟨_, rfl⟩
    obtain ⟨d1, hs⟩ := hs
    obtain ⟨d2, h2⟩ := ih d1 (count_invariant_step K d op d1 hi hs)
    exact ⟨d2, by simp only [conn_run, hs, Option.some_bind, h2]⟩

/-- An accept that arrives when `active >= max_active` changes nothing of the server: the
socket is closed again, or was never accepted. -/
theorem handle_ssl_accept_full (K : Consts) (env : Env) (d : Daemon) (err : Int)
    (h : d.global_svr.active ≥ d.global_svr.max_active) :
    ∃ d2, handle_ssl_accept K env d err = some d2 ∧ d2.global_svr = d.global_svr := by
  unfold handle_ssl_accept
  by_cases h1 : err ≠ 0
  · rw [if_pos h1]; exact ⟨_, rfl, rfl⟩
  rw [if_neg h1]
  by_cases h2 : env.comm_point_perform_accept = -1
  · rw [if_pos h2]; exact ⟨_, rfl, rfl⟩
  rw [if_neg h2, if_pos h]
  exact ⟨_, rfl, rfl⟩

theorem count_invariant_svr_create (check_updates : Int) :
    count_invariant 32 (decide (check_updates ≠ 0)) (svr_create check_updates) := by
  refine ⟨rfl, (by decide : (0 : Int) ≤ 32), rfl, ?_⟩
  show (if check_updates ≠ 0 then some _ else none : Option selfupdate).isSome = _
  by_cases h : check_updates ≠ 0 <;> simp [h]

/-- C19: starting from the server that `svr_create` returns (`active = 0`, empty busy
list, `max_active = 32`), every sequence of accepts and deletions of connections in the
busy list that runs through ends in a state where `active` is the length of the busy list,
`active <= max_active` and `max_active` is still 32; in such a state an accept that arrives
when `active >= max_active` gives back the same server (no connection added, `active` and
the busy list unchanged). With the update collaborator there (`check_updates` on) every such
sequence runs through. -/
theorem connection_count_invariant (K : Consts) (check_updates : Int) (ops : List conn_op) :
    (check_updates ≠ 0 → ∃ d, conn_run K ops (svr_create check_updates) = some d) ∧
    ∀ d, conn_run K ops (svr_create check_updates) = some d →
      d.global_svr.active = d.global_svr.busy_list.length ∧
      d.global_svr.active ≤ d.global_svr.max_active ∧ d.global_svr.max_active = 32 ∧
      ∀ env err, d.global_svr.active ≥ d.global_svr.max_active →
        ∃ d2, handle_ssl_accept K env d err = some d2 ∧ d2.global_svr = d.global_svr := by
  have h0 := count_invariant_svr_create check_updates
  constructor
  · intro hcu
    rw [decide_eq_true hcu] at h0
    exact conn_run_total K ops _ h0
  · intro d h
    obtain ⟨h1, h2, h3, -⟩ := count_invariant_run K ops _ d h0 h
    exact ⟨h1, h2, h3, fun env err hfull => handle_ssl_accept_full K env d err hfull⟩

/-- Witness of C19: two accepts at the addresses 9 and 10, then the deletion of the
connection at 9. -/
theorem connection_count_invariant_witness :
    ∃ d, conn_run example_consts
        [.accept example_env 0, .accept { example_env with calloc_sslconn := some 10 } 0,
          .delete 9] (svr_create 1) = some d ∧
      d.global_svr.active = d.global_svr.busy_list.length ∧
      d.global_svr.busy_list.map (fun c => c.ptr) = [10] :=
  ⟨_, rfl, ((connection_count_invariant example_consts 1
      [.accept example_env 0, .accept { example_env with calloc_sslconn := some 10 } 0,
        .delete 9]).2 _ rfl).1, rfl⟩

/-! ## The resolver hooks -/

/-- Only the contents of the pattern are compared by `strncmp`. -/
theorem strncmp_cstr_right (n : Nat) : ∀ (s p : CStr), strncmp s p n = strncmp s (cstr p) n := by
  induction n with
  | zero => intro s p; simp [strncmp]
  | succ n ih =>
    intro s p
    cases p with
    | nil => rfl
    | cons a p =>
      by_cases ha : a = NUL
      · subst ha
        rw [cstr_cons, if_pos rfl, strncmp_succ, strncmp_succ]
        simp only [deref_cons, deref_nil]
        by_cases hs : deref s = NUL
        · simp [hs]
        · simp [hs]
      · rw [cstr_cons, if_neg ha, strncmp_succ, strncmp_succ]
        simp only [deref_cons, List.tail_cons]
        rw [ih s.tail p]

theorem NUL_not_mem_cstr (s : CStr) : NUL ∉ cstr s := by
  intro h
  have := List.mem_takeWhile_imp h
  simp at this

theorem cstr_of_not_mem (s : CStr) (h : NUL ∉ s) : cstr s = s := by
  unfold cstr
  rw [List.takeWhile_eq_self_iff]
  intro c hc
  simp only [ne_eq, decide_not, Bool.not_eq_eq_eq_not, Bool.not_true, decide_eq_false_iff_not]
  rintro rfl
  exact h hc

/-- A line that consists of the configured value and a newline passes `check_line_arg`. -/
theorem check_line_arg_value (v : CStr) :
    check_line_arg (cstr v ++ "\n".toList) (some v) = 1 := by
  have h1 : strncmp (cstr v ++ "\n".toList) v (strlen v) = 0 := by
    rw [strncmp_cstr_right]
    unfold strlen
    rw [strncmp_eq_zero_iff _ _ (NUL_not_mem_cstr v) (le_refl _), List.take_length]
    exact List.prefix_append _ _
  have h2 : (cstr v ++ "\n".toList).drop (strlen v) = "\n".toList := by
    unfold strlen
    rw [List.drop_left]
  have h3 : strcmp "\n".toList "\n".toList = 0 := by decide
  simp only [check_line_arg, h1, h2, h3, ne_eq, not_true_eq_false, if_false]

/-- One `fgets` on a stream that begins with a line that fits. -/
theorem fgets_take_line (room : Nat) : ∀ (l rest : CStr), '\n' ∉ l → l.length < room →
    fgets_take room (l ++ '\n' :: rest) = (l ++ ['\n'], rest) := by
  induction room with
  | zero => intro l rest _ h; omega
  | succ room ih =>
    intro l rest hnl hlen
    cases l with
    | nil => simp [fgets_take]
    | cons a l =>
      have ha : a ≠ '\n' := fun h => hnl (by simp [h])
      have hl : '\n' ∉ l := fun h => hnl (by simp [h])
      have hlen2 : l.length < room := by simpa using hlen
      have e := ih l rest hl hlen2
      rw [List.cons_append, fgets_take, if_neg ha, e]
      rfl

theorem fgets_line (l rest : CStr) (hnl : '\n' ∉ l) (hlen : l.length + 1 ≤ 1023) :
    fgets 1024 (l ++ '\n' :: rest) = some (l ++ ['\n'], rest) := by
  unfold fgets
  rw [if_neg (by simp), fgets_take_line 1023 l rest hnl (by omega)]

/-- One round of the loop, by what it does with the line read. -/
theorem really_set_to_localhost_loop_succ (cfg : cfg) (fuel : Nat) (stream : CStr)
    (a b c : Int) :
    really_set_to_localhost_loop cfg (fuel + 1) stream a b c =
      match fgets 1024 stream with
      | none => some (really_set_to_localhost_end cfg a b c)
      | some (line, rest) =>
        match really_set_to_localhost_line cfg line a b c with
        | none => some 0
        | some (a2, b2, c2) => really_set_to_localhost_loop cfg fuel rest a2 b2 c2 := by
  rw [really_set_to_localhost_loop]
  cases hf : fgets 1024 stream with
  | none =>
    simp only [really_set_to_localhost_end]
    split_ifs <;> rfl
  | some r =>
    obtain ⟨line, rest⟩ := r
    simp only [really_set_to_localhost_line]
    split_ifs <;> rfl

theorem fgets_take_length_le (room : Nat) : ∀ (stream : CStr),
    (fgets_take room stream).2.length ≤ stream.length := by
  induction room with
  | zero => intro stream; simp [fgets_take]
  | succ room ih =>
    intro stream
    cases stream with
    | nil => simp [fgets_take]
    | cons ch stream =>
      rw [fgets_take]
      split_ifs
      · simp
      · have := ih stream
        simp only [List.length_cons]
        omega

/-- Every `fgets` that returns a line reads at least one character. -/
theorem fgets_length_lt (stream line rest : CStr)
    (h : fgets 1024 stream = some (line, rest)) : rest.length < stream.length := by
  unfold fgets at h
  cases stream with
  | nil => simp at h
  | cons ch stream =>
    simp only [reduceCtorEq, if_false, Option.some.injEq] at h
    have h2 : rest = (fgets_take 1023 (ch :: stream)).2 := by rw [h]
    rw [h2, show (1023 : Nat) = 1022 + 1 from rfl, fgets_take]
    split_ifs
    · simp
    · have := fgets_take_length_le 1022 stream
      simp only [List.length_cons]
      omega

/-- With more rounds allowed than the file has characters, the loop gives a result. -/
theorem really_set_to_localhost_loop_total (cfg : cfg) (fuel : Nat) :
    ∀ (stream : CStr) (a b c : Int), stream.length < fuel →
      ∃ r, really_set_to_localhost_loop cfg fuel stream a b c = some r := by
  induction fuel with
  | zero => intro stream a b c h; omega
  | succ fuel ih =>
    intro stream a b c h
    rw [really_set_to_localhost_loop_succ]
    cases hf : fgets 1024 stream with
    | none => exact ⟨_, rfl⟩
    | some r =>
      obtain ⟨line, rest⟩ := r
      have hlt := fgets_length_lt stream line rest hf
      simp only []
      cases hl : really_set_to_localhost_line cfg line a b c with
      | none => exact ⟨_, rfl⟩
      | some st =>
        obtain ⟨a2, b2, c2⟩ := st
        simp only []
        exact ih rest a2 b2 c2 (by omega)

/-- A result of the loop does not depend on how many more rounds were allowed. -/
theorem really_set_to_localhost_loop_mono (cfg : cfg) (fuel : Nat) :
    ∀ (k : Nat) (stream : CStr) (a b c r : Int),
      really_set_to_localhost_loop cfg fuel stream a b c = some r →
      really_set_to_localhost_loop cfg (fuel + k) stream a b c = some r := by
  induction fuel with
  | zero => intro k stream a b c r h; simp [really_set_to_localhost_loop] at h
  | succ fuel ih =>
    intro k stream a b c r h
    rw [show fuel + 1 + k = (fuel + k) + 1 by omega, really_set_to_localhost_loop_succ]
    rw [really_set_to_localhost_loop_succ] at h
    cases hf : fgets 1024 stream with
    | none => rw [hf] at h; exact h
    | some q =>
      obtain ⟨line, rest⟩ := q
      rw [hf] at h
      simp only [] at h ⊢
      cases hl : really_set_to_localhost_line cfg line a b c with
      | none => rw [hl] at h; exact h
      | some st =>
        obtain ⟨a2, b2, c2⟩ := st
        rw [hl] at h
        simp only [] at h ⊢
        exact ih k rest a2 b2 c2 r h

/-- The function `really_set_to_localhost` gives a result for every file. -/
theorem really_set_to_localhost_total (K : Consts) (cfg : cfg) (h : Host) :
    ∃ r, really_set_to_localhost K cfg h = some r := by
  unfold really_set_to_localhost
  cases h.resolvconf with
  | none => exact ⟨_, rfl⟩
  | some content =>
    simp only []
    cases hf : fgets 1024 content with
    | none => exact ⟨_, rfl⟩
    | some q =>
      obtain ⟨line, rest⟩ := q
      simp only []
      split_ifs
      · exact ⟨_, rfl⟩
      · exact really_set_to_localhost_loop_total cfg _ rest 0 0 0 (by omega)

/-- The check reads the file and nothing else of the state. -/
theorem really_set_to_localhost_file (K : Consts) (cfg : cfg) (h1 h2 : Host)
    (h : h1.resolvconf = h2.resolvconf) :
    really_set_to_localhost K cfg h1 = really_set_to_localhost K cfg h2 := by
  unfold really_set_to_localhost
  rw [h]

theorem strcmp_ne_of_head (a b : Char) (s p : CStr) (hab : a ≠ b) :
    strcmp (a :: s) (b :: p) ≠ 0 := by
  rw [strcmp, deref_cons, if_pos hab]
  intro h
  exact hab ((char_sub_eq_zero_iff a b).mp h)

theorem strncmp_ne_of_head (a b : Char) (s p : CStr) (n : Nat) (hab : a ≠ b) :
    strncmp (a :: s) (b :: p) (n + 1) ≠ 0 := by
  rw [strncmp_succ, deref_cons, deref_cons, if_pos hab]
  intro h
  exact hab ((char_sub_eq_zero_iff a b).mp h)

theorem keyword_line_length (kw v : CStr) (hk : kw.length = 7)
    (hlen : v.length + 8 ≤ 1023) : (kw ++ v ++ "\n".toList).length ≤ 1023 := by
  have l1 : "\n".toList.length = 1 := rfl
  simp only [List.length_append, hk, l1]
  omega

/-- The loop takes a `domain` line with the configured value. -/
theorem really_set_to_localhost_line_domain (cfg : cfg) (d : CStr)
    (hd : cfg.rescf_domain = some d) (hlen : (cstr d).length + 8 ≤ 1023) (a b c : Int) :
    really_set_to_localhost_line cfg ("domain ".toList ++ cstr d ++ "\n".toList) a b c =
      some (a, b, 1) := by
  have htake := List.take_of_length_le
    (keyword_line_length "domain ".toList (cstr d) rfl hlen)
  have e : "domain ".toList ++ cstr d ++ "\n".toList =
      'd' :: ("omain ".toList ++ cstr d ++ "\n".toList) := rfl
  have h1 : strcmp ("domain ".toList ++ cstr d ++ "\n".toList)
      "nameserver 127.0.0.1\n".toList ≠ 0 := by
    rw [e]
    exact strcmp_ne_of_head 'd' 'n' _ _ (by decide)
  have h2 : strncmp ("domain ".toList ++ cstr d ++ "\n".toList) "nameserver".toList 10 ≠ 0 := by
    rw [e]
    exact strncmp_ne_of_head 'd' 'n' _ _ 9 (by decide)
  have h3 : strncmp ("domain ".toList ++ cstr d ++ "\n".toList) "search ".toList 7 ≠ 0 := by
    rw [e]
    exact strncmp_ne_of_head 'd' 's' _ _ 6 (by decide)
  have h4 : strncmp ("domain ".toList ++ cstr d ++ "\n".toList) "domain ".toList 7 = 0 := by
    rw [strncmp_eq_zero_iff 7 _ (by decide) (by decide), List.append_assoc]
    exact List.prefix_append _ _
  have h5 : ("domain ".toList ++ cstr d ++ "\n".toList).drop 7 = cstr d ++ "\n".toList := rfl
  unfold really_set_to_localhost_line
  rw [htake, if_neg h1, if_neg h2, if_neg h3, if_pos h4, h5, hd, check_line_arg_value,
    if_neg (by decide)]

/-- The loop takes a `search` line with the configured value. -/
theorem really_set_to_localhost_line_search (cfg : cfg) (v : CStr)
    (hv : cfg.rescf_search = some v) (hlen : (cstr v).length + 8 ≤ 1023) (a b c : Int) :
    really_set_to_localhost_line cfg ("search ".toList ++ cstr v ++ "\n".toList) a b c =
      some (a, 1, c) := by
  have htake := List.take_of_length_le
    (keyword_line_length "search ".toList (cstr v) rfl hlen)
  have e : "search ".toList ++ cstr v ++ "\n".toList =
      's' :: ("earch ".toList ++ cstr v ++ "\n".toList) := rfl
  have h1 : strcmp ("search ".toList ++ cstr v ++ "\n".toList)
      "nameserver 127.0.0.1\n".toList ≠ 0 := by
    rw [e]
    exact strcmp_ne_of_head 's' 'n' _ _ (by decide)
  have h2 : strncmp ("search ".toList ++ cstr v ++ "\n".toList) "nameserver".toList 10 ≠ 0 := by
    rw [e]
    exact strncmp_ne_of_head 's' 'n' _ _ 9 (by decide)
  have h3 : strncmp ("search ".toList ++ cstr v ++ "\n".toList) "search ".toList 7 = 0 := by
    rw [strncmp_eq_zero_iff 7 _ (by decide) (by decide), List.append_assoc]
    exact List.prefix_append _ _
  have h5 : ("search ".toList ++ cstr v ++ "\n".toList).drop 7 = cstr v ++ "\n".toList := rfl
  unfold really_set_to_localhost_line
  rw [htake, if_neg h1, if_neg h2, if_pos h3, h5, hv, check_line_arg_value,
    if_neg (by decide)]

/-- The loop takes the loopback name server line. -/
theorem really_set_to_localhost_line_loopback (cfg : cfg) (a b c : Int) :
    really_set_to_localhost_line cfg "nameserver 127.0.0.1\n".toList a b c = some (1, b, c) := by
  unfold really_set_to_localhost_line
  rw [if_pos (by decide)]

/-- A line that fits and that the loop takes costs one round. -/
theorem really_set_to_localhost_loop_line (cfg : cfg) (fuel : Nat) (l rest : CStr)
    (a b c a2 b2 c2 r : Int) (hnl : '\n' ∉ l) (hlen : l.length + 1 ≤ 1023)
    (hline : really_set_to_localhost_line cfg (l ++ ['\n']) a b c = some (a2, b2, c2))
    (hrest : really_set_to_localhost_loop cfg fuel rest a2 b2 c2 = some r) :
    really_set_to_localhost_loop cfg (fuel + 1) (l ++ '\n' :: rest) a b c = some r := by
  rw [really_set_to_localhost_loop_succ, fgets_line l rest hnl hlen]
  simp only [hline, hrest]

theorem really_set_to_localhost_loop_le (cfg : cfg) (f f2 : Nat) (stream : CStr)
    (a b c r : Int) (h : really_set_to_localhost_loop cfg f stream a b c = some r)
    (hle : f ≤ f2) : really_set_to_localhost_loop cfg f2 stream a b c = some r := by
  have := really_set_to_localhost_loop_mono cfg f (f2 - f) stream a b c r h
  rwa [show f + (f2 - f) = f2 by omega] at this

/-- The loop on the loopback line at the end of the file. -/
theorem really_set_to_localhost_loop_loopback (cfg : cfg) (a b c : Int) :
    really_set_to_localhost_loop cfg 2 "nameserver 127.0.0.1\n".toList a b c =
      some (really_set_to_localhost_end cfg 1 b c) :=
  really_set_to_localhost_loop_line cfg 1 "nameserver 127.0.0.1".toList [] a b c 1 b c _
    (by decide) (by decide) (really_set_to_localhost_line_loopback cfg a b c)
    (by rw [really_set_to_localhost_loop_succ]; rfl)

/-- The loop on the `search` line, if configured, and the loopback line. -/
theorem really_set_to_localhost_loop_search (cfg : cfg) (hs : fits_line cfg.rescf_search)
    (a c : Int) :
    really_set_to_localhost_loop cfg 3
      ((match cfg.rescf_search with
        | some s => "search ".toList ++ cstr s ++ "\n".toList
        | none => []) ++ "nameserver 127.0.0.1\n".toList) a 0 c =
      some (if cfg.rescf_domain.isSome ∧ c = 0 then 0 else 1) := by
  cases hv : cfg.rescf_search with
  | none =>
    refine really_set_to_localhost_loop_le cfg 2 3 _ a 0 c _ ?_ (by decide)
    rw [List.nil_append, really_set_to_localhost_loop_loopback]
    simp [really_set_to_localhost_end, hv]
  | some v =>
    obtain ⟨h1, h2⟩ := hs v hv
    have e : "search ".toList ++ cstr v ++ "\n".toList ++ "nameserver 127.0.0.1\n".toList =
        ("search ".toList ++ cstr v) ++ '\n' :: "nameserver 127.0.0.1\n".toList := by
      simp
    have hnl : '\n' ∉ "search ".toList ++ cstr v := by
      rw [List.mem_append]
      rintro (h | h)
      · exact absurd h (by decide)
      · exact h1 h
    have hlen : ("search ".toList ++ cstr v).length + 1 ≤ 1023 := by
      have l1 : "search ".toList.length = 7 := rfl
      rw [List.length_append, l1]
      omega
    show really_set_to_localhost_loop cfg 3
      ("search ".toList ++ cstr v ++ "\n".toList ++ "nameserver 127.0.0.1\n".toList) a 0 c = _
    rw [e]
    refine really_set_to_localhost_loop_line cfg 2 _ _ a 0 c a 1 c _ hnl hlen
      (really_set_to_localhost_line_search cfg v hv (by omega) a 0 c) ?_
    rw [really_set_to_localhost_loop_loopback]
    simp [really_set_to_localhost_end, hv]

/-- The loop on the text that follows the signature line in `localhost_text`. -/
theorem really_set_to_localhost_loop_text (cfg : cfg) (hd : fits_line cfg.rescf_domain)
    (hs : fits_line cfg.rescf_search) :
    really_set_to_localhost_loop cfg 4
      ((match cfg.rescf_domain with
        | some d => "domain ".toList ++ cstr d ++ "\n".toList
        | none => []) ++
       ((match cfg.rescf_search with
        | some s => "search ".toList ++ cstr s ++ "\n".toList
        | none => []) ++ "nameserver 127.0.0.1\n".toList)) 0 0 0 = some 1 := by
  cases hv : cfg.rescf_domain with
  | none =>
    refine really_set_to_localhost_loop_le cfg 3 4 _ 0 0 0 _ ?_ (by decide)
    rw [List.nil_append, really_set_to_localhost_loop_search cfg hs 0 0]
    simp [hv]
  | some v =>
    obtain ⟨h1, h2⟩ := hd v hv
    have hnl : '\n' ∉ "domain ".toList ++ cstr v := by
      rw [List.mem_append]
      rintro (h | h)
      · exact absurd h (by decide)
      · exact h1 h
    have hlen : ("domain ".toList ++ cstr v).length + 1 ≤ 1023 := by
      have l1 : "domain ".toList.length = 7 := rfl
      rw [List.length_append, l1]
      omega
    show really_set_to_localhost_loop cfg 4
      ("domain ".toList ++ cstr v ++ "\n".toList ++ _) 0 0 0 = _
    rw [show ∀ rest : CStr, "domain ".toList ++ cstr v ++ "\n".toList ++ rest =
      ("domain ".toList ++ cstr v) ++ '\n' :: rest from fun rest => by simp]
    refine really_set_to_localhost_loop_line cfg 3 _ _ 0 0 0 0 0 1 _ hnl hlen
      (really_set_to_localhost_line_domain cfg v hv (by omega) 0 0 0) ?_
    rw [really_set_to_localhost_loop_search cfg hs 0 1]
    simp

theorem signature_line_cstr (K : Consts) (hK : NUL ∉ K.PACKAGE_STRING) :
    cstr (signature_line K) = signature_line K := by
  apply cstr_of_not_mem
  unfold signature_line
  simp only [List.mem_append, not_or]
  exact ⟨⟨by decide, hK⟩, by decide⟩

/-- The check accepts the text that `hook_resolv_localhost` writes. -/
theorem really_set_to_localhost_text (K : Consts) (cfg : cfg) (h : Host)
    (hK1 : NUL ∉ K.PACKAGE_STRING) (hK2 : '\n' ∉ K.PACKAGE_STRING)
    (hK3 : K.PACKAGE_STRING.length + 16 ≤ 1023) (hd : fits_line cfg.rescf_domain)
    (hs : fits_line cfg.rescf_search) (hfile : h.resolvconf = some (localhost_text K cfg)) :
    really_set_to_localhost K cfg h = some 1 := by
  have hnl : '\n' ∉ "# Generated by ".toList ++ K.PACKAGE_STRING := by
    rw [List.mem_append]
    rintro (h | h)
    · exact absurd h (by decide)
    · exact hK2 h
  have hlen : ("# Generated by ".toList ++ K.PACKAGE_STRING).length + 1 ≤ 1023 := by
    have l1 : "# Generated by ".toList.length = 15 := rfl
    rw [List.length_append, l1]
    omega
  have e : localhost_text K cfg =
      ("# Generated by ".toList ++ K.PACKAGE_STRING) ++ '\n' ::
        ((match cfg.rescf_domain with
          | some d => "domain ".toList ++ cstr d ++ "\n".toList
          | none => []) ++
        ((match cfg.rescf_search with
          | some s => "search ".toList ++ cstr s ++ "\n".toList
          | none => []) ++ "nameserver 127.0.0.1\n".toList)) := by
    unfold localhost_text
    rw [signature_line_cstr K hK1]
    unfold signature_line
    simp only [List.append_assoc]
    rfl
  have hsig : strcmp (("# Generated by ".toList ++ K.PACKAGE_STRING) ++ ['\n'])
      (signature_line K) = 0 := by
    rw [strcmp_eq_zero_iff _ (by rw [← signature_line_cstr K hK1]; exact NUL_not_mem_cstr _)]
    exact signature_line_cstr K hK1
  unfold really_set_to_localhost
  rw [hfile, e]
  simp only [fgets_line _ _ hnl hlen, hsig, ne_eq, not_true_eq_false, if_false]
  refine really_set_to_localhost_loop_le cfg 4 _ _ 0 0 0 1
    (really_set_to_localhost_loop_text cfg hd hs) ?_
  have l2 : "nameserver 127.0.0.1\n".toList.length = 21 := rfl
  simp only [List.length_append, l2]
  omega

/-- What `open_rescf` has written when the file opens and every write succeeds. -/
theorem open_rescf_text (K : Consts) (env : libc) (cfg : cfg) (h : Host)
    (hopen : env.fopen_w = true) (hwr : ∀ s, env.fprintf s = s.length)
    (hd : fits_line cfg.rescf_domain) (hs : fits_line cfg.rescf_search) :
    open_rescf K env cfg h =
      ({ ((h.call .r_mutable).call (.chmod 644)).call .fopen_w with resolvconf := some [] },
        some (cstr (signature_line K) ++
          (match cfg.rescf_domain with
            | some d => "domain ".toList ++ cstr d ++ "\n".toList
            | none => []) ++
          (match cfg.rescf_search with
            | some s => "search ".toList ++ cstr s ++ "\n".toList
            | none => []))) := by
  have hpr : ∀ out line, prline env out line = out ++ cstr line := by
    intro out line
    unfold prline
    rw [hwr, Int.toNat_ofNat, List.take_length]
  have hkw : ∀ (kw v : CStr), kw.length = 7 → NUL ∉ kw → (cstr v).length + 8 ≤ 1023 →
      cstr (snprintf 1024 (kw ++ cstr v ++ "\n".toList)) = kw ++ cstr v ++ "\n".toList := by
    intro kw v hk hn hlen
    unfold snprintf
    rw [List.take_of_length_le (keyword_line_length kw (cstr v) hk hlen)]
    apply cstr_of_not_mem
    simp only [List.mem_append, not_or]
    exact ⟨⟨hn, NUL_not_mem_cstr v⟩, by decide⟩
  unfold open_rescf
  simp only [hopen, Bool.true_eq_false, if_false, hpr, List.nil_append]
  cases hdv : cfg.rescf_domain with
  | none =>
    cases hsv : cfg.rescf_search with
    | none => simp
    | some s =>
      simp only [List.append_nil]
      rw [hkw "search ".toList s rfl (by decide) (hs s hsv).2]
  | some d =>
    cases hsv : cfg.rescf_search with
    | none =>
      simp only [List.append_nil]
      rw [hkw "domain ".toList d rfl (by decide) (hd d hdv).2]
    | some s =>
      simp only []
      rw [hkw "domain ".toList d rfl (by decide) (hd d hdv).2, hkw "search ".toList s rfl (by decide) (hs s hsv).2]

/-- C20: loopback idempotence on the resolv.conf backend. With `noaction` off, a file that
opens and writes that succeed, a package string without NUL or newline that fits the line
buffer, and `rescf_domain` and `rescf_search` each absent or newline-free and fitting one
1024-byte line: for every initial state of the file, `hook_resolv_localhost` returns with
`set_to_localhost = 1` and a file that `really_set_to_localhost` accepts under the same
configuration, and a second `hook_resolv_localhost` (whatever the C library would answer)
leaves the state as it is: no call on the file, the content unchanged. -/
theorem hook_resolv_localhost_idempotent (K : Consts) (env : libc) (cfg : cfg) (h : Host)
    (hK1 : NUL ∉ K.PACKAGE_STRING) (hK2 : '\n' ∉ K.PACKAGE_STRING)
    (hK3 : K.PACKAGE_STRING.length + 16 ≤ 1023) (hna : cfg.noaction = 0)
    (hopen : env.fopen_w = true) (hwr : ∀ s, env.fprintf s = s.length)
    (hd : fits_line cfg.rescf_domain) (hs : fits_line cfg.rescf_search) :
    ∃ h1 r, hook_resolv_localhost K env cfg h = some h1 ∧ h1.set_to_localhost = 1 ∧
      really_set_to_localhost K cfg h1 = some r ∧ r ≠ 0 ∧
      ∀ env2, hook_resolv_localhost K env2 cfg h1 = some h1 := by
  have hsecond : ∀ (h1 : Host) (r : Int), h1.set_to_localhost = 1 →
      really_set_to_localhost K cfg h1 = some r → r ≠ 0 →
      ∀ env2, hook_resolv_localhost K env2 cfg h1 = some h1 := by
    intro h1 r h1s h1r hr env2
    have e : ({ h1 with set_to_localhost := 1 } : Host) = h1 := by
      cases h1
      simp only [Host.mk.injEq, and_true] at h1s ⊢
      exact h1s.symm
    unfold hook_resolv_localhost
    simp only [e, hna, ne_eq, not_true_eq_false, if_false, h1r, hr, not_false_eq_true, if_true]
  obtain ⟨r, hr⟩ := really_set_to_localhost_total K cfg { h with set_to_localhost := 1 }
  by_cases hr0 : r ≠ 0
  · refine ⟨{ h with set_to_localhost := 1 }, r, ?_, rfl, hr, hr0, hsecond _ r rfl hr hr0⟩
    unfold hook_resolv_localhost
    simp only [hna, ne_eq, not_true_eq_false, if_false, hr, hr0, not_false_eq_true, if_true]
  · have hop := open_rescf_text K env cfg { h with set_to_localhost := 1 } hopen hwr hd hs
    have hpr : ∀ out line, prline env out line = out ++ cstr line := by
      intro out line
      unfold prline
      rw [hwr, Int.toNat_ofNat, List.take_length]
    have hns : cstr "nameserver 127.0.0.1\n".toList = "nameserver 127.0.0.1\n".toList := by
      decide
    have hres : hook_resolv_localhost K env cfg h =
        some (close_rescf
          { ((({ h with set_to_localhost := 1 } : Host).call .r_mutable).call
              (.chmod 644)).call .fopen_w with resolvconf := some [] }
          (localhost_text K cfg)) := by
      unfold hook_resolv_localhost
      simp only [hna, ne_eq, not_true_eq_false, if_false, hr, hr0, hop, hpr, hns]
      rfl
    have hacc := really_set_to_localhost_text K cfg _ hK1 hK2 hK3 hd hs
      (show (close_rescf
          { ((({ h with set_to_localhost := 1 } : Host).call .r_mutable).call
              (.chmod 644)).call .fopen_w with resolvconf := some [] }
          (localhost_text K cfg)).resolvconf = some (localhost_text K cfg) from rfl)
    exact ⟨_, 1, hres, rfl, hacc, by decide, hsecond _ 1 rfl hacc (by decide)⟩

/-- Witness of C20: a resolv.conf that names a resolver of the network is rewritten to the
loopback text with the configured `domain` line; a second call changes nothing. -/
theorem hook_resolv_localhost_idempotent_witness :
    hook_resolv_localhost example_consts example_libc example_cfg example_host =
      some { set_to_localhost := 1,
             resolvconf := some ("# Generated by dnssec-trigger 0.13\n".toList ++
               "domain example.com\n".toList ++ "nameserver 127.0.0.1\n".toList),
             calls := [.r_mutable, .chmod 644, .fopen_w, .fclose, .chmod 444, .r_immutable] } ∧
    ∃ h1 r, hook_resolv_localhost example_consts example_libc example_cfg example_host =
        some h1 ∧ h1.set_to_localhost = 1 ∧
      really_set_to_localhost example_consts example_cfg h1 = some r ∧ r ≠ 0 ∧
      ∀ env2, hook_resolv_localhost example_consts env2 example_cfg h1 = some h1 :=
  ⟨by decide, hook_resolv_localhost_idempotent example_consts example_libc example_cfg
    example_host (by decide) (by decide) (by decide) rfl rfl (fun _ => rfl)
    (fun v hv => by cases hv; decide) (fun v hv => by cases hv)⟩

/-! ## The reprobe string -/

theorem join_names_cons (n : CStr) (ns : List CStr) :
    join_names (n :: ns) = if ns = [] then n else n ++ ' ' :: join_names ns := by
  cases ns with
  | nil => rfl
  | cons m rest => rfl

theorem join_names_eq_nil (ns : List CStr) (h : ∀ n ∈ ns, n ≠ []) :
    join_names ns = [] ↔ ns = [] := by
  cases ns with
  | nil => simp [join_names]
  | cons n rest =>
    have hn : n ≠ [] := h n (List.mem_cons_self _ _)
    rw [join_names_cons]
    split_ifs <;> simp [hn]

theorem join_names_concat (ns : List CStr) (n : CStr) :
    join_names (ns ++ [n]) = if ns = [] then n else join_names ns ++ ' ' :: n := by
  induction ns with
  | nil => rfl
  | cons m rest ih =>
    rw [List.cons_append, join_names_cons, join_names_cons, ih]
    by_cases hr : rest = []
    · subst hr
      simp
    · simp [hr]

theorem join_names_append_length (ns ms : List CStr) (n : CStr) :
    (join_names ns).length + n.length ≤ (join_names (ns ++ n :: ms)).length := by
  induction ns with
  | nil =>
    rw [List.nil_append, join_names_cons]
    split_ifs <;> simp [join_names]
  | cons m rest ih =>
    rw [List.cons_append, join_names_cons, join_names_cons]
    by_cases hr : rest = []
    · subst hr
      simp only [List.nil_append, reduceCtorEq, if_false, if_true, List.length_append,
        List.length_cons]
      rw [join_names_cons]
      split_ifs
      · simp
      · simp
        omega
    · simp only [hr, List.append_eq_nil, false_and, if_false, List.length_append,
        List.length_cons]
      omega

theorem cache_names_cons (p : probe_ip) (ps : List probe_ip) :
    cache_names (p :: ps) =
      if probe_is_cache p then cstr p.name :: cache_names ps else cache_names ps := by
  unfold cache_names
  by_cases h : probe_is_cache p = true <;> simp [List.filter_cons, h]

/-- The loop of `cmd_reprobe`, from any round on: `done` are the names written so far. -/
theorem cmd_reprobe_loop_spec (ps : List probe_ip) :
    ∀ (done : List CStr) (left : Nat), (∀ n ∈ done, n ≠ []) →
      (∀ p ∈ ps, cstr p.name ≠ []) → left + (join_names done).length = 10240 →
      (join_names done).length ≤ 10238 →
      ∃ k, cmd_reprobe_loop ps (join_names done) left =
          join_names (done ++ (cache_names ps).take k) ∧
        (join_names (done ++ (cache_names ps).take k)).length ≤ 10238 ∧
        ((join_names (done ++ cache_names ps)).length ≤ 10237 →
          cmd_reprobe_loop ps (join_names done) left =
            join_names (done ++ cache_names ps)) := by
  induction ps with
  | nil =>
    intro done left _ _ _ hlen
    refine ⟨0, ?_, ?_, ?_⟩
    · simp [cmd_reprobe_loop, cache_names]
    · simpa [cache_names] using hlen
    · intro _
      simp [cmd_reprobe_loop, cache_names]
  | cons p ps ih =>
    intro done left hdone hps hleft hlen
    have hps2 : ∀ q ∈ ps, cstr q.name ≠ [] := fun q hq => hps q (List.mem_cons_of_mem _ hq)
    have hp : cstr p.name ≠ [] := hps p (List.mem_cons_self _ _)
    rw [cache_names_cons, cmd_reprobe_loop]
    by_cases hc : probe_is_cache p = true
    · simp only [hc, if_true]
      by_cases hroom : left < strlen p.name + 3
      · simp only [hroom, if_true]
        refine ⟨0, by simp, by simpa using hlen, ?_⟩
        intro hall
        have := join_names_append_length done (cache_names ps) (cstr p.name)
        unfold strlen at hroom
        omega
      · simp only [hroom, if_false]
        unfold strlen at hroom
        have hsep : (if join_names done = [] then ([] : CStr) else [' ']) =
            if done = [] then [] else [' '] := by
          simp only [join_names_eq_nil done hdone]
        have hnow : snprintf left
            ((if join_names done = [] then ([] : CStr) else [' ']) ++ cstr p.name) =
            (if done = [] then ([] : CStr) else [' ']) ++ cstr p.name := by
          rw [hsep]
          unfold snprintf
          apply List.take_of_length_le
          split_ifs <;> simp <;> omega
        have hbuf : join_names done ++
            ((if done = [] then ([] : CStr) else [' ']) ++ cstr p.name) =
            join_names (done ++ [cstr p.name]) := by
          rw [join_names_concat]
          by_cases hd : done = []
          · subst hd
            simp [join_names]
          · simp [hd]
        have hnl : ((if done = [] then ([] : CStr) else [' ']) ++ cstr p.name).length ≤
            (cstr p.name).length + 1 := by
          split_ifs <;> simp
        have hdone2 : ∀ n ∈ done ++ [cstr p.name], n ≠ [] := by
          intro n hn
          rcases List.mem_append.mp hn with h | h
          · exact hdone n h
          · rw [List.mem_singleton.mp h]
            exact hp
        have hlen2 : (join_names (done ++ [cstr p.name])).length =
            (join_names done).length +
              ((if done = [] then ([] : CStr) else [' ']) ++ cstr p.name).length := by
          rw [← hbuf, List.length_append]
        rw [hnow, hbuf]
        obtain ⟨k, h1, h2, h3⟩ := ih (done ++ [cstr p.name])
          (left - ((if done = [] then ([] : CStr) else [' ']) ++ cstr p.name).length)
          hdone2 hps2 (by omega) (by omega)
        refine ⟨k + 1, ?_, ?_, ?_⟩
        · rw [h1, List.take_succ_cons, List.append_assoc, List.singleton_append]
        · rw [List.take_succ_cons]
          rw [List.append_assoc, List.singleton_append] at h2
          exact h2
        · intro hall
          rw [List.append_assoc, List.singleton_append] at h3
          exact h3 hall
    · simp only [hc, Bool.false_eq_true, if_false]
      exact ih done left hdone hps2 hleft hlen

/-- C25: for every probe list whose entries have non-empty names, the string that
`cmd_reprobe` passes to `probe_start` is the names of the first `k` cache probes (in
probe-list order, other entries skipped), whole, joined by single spaces, for some `k`; it
is shorter than the 10240-byte buffer; and it holds all cache probes whenever the full
space-joined string has length at most 10237. -/
theorem cmd_reprobe_cache_set (d : Daemon)
    (hne : ∀ p ∈ d.global_svr.probes, cstr p.name ≠ []) :
    ∃ k, cmd_reprobe d =
        d.call (.probe_start (join_names ((cache_names d.global_svr.probes).take k))) ∧
      (join_names ((cache_names d.global_svr.probes).take k)).length < 10240 ∧
      ((join_names (cache_names d.global_svr.probes)).length ≤ 10237 →
        cmd_reprobe d =
          d.call (.probe_start (join_names (cache_names d.global_svr.probes)))) := by
  obtain ⟨k, h1, h2, h3⟩ := cmd_reprobe_loop_spec d.global_svr.probes [] 10240
    (fun n hn => absurd hn (List.not_mem_nil n)) hne rfl (by decide)
  simp only [List.nil_append] at h1 h2 h3
  refine ⟨k, ?_, by omega, ?_⟩
  · unfold cmd_reprobe
    rw [show join_names [] = [] from rfl] at h1
    rw [h1]
  · intro hall
    unfold cmd_reprobe
    rw [show join_names [] = [] from rfl] at h3
    rw [h3 hall]

/-- Witness of C25: a cache probe, a probe to an authority and a second cache probe. -/
theorem cmd_reprobe_cache_set_witness :
    ∃ k, cmd_reprobe (with_probes (svr_create 0) example_probes) =
        (with_probes (svr_create 0) example_probes).call
          (.probe_start (join_names ((cache_names example_probes).take k))) ∧
      cmd_reprobe_loop example_probes [] 10240 = "192.0.2.1 192.0.2.2".toList :=
  (cmd_reprobe_cache_set (with_probes (svr_create 0) example_probes)
    (by decide)).imp fun _ h => ⟨h.1, by decide⟩

/-! ## Use of a connection after its deletion -/

/-- C24 (failing inputs): a connection in `persist_write` whose zero-byte read fails with
`SSL_ERROR_SYSCALL`: `sslconn_checkclose` deletes it and returns 0, so `control_callback`
goes on to `sslconn_write` on the deleted connection, a dereference with no result; with
`SSL_ERROR_SSL` the same function deletes and returns 1 and the callback returns. And a
connection in `rc_hs_shutdown` whose `SSL_shutdown` completes: `sslconn_shutdown` deletes
it and `control_callback` goes on to read its `line_state`. -/
theorem control_callback_use_after_delete :
    (sslconn_checkclose (example_env_read0 .SSL_ERROR_SYSCALL)
        (example_daemon 0 .res_cache 0 0 (example_flushing 0)) 7 =
      some (sslconn_delete (example_daemon 0 .res_cache 0 0 (example_flushing 0)) 7, false) ∧
     (sslconn_delete (example_daemon 0 .res_cache 0 0 (example_flushing 0)) 7).conn 7 = none ∧
     control_callback example_consts (example_env_read0 .SSL_ERROR_SYSCALL)
        (example_daemon 0 .res_cache 0 0 (example_flushing 0)) 7 0 = none) ∧
    (sslconn_checkclose (example_env_read0 .SSL_ERROR_SSL)
        (example_daemon 0 .res_cache 0 0 (example_flushing 0)) 7 =
      some (sslconn_delete (example_daemon 0 .res_cache 0 0 (example_flushing 0)) 7, true) ∧
     control_callback example_consts (example_env_read0 .SSL_ERROR_SSL)
        (example_daemon 0 .res_cache 0 0 (example_flushing 0)) 7 0 =
      some (sslconn_delete (example_daemon 0 .res_cache 0 0 (example_flushing 0)) 7)) ∧
    (control_callback_shake example_env
        (example_daemon 0 .res_cache 0 0
          { example_conn 7 .persist_read [] with shake_state := .rc_hs_shutdown }) 7
        { example_conn 7 .persist_read [] with shake_state := .rc_hs_shutdown } =
      (sslconn_shutdown example_env (example_daemon 0 .res_cache 0 0
          { example_conn 7 .persist_read [] with shake_state := .rc_hs_shutdown }) 7, true) ∧
     (sslconn_shutdown example_env (example_daemon 0 .res_cache 0 0
          { example_conn 7 .persist_read [] with shake_state := .rc_hs_shutdown }) 7).conn 7 =
        none ∧
     control_callback example_consts example_env
        (example_daemon 0 .res_cache 0 0
          { example_conn 7 .persist_read [] with shake_state := .rc_hs_shutdown }) 7 0 =
        none) :=
  ⟨⟨rfl, rfl, rfl⟩, ⟨rfl, rfl⟩, ⟨rfl, rfl, rfl⟩⟩

/-! ## The stoppanels command -/

theorem ssl_writes_append (l1 l2 : List Event) :
    ssl_writes (l1 ++ l2) = ssl_writes l1 ++ ssl_writes l2 := by
  induction l1 with
  | nil => rfl
  | cons e l1 ih => cases e <;> simp [ssl_writes, ih]

/-- The loop of `handle_stoppanels_cmd`, connection by connection. -/
theorem handle_stoppanels_loop_eq (env : Env) (l : List sslconn) :
    handle_stoppanels_loop env l =
      (l.map (fun s => (handle_stoppanels_con env s).1),
        l.flatMap (fun s => (handle_stoppanels_con env s).2)) := by
  induction l with
  | nil => rfl
  | cons s l ih =>
    simp only [handle_stoppanels_loop, ih, List.map_cons, List.flatMap_cons]

/-- The writes of one round of the loop, and that it does not ask the event loop to exit. -/
theorem handle_stoppanels_con_writes (env : Env) (s : sslconn) :
    ssl_writes (handle_stoppanels_con env s).2 = stop_writes s ∧
      Event.comm_base_exit ∉ (handle_stoppanels_con env s).2 := by
  unfold handle_stoppanels_con stop_writes
  cases hl : s.line_state <;>
    simp only [ne_eq, reduceCtorEq, not_false_eq_true, not_true_eq_false, and_self, and_true,
      and_false, true_and, false_and, if_true, if_false]
  · exact ⟨rfl, List.not_mem_nil _⟩
  · exact ⟨rfl, List.not_mem_nil _⟩
  · constructor
    · simp only [ssl_writes_append]
      split_ifs <;> rfl
    · simp only [List.mem_append, not_or]
      split_ifs <;> simp
  · constructor
    · simp only [ssl_writes_append]
      split_ifs <;> rfl
    · simp only [List.mem_append, not_or]
      split_ifs <;> simp

theorem handle_stoppanels_loop_writes (env : Env) (l : List sslconn) :
    ssl_writes (l.flatMap (fun s => (handle_stoppanels_con env s).2)) =
        l.flatMap stop_writes ∧
      Event.comm_base_exit ∉ l.flatMap (fun s => (handle_stoppanels_con env s).2) := by
  induction l with
  | nil => exact ⟨rfl, List.not_mem_nil _⟩
  | cons s l ih =>
    obtain ⟨h1, h2⟩ := handle_stoppanels_con_writes env s
    simp only [List.flatMap_cons, ssl_writes_append, h1, ih.1, List.mem_append, not_or]
    exact ⟨trivial, h2, ih.2⟩

/-- The calls of `sslconn_shutdown`: `SSL_shutdown`, then at most a change of the events
listened for. -/
theorem sslconn_shutdown_calls (env : Env) (d : Daemon) (sc : Nat) :
    ∃ tail, (sslconn_shutdown env d sc).trace = d.trace ++ Event.SSL_shutdown sc :: tail ∧
      ssl_writes tail = [] ∧ Event.comm_base_exit ∉ tail := by
  unfold sslconn_shutdown
  simp only []
  split_ifs
  · exact ⟨[], rfl, rfl, List.not_mem_nil _⟩
  · exact ⟨[], rfl, rfl, List.not_mem_nil _⟩
  · exact ⟨[], rfl, rfl, List.not_mem_nil _⟩
  · exact ⟨[.comm_point_listen_for_rw sc 1 0], by simp [Daemon.call, Daemon.set_conn], rfl,
      by simp⟩
  · exact ⟨[.comm_point_listen_for_rw sc 0 1], by simp [Daemon.call, Daemon.set_conn], rfl,
      by simp⟩
  · exact ⟨[], rfl, rfl, List.not_mem_nil _⟩

/-- C23 (counterexample): a panel subscribes with `cmdtray` on the connection at 8, which
leaves it in `persist_read`; then `stoppanels` arrives on the connection at 7. The only
writes are the rest of the block and `stop` to the connection at 9, which was flushing
results: nothing is written to the `cmdtray` connection. -/
theorem stoppanels_skips_cmdtray_counterexample :
    ∃ d1 d2 c8, sslconn_command example_consts example_env
        (example_panels "DNSTRIG1 cmdtray".toList) 8 = some d1 ∧
      d1.conn 8 = some c8 ∧ c8.line_state = .persist_read ∧
      sslconn_command example_consts example_env d1 7 = some d2 ∧
      ssl_writes d2.trace =
        [(9, ldns_buffer_pending (example_flushing 0).buffer), (9, "stop\n".toList)] ∧
      (8, "stop\n".toList) ∉ ssl_writes d2.trace :=
  ⟨_, _, _, rfl, rfl, rfl, rfl, by decide, by decide⟩

/-- C23 (amended): on a one-shot line with a correct version prefix whose text begins with
`stoppanels`, `sslconn_command` goes through the busy list in order and writes to every
connection in `persist_write` the unsent rest of its block and then `stop`, to every
connection in `persist_write_checkclose` just `stop`, and nothing to a connection in
another line state (`persist_read` after `cmdtray`, `command_read`); after these writes it
calls `SSL_shutdown` on the commanding connection, and `comm_base_exit` is not called. On a
text that begins with `stop` but not `stoppanels` the first call is `comm_base_exit`. -/
theorem stoppanels_command (K : Consts) (env : Env) (d : Daemon) (sc : Nat) (c : sslconn)
    (rest : CStr) (hv : 0 ≤ K.CONTROL_VERSION ∧ K.CONTROL_VERSION ≤ 9)
    (hc : d.conn sc = some c) (hline : c.buffer.data = version_header K ++ rest) :
    ("stoppanels".toList <+: skip_spaces rest →
      ∃ d2 calls tail, sslconn_command K env d sc = some d2 ∧
        d2.trace = d.trace ++ calls ++ Event.SSL_shutdown sc :: tail ∧
        ssl_writes calls = d.global_svr.busy_list.flatMap stop_writes ∧
        ssl_writes tail = [] ∧
        Event.comm_base_exit ∉ calls ++ Event.SSL_shutdown sc :: tail) ∧
    ("stop".toList <+: skip_spaces rest → ¬ "stoppanels".toList <+: skip_spaces rest →
      ∃ d2 tail, sslconn_command K env d sc = some d2 ∧
        d2.trace = d.trace ++ Event.comm_base_exit :: Event.SSL_shutdown sc :: tail) := by
  have hrun := sslconn_command_good_version K env d sc c rest hv hc hline
  constructor
  · intro hcmd
    rw [sslconn_command_select_table _ "stoppanels".toList .stoppanels (by decide) hcmd]
      at hrun
    obtain ⟨h1, h2⟩ := handle_stoppanels_loop_writes env d.global_svr.busy_list
    obtain ⟨tail, t1, t2, t3⟩ := sslconn_shutdown_calls env
      { global_svr := { d.global_svr with
          busy_list := d.global_svr.busy_list.map (fun s => (handle_stoppanels_con env s).1) },
        trace := d.trace ++
          d.global_svr.busy_list.flatMap (fun s => (handle_stoppanels_con env s).2) } sc
    refine ⟨_, _, tail, hrun.trans ?_, t1, h1, t2, ?_⟩
    · simp only [sslconn_command_run, handle_stoppanels_cmd, handle_stoppanels_loop_eq]
    · simp only [List.mem_append, List.mem_cons, reduceCtorEq, false_or, not_or]
      exact ⟨h2, t3⟩
  · intro hcmd hnot
    rw [sslconn_command_select_stop _ hcmd hnot] at hrun
    obtain ⟨tail, t1, -, -⟩ := sslconn_shutdown_calls env (d.call .comm_base_exit) sc
    refine ⟨_, tail, hrun.trans rfl, ?_⟩
    rw [t1]
    simp [Daemon.call]

/-- Witness of C23 (amended): a panel subscribes with `results` on the connection at 8;
`stoppanels` on the connection at 7 then writes `stop` to it and to the connection at 9. -/
theorem stoppanels_command_witness :
    sslconn_command example_consts example_env
        (example_panels "DNSTRIG1 results".toList) 8 =
      some (handle_results_cmd example_consts example_env
        (example_panels "DNSTRIG1 results".toList) 8) ∧
    (stop_writes (example_conn 8 .persist_read []) = [] ∧
      stop_writes (example_conn 8 .persist_write_checkclose []) = [(8, "stop\n".toList)]) ∧
    ∃ d2 calls tail, sslconn_command example_consts example_env
        (handle_results_cmd example_consts example_env
          (example_panels "DNSTRIG1 results".toList) 8) 7 = some d2 ∧
      d2.trace = (handle_results_cmd example_consts example_env
          (example_panels "DNSTRIG1 results".toList) 8).trace ++ calls ++
        Event.SSL_shutdown 7 :: tail ∧
      ssl_writes calls = (handle_results_cmd example_consts example_env
          (example_panels "DNSTRIG1 results".toList) 8).global_svr.busy_list.flatMap
        stop_writes ∧
      ssl_writes tail = [] ∧
      Event.comm_base_exit ∉ calls ++ Event.SSL_shutdown 7 :: tail :=
  ⟨rfl, ⟨rfl, rfl⟩,
    (stoppanels_command example_consts example_env
      (handle_results_cmd example_consts example_env
        (example_panels "DNSTRIG1 results".toList) 8) 7
      (example_conn 7 .command_read "DNSTRIG1 stoppanels".toList)
      ("stoppanels".toList ++ [NUL]) (by decide) rfl (by decide)).1 (by decide)⟩

/-! ## The iplist posture -/

theorem prline_whole (env : libc) (hwr : ∀ s, env.fprintf s = s.length) (out line : CStr) :
    prline env out line = out ++ cstr line := by
  unfold prline
  rw [hwr, Int.toNat_ofNat, List.take_length]

/-- A line made of a NUL-free keyword, a value and the newline is not cut by `snprintf`
into the line buffer when it fits. -/
theorem snprintf_line (kw v : CStr) (hn : NUL ∉ kw)
    (hlen : kw.length + (cstr v).length + 1 ≤ 1023) :
    cstr (snprintf 1024 (kw ++ cstr v ++ "\n".toList)) = kw ++ cstr v ++ "\n".toList := by
  have l1 : "\n".toList.length = 1 := rfl
  unfold snprintf
  rw [List.take_of_length_le (by simp only [List.length_append, l1]; omega)]
  apply cstr_of_not_mem
  simp only [List.mem_append, not_or]
  exact ⟨⟨hn, NUL_not_mem_cstr v⟩, by decide⟩

/-- What `open_rescf` has written when the file opens, every write succeeds and the
configured values fit. -/
theorem open_rescf_written (K : Consts) (env : libc) (cfg : cfg) (h : Host)
    (hopen : env.fopen_w = true) (hwr : ∀ s, env.fprintf s = s.length)
    (hd : fits_buffer 7 cfg.rescf_domain) (hs : fits_buffer 7 cfg.rescf_search) :
    open_rescf K env cfg h =
      ({ ((h.call .r_mutable).call (.chmod 644)).call .fopen_w with resolvconf := some [] },
        some (cstr (signature_line K) ++
          (match cfg.rescf_domain with
            | some d => "domain ".toList ++ cstr d ++ "\n".toList
            | none => []) ++
          (match cfg.rescf_search with
            | some s => "search ".toList ++ cstr s ++ "\n".toList
            | none => []))) := by
  unfold open_rescf
  simp only [hopen, Bool.true_eq_false, if_false, prline_whole env hwr, List.nil_append]
  cases hdv : cfg.rescf_domain with
  | none =>
    cases hsv : cfg.rescf_search with
    | none => simp
    | some s =>
      simp only [List.append_nil]
      rw [snprintf_line "search ".toList s (by decide) (hs s hsv)]
  | some d =>
    cases hsv : cfg.rescf_search with
    | none =>
      simp only [List.append_nil]
      rw [snprintf_line "domain ".toList d (by decide) (hd d hdv)]
    | some s =>
      simp only []
      rw [snprintf_line "domain ".toList d (by decide) (hd d hdv),
        snprintf_line "search ".toList s (by decide) (hs s hsv)]

/-- The loop writes one `nameserver` line for each cache probe, in order. -/
theorem hook_resolv_iplist_loop_written (env : libc) (hwr : ∀ s, env.fprintf s = s.length)
    (list : List probe_ip) :
    ∀ out, (∀ p ∈ list, probe_is_cache p = true → 11 + (cstr p.name).length + 1 ≤ 1023) →
      hook_resolv_iplist_loop env list out =
        out ++ (list.filter probe_is_cache).flatMap
          (fun p => "nameserver ".toList ++ cstr p.name ++ "\n".toList) := by
  induction list with
  | nil => intro out _; simp [hook_resolv_iplist_loop]
  | cons p list ih =>
    intro out hfit
    have hfit2 : ∀ q ∈ list, probe_is_cache q = true → 11 + (cstr q.name).length + 1 ≤ 1023 :=
      fun q hq => hfit q (List.mem_cons_of_mem _ hq)
    rw [hook_resolv_iplist_loop]
    by_cases hc : probe_is_cache p = true
    · rw [if_pos hc, ih _ hfit2, prline_whole env hwr,
        snprintf_line "nameserver ".toList p.name (by decide)
          (hfit p (List.mem_cons_self _ _) hc),
        List.filter_cons_of_pos hc, List.flatMap_cons, List.append_assoc]
    · rw [if_neg hc, ih _ hfit2, List.filter_cons_of_neg hc]

theorem open_rescf_set_to_localhost (K : Consts) (env : libc) (cfg : cfg) (h : Host) :
    (open_rescf K env cfg h).1.set_to_localhost = h.set_to_localhost := by
  unfold open_rescf
  simp only []
  split_ifs <;> rfl

/-- C22: on the resolv.conf backend, with `noaction` off, a file that opens, writes that
succeed, and configured values and cache probe names that fit the 1024-byte line buffer,
the file that `hook_resolv_iplist` leaves holds the signature line, then `domain <d>` iff
`rescf_domain` is configured, then `search <s>` iff `rescf_search` is configured, then one
line `nameserver <name>` for each cache probe of the list, in probe-list order, and nothing
for any other entry. After `hook_resolv_iplist` `set_to_localhost` is 0 and after
`hook_resolv_localhost`, which always returns, it is 1, whatever `noaction` and the C
library say. -/
theorem hook_resolv_iplist_content (K : Consts) (env : libc) (cfg : cfg) (h : Host)
    (list : List probe_ip) :
    (cfg.noaction = 0 → env.fopen_w = true → (∀ s, env.fprintf s = s.length) →
      fits_buffer 7 cfg.rescf_domain → fits_buffer 7 cfg.rescf_search →
      (∀ p ∈ list, probe_is_cache p = true → 11 + (cstr p.name).length + 1 ≤ 1023) →
      (hook_resolv_iplist K env cfg h list).resolvconf = some (iplist_text K cfg list)) ∧
    (hook_resolv_iplist K env cfg h list).set_to_localhost = 0 ∧
    ∃ h1, hook_resolv_localhost K env cfg h = some h1 ∧ h1.set_to_localhost = 1 := by
  refine ⟨?_, ?_, ?_⟩
  · intro hna hopen hwr hd hs hn
    unfold hook_resolv_iplist
    simp only [hna, ne_eq, not_true_eq_false, if_false,
      open_rescf_written K env cfg _ hopen hwr hd hs,
      hook_resolv_iplist_loop_written env hwr list _ hn]
    rfl
  · unfold hook_resolv_iplist
    simp only []
    split_ifs
    · rfl
    · have h0 := open_rescf_set_to_localhost K env cfg { h with set_to_localhost := 0 }
      cases ho : open_rescf K env cfg { h with set_to_localhost := 0 } with
      | mk h2 out =>
        rw [ho] at h0
        cases out with
        | none => exact h0
        | some out => exact h0
  · unfold hook_resolv_localhost
    simp only []
    split_ifs
    · exact ⟨_, rfl, rfl⟩
    · obtain ⟨r, hr⟩ := really_set_to_localhost_total K cfg { h with set_to_localhost := 1 }
      rw [hr]
      simp only []
      split_ifs
      · exact ⟨_, rfl, rfl⟩
      · have h0 := open_rescf_set_to_localhost K env cfg { h with set_to_localhost := 1 }
        cases ho : open_rescf K env cfg { h with set_to_localhost := 1 } with
        | mk h2 out =>
          rw [ho] at h0
          cases out with
          | none => exact ⟨_, rfl, h0⟩
          | some out => exact ⟨_, rfl, h0⟩

/-- Witness of C22: the probe list with two cache probes and a probe to an authority,
written over a resolv.conf that names a resolver of the network. -/
theorem hook_resolv_iplist_content_witness :
    hook_resolv_iplist example_consts example_libc example_cfg example_host example_probes =
      { set_to_localhost := 0,
        resolvconf := some ("# Generated by dnssec-trigger 0.13\n".toList ++
          "domain example.com\n".toList ++ "nameserver 192.0.2.1\n".toList ++
          "nameserver 192.0.2.2\n".toList),
        calls := [.r_mutable, .chmod 644, .fopen_w, .fclose, .chmod 444, .r_immutable] } ∧
    (hook_resolv_iplist example_consts example_libc example_cfg example_host
      example_probes).resolvconf = some (iplist_text example_consts example_cfg example_probes) :=
  ⟨by decide,
    (hook_resolv_iplist_content example_consts example_libc example_cfg example_host
      example_probes).1 rfl rfl (fun _ => rfl) (fun v hv => by cases hv; decide)
      (fun v hv => by cases hv) (by decide)⟩

/-! ## What `really_set_to_localhost` accepts -/

theorem fgets_take_append (room : Nat) : ∀ (stream : CStr),
    (fgets_take room stream).1 ++ (fgets_take room stream).2 = stream := by
  induction room with
  | zero => intro stream; rfl
  | succ room ih =>
    intro stream
    cases stream with
    | nil => rfl
    | cons ch stream =>
      rw [fgets_take]
      split_ifs
      · rfl
      · simp only [List.cons_append, ih stream]

/-- A line that `fgets` stores is not longer than the room, and a newline is its last
character. -/
theorem fgets_take_line_shape (room : Nat) : ∀ (stream : CStr),
    (fgets_take room stream).1.length ≤ room ∧ '\n' ∉ (fgets_take room stream).1.dropLast := by
  induction room with
  | zero => intro stream; simp [fgets_take]
  | succ room ih =>
    intro stream
    cases stream with
    | nil => simp [fgets_take]
    | cons ch stream =>
      rw [fgets_take]
      by_cases hch : ch = '\n'
      · rw [if_pos hch]
        simp
      · rw [if_neg hch]
        obtain ⟨h1, h2⟩ := ih stream
        refine ⟨by simpa using h1, ?_⟩
        show '\n' ∉ (ch :: (fgets_take room stream).1).dropLast
        cases hl : (fgets_take room stream).1 with
        | nil => simp
        | cons x xs =>
          rw [hl] at h2
          rw [List.dropLast_cons_of_ne_nil (List.cons_ne_nil _ _), List.mem_cons, not_or]
          exact ⟨fun h => hch h.symm, h2⟩

theorem fgets_shape (stream line rest : CStr) (h : fgets 1024 stream = some (line, rest)) :
    line.length ≤ 1023 ∧ '\n' ∉ line.dropLast ∧ stream = line ++ rest := by
  unfold fgets at h
  split_ifs at h
  simp only [Nat.add_one_sub_one, Option.some.injEq] at h
  have h1 := fgets_take_line_shape 1023 stream
  have h2 := fgets_take_append 1023 stream
  rw [h] at h1 h2
  exact ⟨h1.1, h1.2, h2.symm⟩

/-- A line whose only newline is its last character, and that begins with a text ending in
a newline, is that text. -/
theorem eq_of_newline_last (l t : CStr) (hl : '\n' ∉ l.dropLast)
    (hpre : t ++ ['\n'] <+: l) : l = t ++ ['\n'] := by
  obtain ⟨junk, rfl⟩ := hpre
  cases junk with
  | nil => simp
  | cons x xs =>
    exfalso
    apply hl
    rw [List.dropLast_append_of_ne_nil _ (List.cons_ne_nil x xs)]
    simp

/-- A text that passes `check_line_arg` begins with the configured value and a newline. -/
theorem check_line_arg_pass (x : CStr) (opt : Option CStr) (h : check_line_arg x opt ≠ 0) :
    ∃ v, opt = some v ∧ cstr v ++ ['\n'] <+: x := by
  unfold check_line_arg at h
  cases opt with
  | none => exact absurd rfl h
  | some v =>
    simp only [] at h
    by_cases h1 : strncmp x v (strlen v) ≠ 0
    · rw [if_pos h1] at h
      exact absurd rfl h
    · rw [if_neg h1] at h
      by_cases h2 : strcmp (x.drop (strlen v)) "\n".toList ≠ 0
      · rw [if_pos h2] at h
        exact absurd rfl h
      · refine ⟨v, rfl, ?_⟩
        have e1 := not_not.mp h1
        have e2 := not_not.mp h2
        rw [strncmp_cstr_right] at e1
        unfold strlen at e1 e2
        rw [strncmp_eq_zero_iff _ _ (NUL_not_mem_cstr v) (le_refl _), List.take_length] at e1
        rw [strcmp_eq_zero_iff _ (by decide)] at e2
        obtain ⟨y, hy⟩ := e1
        have hy2 : x.drop (cstr v).length = y := by
          rw [← hy, List.drop_left]
        rw [hy2] at e2
        obtain ⟨z, hz⟩ := cstr_prefix y
        rw [e2] at hz
        exact ⟨z, by rw [← hy, ← hz]; simp⟩

theorem prefix_same_length (p q l : CStr) (hp : p <+: l) (hq : q <+: l)
    (hlen : p.length = q.length) : p = q :=
  List.IsPrefix.eq_of_length (List.prefix_of_prefix_length_le hp hq (le_of_eq hlen)) hlen

/-- A line that one round of the loop takes is allowed, and the round sets `saw_127` only
on the loopback line. -/
theorem really_set_to_localhost_line_allowed (cfg : cfg) (l : CStr) (a b c a2 b2 c2 : Int)
    (hlen : l.length ≤ 1023) (hnl : '\n' ∉ l.dropLast)
    (h : really_set_to_localhost_line cfg l a b c = some (a2, b2, c2)) :
    line_allowed cfg l ∧ (a2 ≠ 0 → a ≠ 0 ∨ l = "nameserver 127.0.0.1\n".toList) := by
  have i1 : strcmp l "nameserver 127.0.0.1\n".toList = 0 ↔
      cstr l = "nameserver 127.0.0.1\n".toList := strcmp_eq_zero_iff _ (by decide) l
  have i2 : strncmp l "nameserver".toList 10 = 0 ↔ "nameserver".toList <+: l :=
    strncmp_eq_zero_iff 10 _ (by decide) (by decide) l
  have i3 : strncmp l "search ".toList 7 = 0 ↔ "search ".toList <+: l :=
    strncmp_eq_zero_iff 7 _ (by decide) (by decide) l
  have i4 : strncmp l "domain ".toList 7 = 0 ↔ "domain ".toList <+: l :=
    strncmp_eq_zero_iff 7 _ (by decide) (by decide) l
  have hsd : "search ".toList <+: l → "domain ".toList <+: l → False := fun h1 h2 =>
    absurd (prefix_same_length _ _ l h1 h2 rfl) (by decide)
  have hkw : ∀ (kw x : CStr) (opt : Option CStr), kw <+: l → l.drop kw.length = x →
      check_line_arg x opt ≠ 0 → ∃ v, opt = some v ∧ l = kw ++ cstr v ++ "\n".toList := by
    intro kw x opt hpre hx hck
    obtain ⟨v, hv, y, hy⟩ := check_line_arg_pass x opt hck
    refine ⟨v, hv, eq_of_newline_last l (kw ++ cstr v) hnl ⟨y, ?_⟩⟩
    obtain ⟨w, hw⟩ := hpre
    have hxw : x = w := by rw [← hx, ← hw, List.drop_left]
    rw [← hw, ← hxw, ← hy]
    simp
  unfold really_set_to_localhost_line at h
  rw [List.take_of_length_le hlen] at h
  by_cases c1 : strcmp l "nameserver 127.0.0.1\n".toList = 0
  · have hl : l = "nameserver 127.0.0.1\n".toList := by
      have e := i1.mp c1
      refine eq_of_newline_last l "nameserver 127.0.0.1".toList hnl ?_
      have := cstr_prefix l
      rw [e] at this
      exact this
    subst hl
    exact ⟨⟨fun _ => rfl, fun hp => absurd hp (by decide), fun hp => absurd hp (by decide)⟩,
      fun _ => Or.inr rfl⟩
  rw [if_neg c1] at h
  by_cases c2 : strncmp l "nameserver".toList 10 = 0
  · rw [if_pos c2] at h
    exact absurd h (by simp)
  rw [if_neg c2] at h
  have n2 : ¬ "nameserver".toList <+: l := fun hp => c2 (i2.mpr hp)
  by_cases c3 : strncmp l "search ".toList 7 = 0
  · rw [if_pos c3] at h
    by_cases c5 : check_line_arg (l.drop 7) cfg.rescf_search = 0
    · rw [if_pos c5] at h
      exact absurd h (by simp)
    · rw [if_neg c5] at h
      simp only [Option.some.injEq, Prod.mk.injEq] at h
      refine ⟨⟨fun hp => absurd hp n2, fun hp => hkw _ _ _ hp rfl c5,
        fun hp => (hsd (i3.mp c3) hp).elim⟩, fun ha => Or.inl (h.1 ▸ ha)⟩
  rw [if_neg c3] at h
  have n3 : ¬ "search ".toList <+: l := fun hp => c3 (i3.mpr hp)
  by_cases c4 : strncmp l "domain ".toList 7 = 0
  · rw [if_pos c4] at h
    by_cases c5 : check_line_arg (l.drop 7) cfg.rescf_domain = 0
    · rw [if_pos c5] at h
      exact absurd h (by simp)
    · rw [if_neg c5] at h
      simp only [Option.some.injEq, Prod.mk.injEq] at h
      refine ⟨⟨fun hp => absurd hp n2, fun hp => absurd hp n3,
        fun hp => hkw _ _ _ hp rfl c5⟩, fun ha => Or.inl (h.1 ▸ ha)⟩
  rw [if_neg c4] at h
  have n4 : ¬ "domain ".toList <+: l := fun hp => c4 (i4.mpr hp)
  simp only [Option.some.injEq, Prod.mk.injEq] at h
  exact ⟨⟨fun hp => absurd hp n2, fun hp => absurd hp n3, fun hp => absurd hp n4⟩,
    fun ha => Or.inl (h.1 ▸ ha)⟩

theorem fgets_lines_succ (fuel : Nat) (stream : CStr) :
    fgets_lines (fuel + 1) stream =
      match fgets 1024 stream with
      | none => []
      | some (line, rest) => line :: fgets_lines fuel rest := rfl

/-- The lines read do not depend on the bound once it is the length of the text. -/
theorem fgets_lines_fuel (f1 : Nat) : ∀ (f2 : Nat) (stream : CStr),
    stream.length ≤ f1 → stream.length ≤ f2 → fgets_lines f1 stream = fgets_lines f2 stream := by
  induction f1 with
  | zero =>
    intro f2 stream h1 _
    have hs : stream = [] := List.length_eq_zero.mp (Nat.le_zero.mp h1)
    subst hs
    cases f2 <;> rfl
  | succ f1 ih =>
    intro f2 stream h1 h2
    cases f2 with
    | zero =>
      have hs : stream = [] := List.length_eq_zero.mp (Nat.le_zero.mp h2)
      subst hs
      rfl
    | succ f2 =>
      rw [fgets_lines_succ, fgets_lines_succ]
      cases hf : fgets 1024 stream with
      | none => rfl
      | some q =>
        obtain ⟨line, rest⟩ := q
        have hlt := fgets_length_lt stream line rest hf
        simp only []
        rw [ih f2 rest (by omega) (by omega)]

/-- When the loop reports a match, every line it read is allowed, and the loopback line is
among them unless `saw_127` was set before. -/
theorem really_set_to_localhost_loop_allowed (cfg : cfg) (fuel : Nat) :
    ∀ (stream : CStr) (a b c r : Int),
      really_set_to_localhost_loop cfg fuel stream a b c = some r → r ≠ 0 →
      (∀ l ∈ fgets_lines fuel stream, line_allowed cfg l) ∧
        (a ≠ 0 ∨ "nameserver 127.0.0.1\n".toList ∈ fgets_lines fuel stream) := by
  induction fuel with
  | zero =>
    intro stream a b c r h
    simp [really_set_to_localhost_loop] at h
  | succ fuel ih =>
    intro stream a b c r h hr
    rw [really_set_to_localhost_loop_succ] at h
    rw [fgets_lines_succ]
    cases hf : fgets 1024 stream with
    | none =>
      rw [hf] at h
      simp only [Option.some.injEq] at h
      refine ⟨fun l hl => absurd hl (List.not_mem_nil l), Or.inl ?_⟩
      intro ha
      apply hr
      rw [← h]
      unfold really_set_to_localhost_end
      split_ifs
      · rfl
      · rfl
      · exact ha
    | some q =>
      obtain ⟨line, rest⟩ := q
      obtain ⟨s1, s2, -⟩ := fgets_shape stream line rest hf
      rw [hf] at h
      simp only [] at h ⊢
      cases hl : really_set_to_localhost_line cfg line a b c with
      | none =>
        rw [hl] at h
        simp only [Option.some.injEq] at h
        exact absurd h.symm hr
      | some st =>
        obtain ⟨a2, b2, c2⟩ := st
        rw [hl] at h
        simp only [] at h
        obtain ⟨k1, k2⟩ := ih rest a2 b2 c2 r h hr
        obtain ⟨m1, m2⟩ := really_set_to_localhost_line_allowed cfg line a b c a2 b2 c2 s1 s2 hl
        refine ⟨?_, ?_⟩
        · intro l hmem
          rcases List.mem_cons.mp hmem with e | e
          · rw [e]
            exact m1
          · exact k1 l e
        · rcases k2 with ha2 | hin
          · rcases m2 ha2 with ha | e
            · exact Or.inl ha
            · exact Or.inr (by rw [e]; exact List.mem_cons_self _ _)
          · exact Or.inr (List.mem_cons_of_mem _ hin)

/-- C21 (counterexample): a file with the signature line and two lines
`nameserver 127.0.0.1` is reported as a match. -/
theorem really_set_to_localhost_two_loopback_counterexample :
    really_set_to_localhost example_consts
        { rescf_domain := none, rescf_search := none, noaction := 0 }
        { example_host with resolvconf := some example_two_loopback } = some 1 ∧
    file_lines example_two_loopback =
      ["# Generated by dnssec-trigger 0.13\n".toList, "nameserver 127.0.0.1\n".toList,
        "nameserver 127.0.0.1\n".toList] := by
  constructor <;> decide

/-- C21 (amended): when `really_set_to_localhost` reports a match, the file exists, its
first line is exactly the signature line, at least one of the lines after it is
`nameserver 127.0.0.1` (several are accepted), every other line that begins with
`nameserver` is rejected, and every line that begins with `search ` or `domain ` is that
keyword, the configured `rescf_search` or `rescf_domain` value and a newline, so that such a
line is rejected when the option is not configured or when more follows the value. Lines
are read with `fgets` into the 1024-byte buffer. -/
theorem really_set_to_localhost_match (K : Consts) (cfg : cfg) (h : Host) (r : Int)
    (hK : NUL ∉ K.PACKAGE_STRING) (hres : really_set_to_localhost K cfg h = some r)
    (hr : r ≠ 0) :
    ∃ content lines, h.resolvconf = some content ∧
      file_lines content = signature_line K :: lines ∧
      "nameserver 127.0.0.1\n".toList ∈ lines ∧ ∀ l ∈ lines, line_allowed cfg l := by
  unfold really_set_to_localhost at hres
  cases hf : h.resolvconf with
  | none =>
    rw [hf] at hres
    simp only [Option.some.injEq] at hres
    exact absurd hres.symm hr
  | some content =>
    rw [hf] at hres
    simp only [] at hres
    cases hg : fgets 1024 content with
    | none =>
      rw [hg] at hres
      simp only [Option.some.injEq] at hres
      exact absurd hres.symm hr
    | some q =>
      obtain ⟨line, rest⟩ := q
      rw [hg] at hres
      simp only [] at hres
      by_cases hsig : strcmp line (signature_line K) ≠ 0
      · rw [if_pos hsig] at hres
        simp only [Option.some.injEq] at hres
        exact absurd hres.symm hr
      · rw [if_neg hsig] at hres
        obtain ⟨-, s2, -⟩ := fgets_shape content line rest hg
        have hlt := fgets_length_lt content line rest hg
        have hnul : NUL ∉ signature_line K := by
          rw [← signature_line_cstr K hK]
          exact NUL_not_mem_cstr _
        have hline : line = signature_line K := by
          have e := (strcmp_eq_zero_iff _ hnul line).mp (not_not.mp hsig)
          have hp := cstr_prefix line
          rw [e] at hp
          exact eq_of_newline_last line ("# Generated by ".toList ++ K.PACKAGE_STRING) s2 hp
        obtain ⟨k1, k2⟩ := really_set_to_localhost_loop_allowed cfg _ rest 0 0 0 r hres hr
        have hlines : file_lines content = line :: fgets_lines (rest.length + 1) rest := by
          unfold file_lines
          obtain ⟨n, hn⟩ : ∃ n, content.length = n + 1 := ⟨content.length - 1, by omega⟩
          rw [hn, fgets_lines_succ, hg]
          simp only []
          rw [fgets_lines_fuel n (rest.length + 1) rest (by omega) (by omega)]
        refine ⟨content, _, rfl, by rw [hlines, hline], ?_, k1⟩
        rcases k2 with h0 | hin
        · exact absurd rfl h0
        · exact hin

/-- Witness of C21 (amended): the file that the loopback hook writes for a configuration
with a `domain` value is reported as a match. -/
theorem really_set_to_localhost_match_witness :
    ∃ content lines, (some (localhost_text example_consts example_cfg) : Option CStr) =
        some content ∧
      file_lines content = signature_line example_consts :: lines ∧
      "nameserver 127.0.0.1\n".toList ∈ lines ∧ ∀ l ∈ lines, line_allowed example_cfg l :=
  really_set_to_localhost_match example_consts example_cfg
    { example_host with resolvconf := some (localhost_text example_consts example_cfg) } 1
    (by decide) (by decide) (by decide)

end DnssecTrigger
